import Mathlib

/-!
# Dispatch and scheduling machinery of `utest-wl-display.c`

Three parts of the file are embedded: the window redraw state machine, the
input focus router (the pointer, touch and keyboard callbacks and the
3D-input and joystick hooks, lines 279-286 and 485-1110) and the display
dispatch thread (lines 296-396).

The window redraw state machine is a shallow embedding of the per-window flag
word and of the functions that read or write it:

* `window_schedule_redraw`   (utest-wl-display.c, lines 2075-2106)
* `__window_sync_callback`   (lines 2109-2139), with the `BUG` check of
  utest-common.h (lines 222-241)
* `__window_sync_callback2`  (lines 2141-2152)
* `window_draw`              (lines 2165-2228)
* `window_thread`            (lines 1481-1524)
* `window_destroy`           (lines 1998-2014, the locked section)

The flag word is the `u32 flags` field of `struct window_data`; it is a
natural number below `2 ^ 32`, and the C operators `&`, `|`, `^` are the
bitwise operators of `Nat`.  The complement `~x` of a 32-bit word is
`UINT32_MAX ^^^ x`.
-/

namespace Utest

/-! ## Flag word -/

/-- Flag `WINDOW_FLAG_REDRAW`, defined as `(1 << 0)`: redraw command pending. -/
def WINDOW_FLAG_REDRAW : Nat := 1 <<< 0

/-- Flag `WINDOW_FLAG_BUSY`, defined as `(1 << 1)`: buffer busyness flag. -/
def WINDOW_FLAG_BUSY : Nat := 1 <<< 1

/-- Flag `WINDOW_FLAG_PENDING`, defined as `(1 << 2)`: pending redraw request. -/
def WINDOW_FLAG_PENDING : Nat := 1 <<< 2

/-- Flag `WINDOW_FLAG_TERMINATE`, defined as `(1 << 3)`: termination command pending. -/
def WINDOW_FLAG_TERMINATE : Nat := 1 <<< 3

/-- Largest value of a `u32`. -/
def UINT32_MAX : Nat := 2 ^ 32 - 1

/-- The C complement `~x` converted to `u32`. -/
def u32_not (x : Nat) : Nat := UINT32_MAX ^^^ x

/-- Configuration option `INTERN_DEBUG`, defined as 1 in utest-common.h (line 99):
the debugging facility is on. -/
def INTERN_DEBUG : Nat := 1

/-- The run-time bugcheck `BUG(cond, ...)`: with `INTERN_DEBUG` non-zero it
calls `abort()` when `cond` holds (result `none`); with `INTERN_DEBUG` zero
it expands to `(void)0`. -/
def BUG (intern_debug : Nat) (cond : Bool) : Option Unit :=
  if intern_debug ≠ 0 then (if cond then none else some ()) else some ()

/-! ## Functions on the flag word -/

/-- Function `window_schedule_redraw`: the new flag word and the value of `kick`
(whether `pthread_cond_signal(&window->wait)` is called). -/
def window_schedule_redraw (flags : Nat) : Nat × Bool :=
  if flags &&& (WINDOW_FLAG_REDRAW ||| WINDOW_FLAG_PENDING) = 0 then
    if flags &&& WINDOW_FLAG_BUSY = 0 then
      (flags ^^^ WINDOW_FLAG_REDRAW, true)
    else
      (flags ^^^ WINDOW_FLAG_PENDING, false)
  else
    (flags, false)

/-- Function `__window_sync_callback`: `none` when the bugcheck aborts, otherwise the
new flag word and the value of `kick`. -/
def __window_sync_callback (intern_debug : Nat) (flags : Nat) : Option (Nat × Bool) :=
  match BUG intern_debug (flags &&& WINDOW_FLAG_BUSY == 0) with
  | none => none
  | some () =>
    let flags1 := flags ^^^ WINDOW_FLAG_BUSY
    if flags1 &&& WINDOW_FLAG_PENDING ≠ 0 then
      some (flags1 ^^^ (WINDOW_FLAG_PENDING ||| WINDOW_FLAG_REDRAW), true)
    else
      some (flags1, false)

/-- Function `__window_sync_callback2`: the listener that `window_draw` registers on
the frame callback.  It unlocks the waiting lock passed as `data` and does
not touch the window. -/
def __window_sync_callback2 (flags : Nat) : Nat := flags

/-- The block that `window_draw` guards with `if (0)` (lines 2194-2198). -/
def window_draw_disabled (flags : Nat) : Nat :=
  let flags1 := flags ^^^ WINDOW_FLAG_BUSY
  if flags1 &&& WINDOW_FLAG_REDRAW ≠ 0 then
    flags1 ^^^ (WINDOW_FLAG_REDRAW ||| WINDOW_FLAG_PENDING)
  else
    flags1

/-- The locked section of `window_draw` (lines 2190-2201):
`if (0) { ... }` between `pthread_mutex_lock` and `pthread_mutex_unlock`. -/
def window_draw (flags : Nat) : Nat :=
  if (0 : Nat) ≠ 0 then window_draw_disabled flags else flags

/-- The locked section of `window_destroy` (lines 2006-2009): the new flag
word and whether the condition variable is signalled. -/
def window_destroy (flags : Nat) : Nat × Bool :=
  (flags ||| WINDOW_FLAG_TERMINATE, true)

/-- What the render thread does that other code can observe. -/
inductive Effect where
  | lock
  | unlock
  | cond_wait
  | redraw
  | thread_exit
  deriving DecidableEq, Repr

/-- One pass of the `while (1)` body of `window_thread`, from
`pthread_mutex_lock` up to the point where the thread blocks in
`pthread_cond_wait`, leaves the loop, or has invoked `window->info->redraw`.
Returns the new flag word and the effects in program order. -/
def window_thread (flags : Nat) : Nat × List Effect :=
  if flags &&& (WINDOW_FLAG_REDRAW ||| WINDOW_FLAG_TERMINATE) = 0 then
    (flags, [Effect.lock, Effect.cond_wait])
  else if flags &&& WINDOW_FLAG_TERMINATE ≠ 0 then
    (flags, [Effect.lock, Effect.unlock, Effect.thread_exit])
  else
    (flags &&& u32_not WINDOW_FLAG_REDRAW, [Effect.lock, Effect.unlock, Effect.redraw])

/-! ## The window as seen by its threads

`window_data` below is the part of `struct window_data` that the redraw
machinery uses (the flag word) together with bookkeeping that the C code
does not store: where the render thread is, how many times
`window_schedule_redraw` has been called, how many times the render thread
has invoked `window->info->redraw`, and how many frames have been committed
by `window_draw` and not yet acknowledged by the compositor. -/

/-- The position of the render thread. -/
inductive Pc where
  /-- At the top of `while (1)` in `window_thread`, or blocked in
  `pthread_cond_wait`. -/
  | loop
  /-- Inside `window->info->redraw` (in this repository `app_redraw`). -/
  | hook
  /-- Inside `window_draw`, after `wl_surface_commit`, blocked on the second
  `pthread_mutex_lock(&__wait_lock)`. -/
  | draw_wait
  /-- After `break`: the thread function has returned. -/
  | exited
  deriving DecidableEq, Repr

/-- The window state. -/
structure window_data where
  flags : Nat
  pc : Pc
  scheduled : Nat
  redraws : Nat
  in_flight : Nat
  deriving DecidableEq, Repr

/-- The window as `window_create` leaves it: `window->flags = 0`, the render
thread just started. -/
def window_create : window_data :=
  { flags := 0, pc := Pc.loop, scheduled := 0, redraws := 0, in_flight := 0 }

/-- The atomic steps of the threads that touch a window. -/
inductive Event where
  /-- Some thread calls `window_schedule_redraw`. -/
  | schedule_redraw
  /-- The render thread makes one pass of its loop (`window_thread`). -/
  | thread_pass
  /-- The redraw hook calls `window_draw`: locked section, frame callback
  request with `__window_sync_listener2`, commit, flush; the thread then
  blocks on `__wait_lock`. -/
  | draw
  /-- The dispatch thread delivers the frame callback to
  `__window_sync_callback2`, which releases `__wait_lock`. -/
  | frame_done
  /-- The redraw hook returns to `window_thread`. -/
  | hook_return
  /-- The dispatch thread runs `__window_sync_callback` on the window. -/
  | sync_callback
  /-- Some thread runs the locked section of `window_destroy`. -/
  | destroy
  deriving DecidableEq, Repr

/-- Where the render thread is after a pass with the given effects. -/
def pc_after (effects : List Effect) : Pc :=
  if Effect.thread_exit ∈ effects then Pc.exited
  else if Effect.redraw ∈ effects then Pc.hook
  else Pc.loop

/-- One step of the window; `none` when the step cannot be taken from this
state (the render thread is elsewhere) or when the process aborts. -/
def step (intern_debug : Nat) (w : window_data) : Event → Option window_data
  | Event.schedule_redraw =>
    some { w with flags := (window_schedule_redraw w.flags).1, scheduled := w.scheduled + 1 }
  | Event.thread_pass =>
    if w.pc = Pc.loop then
      some { w with flags := (window_thread w.flags).1,
                    pc := pc_after (window_thread w.flags).2,
                    redraws := w.redraws + (window_thread w.flags).2.count Effect.redraw }
    else none
  | Event.draw =>
    if w.pc = Pc.hook then
      some { w with flags := window_draw w.flags, pc := Pc.draw_wait, in_flight := w.in_flight + 1 }
    else none
  | Event.frame_done =>
    if w.pc = Pc.draw_wait then
      some { w with flags := __window_sync_callback2 w.flags, pc := Pc.hook,
                    in_flight := w.in_flight - 1 }
    else none
  | Event.hook_return =>
    if w.pc = Pc.hook then some { w with pc := Pc.loop } else none
  | Event.sync_callback =>
    match __window_sync_callback intern_debug w.flags with
    | none => none
    | some r => some { w with flags := r.1 }
  | Event.destroy =>
    some { w with flags := (window_destroy w.flags).1 }

/-- Run a sequence of steps. -/
def run (intern_debug : Nat) (w : window_data) : List Event → Option window_data
  | [] => some w
  | e :: es =>
    match step intern_debug w e with
    | none => none
    | some w1 => run intern_debug w1 es

/-- The functions that write the flag word, for interleavings in which
nothing but the flag word is followed. -/
inductive FlagOp where
  | schedule_redraw
  | window_thread
  | window_draw
  | sync_callback
  | destroy
  deriving DecidableEq, Repr

/-- The flag word after one of the functions; `none` when the bugcheck in
`__window_sync_callback` aborts. -/
def flag_step (intern_debug : Nat) (flags : Nat) : FlagOp → Option Nat
  | FlagOp.schedule_redraw => some (window_schedule_redraw flags).1
  | FlagOp.window_thread => some (window_thread flags).1
  | FlagOp.window_draw => some (window_draw flags)
  | FlagOp.sync_callback => (__window_sync_callback intern_debug flags).map Prod.fst
  | FlagOp.destroy => some (window_destroy flags).1

/-- The flag word after a sequence of the functions. -/
def flag_run (intern_debug : Nat) (flags : Nat) : List FlagOp → Option Nat
  | [] => some flags
  | op :: ops =>
    match flag_step intern_debug flags op with
    | none => none
    | some flags1 => flag_run intern_debug flags1 ops

/-- The invariant of the data model: `PENDING` only while `BUSY`, `REDRAW`
only while not `BUSY`. -/
def flags_ok (flags : Nat) : Prop :=
  (flags &&& WINDOW_FLAG_PENDING ≠ 0 → flags &&& WINDOW_FLAG_BUSY ≠ 0) ∧
  (flags &&& WINDOW_FLAG_REDRAW ≠ 0 → flags &&& WINDOW_FLAG_BUSY = 0)

instance (flags : Nat) : Decidable (flags_ok flags) := by
  unfold flags_ok; infer_instance

/-- One when any bit of `mask` is set in `flags`, else zero. -/
def flag_count (flags mask : Nat) : Nat := if flags &&& mask ≠ 0 then 1 else 0

/-- The flag bits that stand for outstanding work: REDRAW and PENDING. -/
def queued (flags : Nat) : Nat :=
  flag_count flags WINDOW_FLAG_REDRAW + flag_count flags WINDOW_FLAG_PENDING

/-- What holds of every window state that `run` reaches from `window_create`:
the flag word uses the four defined bits and satisfies `flags_ok`; a frame is
in flight exactly while the render thread is blocked inside `window_draw`;
every hook invocation and every queued request is backed by a call of
`window_schedule_redraw`, and once there was a call there is an invocation or
a queued request. -/
def window_inv (w : window_data) : Prop :=
  w.flags < 16 ∧ flags_ok w.flags ∧
  w.in_flight = (if w.pc = Pc.draw_wait then 1 else 0) ∧
  w.redraws + queued w.flags ≤ w.scheduled ∧
  (1 ≤ w.scheduled → 1 ≤ w.redraws + queued w.flags)

/-- The flag word after a redraw hook that submits one frame: `app_redraw`
calls `window_draw`, which returns once `__window_sync_callback2` has run. -/
def redraw_hook (flags : Nat) : Nat :=
  __window_sync_callback2 (window_draw flags)

/-- The render thread alone: `n` passes of its loop, each hook invocation
followed by `redraw_hook`, stopping when the thread leaves the loop.  Returns
the flag word and the number of hook invocations. -/
def thread_passes : Nat → Nat → Nat × Nat
  | 0, flags => (flags, 0)
  | n + 1, flags =>
    if Effect.thread_exit ∈ (window_thread flags).2 then
      ((window_thread flags).1, 0)
    else if Effect.redraw ∈ (window_thread flags).2 then
      ((thread_passes n (redraw_hook (window_thread flags).1)).1,
        (thread_passes n (redraw_hook (window_thread flags).1)).2 + 1)
    else
      thread_passes n (window_thread flags).1

/-- The window after one call of `window_schedule_redraw` on a new window,
the hook invocation it causes, one frame submitted and acknowledged, and the
return of the hook. -/
def window_after_one_frame : window_data :=
  { flags := 0, pc := Pc.loop, scheduled := 1, redraws := 1, in_flight := 0 }

/-- The steps that take the render thread from where it is to its next check
of the loop condition, and through that check. -/
def thread_to_check : Pc → List Event
  | Pc.loop => [Event.thread_pass]
  | Pc.hook => [Event.hook_return, Event.thread_pass]
  | Pc.draw_wait => [Event.frame_done, Event.hook_return, Event.thread_pass]
  | Pc.exited => []

/-! ## Input focus router

Pointers are natural numbers, the null pointer is `none`.  The root widget is
the first member of `struct window_data`, so `&window->widget` is the window
pointer itself.  What the application keeps behind `cdata` is a state of an
arbitrary type `σ` that every widget handler may read and change. -/

/-- Modelled from the spec: the header utest-event.h (the type
`widget_event_t` and the `WIDGET_EVENT_*` constants) is not among the sources.
One constructor per event type that utest-wl-display.c assigns to `event.type`,
carrying the fields of the event record that the code fills in before the
call. -/
inductive widget_event where
  | MOUSE_ENTER (x y : Int)
  | MOUSE_LEAVE
  | MOUSE_MOVE (x y : Int)
  | MOUSE_BUTTON (x y : Int) (button : Nat) (state : Bool)
  | MOUSE_AXIS (x y : Int) (axis : Nat) (value : Int)
  | TOUCH_DOWN (x y : Int) (id : Int)
  | TOUCH_UP (id : Int)
  | TOUCH_MOVE (x y : Int) (id : Int)
  | KEY_ENTER
  | KEY_LEAVE
  | KEY_PRESS (code : Nat) (state : Bool)
  | KEY_MODS (mods_on mods_off mods_locked : Nat)
  | SPNAV (e : Nat)
  | JOYSTICK (e : Nat)
  deriving DecidableEq, Repr

/-- The fields of `struct input_data` (the seat handle and list node apart). -/
structure input_data where
  caps : Nat
  pointer : Option Nat
  pointer_focus : Option Nat
  pointer_x : Int
  pointer_y : Int
  keyboard : Option Nat
  keyboard_focus : Option Nat
  touch : Option Nat
  touch_focus : Option Nat
  deriving DecidableEq, Repr

/-- The type of `widget_info_t.event`: called with the application state, the
widget pointer, the client data and the event; returns the new application
state and the widget that takes the focus (or null). -/
abbrev widget_handler_fn (σ : Type) : Type :=
  σ → Nat → Nat → widget_event → σ × Option Nat

/-- The field of `widget_info_t` that the input code reads: `event`, a
function pointer that may be null. -/
structure widget_info (σ : Type) where
  event : Option (widget_handler_fn σ)

/-- The memory that the input code reads through its pointers: the window
list of the display in list order, the user data of each surface, and the
fields `surface` and `cdata` of each window and `info` and `cdata` of each
widget. -/
structure display_data (σ : Type) where
  windows : List Nat
  surface_user_data : Nat → Option Nat
  window_surface : Nat → Option Nat
  window_cdata : Nat → Nat
  widget_info : Nat → Option (widget_info σ)
  widget_cdata : Nat → Nat

/-- What an input callback does besides writing `input_data`. -/
inductive input_effect where
  /-- The request `wl_pointer_set_cursor(pointer, serial, NULL, 0, 0)`. -/
  | set_cursor (serial : Nat)
  /-- The call `info->event(widget, cdata, &event)`, with the input device as
  it is when the call is made and the pointer the call returns. -/
  | event (widget cdata : Nat) (ev : widget_event) (input : input_data) (ret : Option Nat)
  deriving DecidableEq, Repr

/-- The outcome of an input callback. -/
structure input_result (σ : Type) where
  input : input_data
  app : σ
  log : List input_effect

/-- Function `__window_lookup` (lines 279-286). -/
def __window_lookup {σ : Type} (d : display_data σ) (surface : Option Nat) : Option Nat :=
  match surface with
  | none => none
  | some s =>
    match d.surface_user_data s with
    | none => none
    | some window => if d.window_surface window ≠ some s then none else some window

/-- The test `!(info = focus->info) || !info->event`, read the other way
round: the handler of the widget when both pointers are set. -/
def widget_handler {σ : Type} (d : display_data σ) (focus : Nat) :
    Option (widget_handler_fn σ) :=
  match d.widget_info focus with
  | none => none
  | some info => info.event

/-- The statement `input->pointer_focus = info->event(focus, focus->cdata, &event)`
and its keyboard and touch variants: call the handler, log the call, store
the returned pointer with `set`. -/
def call_handler {σ : Type} (d : display_data σ) (h : widget_handler_fn σ)
    (set : input_data → Option Nat → input_data) (input : input_data) (app : σ)
    (focus : Nat) (ev : widget_event) (before : List input_effect) : input_result σ :=
  { input := set input (h app focus (d.widget_cdata focus) ev).2,
    app := (h app focus (d.widget_cdata focus) ev).1,
    log := before ++ [input_effect.event focus (d.widget_cdata focus) ev input
      (h app focus (d.widget_cdata focus) ev).2] }

/-- Assignment to `input->pointer_focus`. -/
def set_pointer_focus (input : input_data) (p : Option Nat) : input_data :=
  { input with pointer_focus := p }

/-- Assignment to `input->keyboard_focus`. -/
def set_keyboard_focus (input : input_data) (p : Option Nat) : input_data :=
  { input with keyboard_focus := p }

/-- Assignment to `input->touch_focus`. -/
def set_touch_focus (input : input_data) (p : Option Nat) : input_data :=
  { input with touch_focus := p }

/-- Function `pointer_handle_enter` (lines 485-520); `sx`, `sy` are the
coordinates after `wl_fixed_to_int`. -/
def pointer_handle_enter {σ : Type} (d : display_data σ) (input : input_data) (app : σ)
    (serial : Nat) (surface : Option Nat) (sx sy : Int) : input_result σ :=
  match __window_lookup d surface with
  | none => { input := input, app := app, log := [] }
  | some window =>
    match widget_handler d window with
    | none => { input := { input with pointer_x := sx, pointer_y := sy }, app := app, log := [] }
    | some h =>
      call_handler d h set_pointer_focus { input with pointer_x := sx, pointer_y := sy } app
        window (widget_event.MOUSE_ENTER sx sy) [input_effect.set_cursor serial]

/-- Function `pointer_handle_leave` (lines 523-553). -/
def pointer_handle_leave {σ : Type} (d : display_data σ) (input : input_data) (app : σ)
    (surface : Option Nat) : input_result σ :=
  match __window_lookup d surface with
  | none => { input := input, app := app, log := [] }
  | some _ =>
    match input.pointer_focus with
    | none => { input := input, app := app, log := [] }
    | some focus =>
      match widget_handler d focus with
      | none => { input := { input with pointer_focus := none }, app := app, log := [] }
      | some h =>
        call_handler d h set_pointer_focus { input with pointer_focus := none } app
          focus widget_event.MOUSE_LEAVE []

/-- Function `pointer_handle_motion` (lines 556-582). -/
def pointer_handle_motion {σ : Type} (d : display_data σ) (input : input_data) (app : σ)
    (sx sy : Int) : input_result σ :=
  match input.pointer_focus with
  | none => { input := input, app := app, log := [] }
  | some focus =>
    match widget_handler d focus with
    | none => { input := { input with pointer_x := sx, pointer_y := sy }, app := app, log := [] }
    | some h =>
      call_handler d h set_pointer_focus { input with pointer_x := sx, pointer_y := sy } app
        focus (widget_event.MOUSE_MOVE sx sy) []

/-- Function `pointer_handle_button` (lines 585-608); the event's `state` is
`state == WL_POINTER_BUTTON_STATE_PRESSED`, the constant being 1. -/
def pointer_handle_button {σ : Type} (d : display_data σ) (input : input_data) (app : σ)
    (button state : Nat) : input_result σ :=
  match input.pointer_focus with
  | none => { input := input, app := app, log := [] }
  | some focus =>
    match widget_handler d focus with
    | none => { input := input, app := app, log := [] }
    | some h =>
      call_handler d h set_pointer_focus input app focus
        (widget_event.MOUSE_BUTTON input.pointer_x input.pointer_y button (decide (state = 1))) []

/-- Function `pointer_handle_axis` (lines 611-635); `v` is the value after
`wl_fixed_to_int`. -/
def pointer_handle_axis {σ : Type} (d : display_data σ) (input : input_data) (app : σ)
    (axis : Nat) (v : Int) : input_result σ :=
  match input.pointer_focus with
  | none => { input := input, app := app, log := [] }
  | some focus =>
    match widget_handler d focus with
    | none => { input := input, app := app, log := [] }
    | some h =>
      call_handler d h set_pointer_focus input app focus
        (widget_event.MOUSE_AXIS input.pointer_x input.pointer_y axis v) []

/-- Function `touch_handle_down` (lines 649-681). -/
def touch_handle_down {σ : Type} (d : display_data σ) (input : input_data) (app : σ)
    (surface : Option Nat) (id : Int) (sx sy : Int) : input_result σ :=
  match __window_lookup d surface with
  | none => { input := input, app := app, log := [] }
  | some window =>
    match widget_handler d (input.touch_focus.getD window) with
    | none => { input := input, app := app, log := [] }
    | some h =>
      call_handler d h set_touch_focus input app (input.touch_focus.getD window)
        (widget_event.TOUCH_DOWN sx sy id) []

/-- Function `touch_handle_up` (lines 684-709). -/
def touch_handle_up {σ : Type} (d : display_data σ) (input : input_data) (app : σ)
    (id : Int) : input_result σ :=
  match input.touch_focus with
  | none => { input := input, app := app, log := [] }
  | some focus =>
    match widget_handler d focus with
    | none => { input := { input with touch_focus := none }, app := app, log := [] }
    | some h =>
      call_handler d h set_touch_focus { input with touch_focus := none } app focus
        (widget_event.TOUCH_UP id) []

/-- Function `touch_handle_motion` (lines 712-738). -/
def touch_handle_motion {σ : Type} (d : display_data σ) (input : input_data) (app : σ)
    (id : Int) (sx sy : Int) : input_result σ :=
  match input.touch_focus with
  | none => { input := input, app := app, log := [] }
  | some focus =>
    match widget_handler d focus with
    | none => { input := input, app := app, log := [] }
    | some h =>
      call_handler d h set_touch_focus input app focus (widget_event.TOUCH_MOVE sx sy id) []

/-- Function `keyboard_handle_enter` (lines 780-806). -/
def keyboard_handle_enter {σ : Type} (d : display_data σ) (input : input_data) (app : σ)
    (surface : Option Nat) : input_result σ :=
  match __window_lookup d surface with
  | none => { input := input, app := app, log := [] }
  | some window =>
    match widget_handler d window with
    | none => { input := { input with keyboard_focus := some window }, app := app, log := [] }
    | some h =>
      call_handler d h set_keyboard_focus { input with keyboard_focus := some window } app
        window widget_event.KEY_ENTER []

/-- Function `keyboard_handle_leave` (lines 809-835). -/
def keyboard_handle_leave {σ : Type} (d : display_data σ) (input : input_data) (app : σ)
    (surface : Option Nat) : input_result σ :=
  match __window_lookup d surface with
  | none => { input := input, app := app, log := [] }
  | some window =>
    match widget_handler d (input.keyboard_focus.getD window) with
    | none => { input := { input with keyboard_focus := none }, app := app, log := [] }
    | some h =>
      call_handler d h set_keyboard_focus { input with keyboard_focus := none } app
        (input.keyboard_focus.getD window) widget_event.KEY_LEAVE []

/-- Function `keyboard_handle_key` (lines 838-859); the event's `state` is
`state == WL_KEYBOARD_KEY_STATE_PRESSED`, the constant being 1. -/
def keyboard_handle_key {σ : Type} (d : display_data σ) (input : input_data) (app : σ)
    (key state : Nat) : input_result σ :=
  match input.keyboard_focus with
  | none => { input := input, app := app, log := [] }
  | some focus =>
    match widget_handler d focus with
    | none => { input := input, app := app, log := [] }
    | some h =>
      call_handler d h set_keyboard_focus input app focus
        (widget_event.KEY_PRESS key (decide (state = 1))) []

/-- Function `keyboard_handle_modifiers` (lines 862-886): `mods_on` takes
`mods_latched`, `mods_off` takes `mods_depressed`. -/
def keyboard_handle_modifiers {σ : Type} (d : display_data σ) (input : input_data) (app : σ)
    (mods_depressed mods_latched mods_locked : Nat) : input_result σ :=
  match input.keyboard_focus with
  | none => { input := input, app := app, log := [] }
  | some focus =>
    match widget_handler d focus with
    | none => { input := input, app := app, log := [] }
    | some h =>
      call_handler d h set_keyboard_focus input app focus
        (widget_event.KEY_MODS mods_latched mods_depressed mods_locked) []

/-- The events that the compositor delivers through `pointer_listener`,
`touch_listener` and `keyboard_listener`, with the arguments the callbacks
use. -/
inductive input_message where
  | pointer_enter (serial : Nat) (surface : Option Nat) (sx sy : Int)
  | pointer_leave (surface : Option Nat)
  | pointer_motion (sx sy : Int)
  | pointer_button (button state : Nat)
  | pointer_axis (axis : Nat) (v : Int)
  | touch_down (surface : Option Nat) (id : Int) (sx sy : Int)
  | touch_up (id : Int)
  | touch_motion (id : Int) (sx sy : Int)
  | keyboard_enter (surface : Option Nat)
  | keyboard_leave (surface : Option Nat)
  | keyboard_key (key state : Nat)
  | keyboard_modifiers (mods_depressed mods_latched mods_locked : Nat)
  deriving DecidableEq, Repr

/-- The listener tables: each event goes to the callback registered for it. -/
def input_dispatch {σ : Type} (d : display_data σ) (input : input_data) (app : σ) :
    input_message → input_result σ
  | input_message.pointer_enter serial surface sx sy =>
    pointer_handle_enter d input app serial surface sx sy
  | input_message.pointer_leave surface => pointer_handle_leave d input app surface
  | input_message.pointer_motion sx sy => pointer_handle_motion d input app sx sy
  | input_message.pointer_button button state => pointer_handle_button d input app button state
  | input_message.pointer_axis axis v => pointer_handle_axis d input app axis v
  | input_message.touch_down surface id sx sy => touch_handle_down d input app surface id sx sy
  | input_message.touch_up id => touch_handle_up d input app id
  | input_message.touch_motion id sx sy => touch_handle_motion d input app id sx sy
  | input_message.keyboard_enter surface => keyboard_handle_enter d input app surface
  | input_message.keyboard_leave surface => keyboard_handle_leave d input app surface
  | input_message.keyboard_key key state => keyboard_handle_key d input app key state
  | input_message.keyboard_modifiers dep lat lck =>
    keyboard_handle_modifiers d input app dep lat lck

/-- The surface an event is addressed to, for the events that carry one. -/
def message_surface : input_message → Option (Option Nat)
  | input_message.pointer_enter _ surface _ _ => some surface
  | input_message.pointer_leave surface => some surface
  | input_message.touch_down surface _ _ _ => some surface
  | input_message.keyboard_enter surface => some surface
  | input_message.keyboard_leave surface => some surface
  | _ => none

/-- The widget an event resolves to, if any: the root widget of the window of
the surface for the enter events; the current focus of the device class for
events without a surface and for pointer leave; the current focus, or the root
widget of the window when there is none, for touch down and keyboard leave. -/
def resolved_focus {σ : Type} (d : display_data σ) (input : input_data) :
    input_message → Option Nat
  | input_message.pointer_enter _ surface _ _ => __window_lookup d surface
  | input_message.pointer_leave surface =>
    (__window_lookup d surface).bind (fun _ => input.pointer_focus)
  | input_message.pointer_motion _ _ => input.pointer_focus
  | input_message.pointer_button _ _ => input.pointer_focus
  | input_message.pointer_axis _ _ => input.pointer_focus
  | input_message.touch_down surface _ _ _ =>
    (__window_lookup d surface).map (fun window => input.touch_focus.getD window)
  | input_message.touch_up _ => input.touch_focus
  | input_message.touch_motion _ _ _ => input.touch_focus
  | input_message.keyboard_enter surface => __window_lookup d surface
  | input_message.keyboard_leave surface =>
    (__window_lookup d surface).map (fun window => input.keyboard_focus.getD window)
  | input_message.keyboard_key _ _ => input.keyboard_focus
  | input_message.keyboard_modifiers _ _ _ => input.keyboard_focus

/-- The focus field of the device class an event belongs to. -/
def class_focus (input : input_data) : input_message → Option Nat
  | input_message.pointer_enter _ _ _ _ => input.pointer_focus
  | input_message.pointer_leave _ => input.pointer_focus
  | input_message.pointer_motion _ _ => input.pointer_focus
  | input_message.pointer_button _ _ => input.pointer_focus
  | input_message.pointer_axis _ _ => input.pointer_focus
  | input_message.touch_down _ _ _ _ => input.touch_focus
  | input_message.touch_up _ => input.touch_focus
  | input_message.touch_motion _ _ _ => input.touch_focus
  | input_message.keyboard_enter _ => input.keyboard_focus
  | input_message.keyboard_leave _ => input.keyboard_focus
  | input_message.keyboard_key _ _ => input.keyboard_focus
  | input_message.keyboard_modifiers _ _ _ => input.keyboard_focus

/-- The typed event record that matches an event: its type and the fields
known when the event arrives (button and axis events carry the latched
pointer position). -/
def message_event (input : input_data) : input_message → widget_event
  | input_message.pointer_enter _ _ sx sy => widget_event.MOUSE_ENTER sx sy
  | input_message.pointer_leave _ => widget_event.MOUSE_LEAVE
  | input_message.pointer_motion sx sy => widget_event.MOUSE_MOVE sx sy
  | input_message.pointer_button button state =>
    widget_event.MOUSE_BUTTON input.pointer_x input.pointer_y button (decide (state = 1))
  | input_message.pointer_axis axis v =>
    widget_event.MOUSE_AXIS input.pointer_x input.pointer_y axis v
  | input_message.touch_down _ id sx sy => widget_event.TOUCH_DOWN sx sy id
  | input_message.touch_up id => widget_event.TOUCH_UP id
  | input_message.touch_motion id sx sy => widget_event.TOUCH_MOVE sx sy id
  | input_message.keyboard_enter _ => widget_event.KEY_ENTER
  | input_message.keyboard_leave _ => widget_event.KEY_LEAVE
  | input_message.keyboard_key key state => widget_event.KEY_PRESS key (decide (state = 1))
  | input_message.keyboard_modifiers dep lat lck => widget_event.KEY_MODS lat dep lck

/-- The handler calls of a log: widget, event and returned pointer of each,
in order. -/
def handler_calls : List input_effect → List (Nat × widget_event × Option Nat)
  | [] => []
  | input_effect.set_cursor _ :: rest => handler_calls rest
  | input_effect.event widget _ ev _ ret :: rest => (widget, ev, ret) :: handler_calls rest

/-- An input device as `display_add_input` allocates it with `calloc`. -/
def input_calloc : input_data :=
  { caps := 0, pointer := none, pointer_focus := none, pointer_x := 0, pointer_y := 0,
    keyboard := none, keyboard_focus := none, touch := none, touch_focus := none }

/-- A display with one window, at address 1, that owns surface 7; its root
widget has the handler `h` (or a null `event` pointer); surface 8 has no user
data and surface 9 carries window 1 as user data without being its
surface. -/
def one_window_display (h : Option (widget_handler_fn Unit)) : display_data Unit :=
  { windows := [1],
    surface_user_data := fun s => if s = 7 ∨ s = 9 then some 1 else none,
    window_surface := fun window => if window = 1 then some 7 else none,
    window_cdata := fun _ => 0,
    widget_info := fun widget => if widget = 1 then some { event := h } else none,
    widget_cdata := fun _ => 0 }

/-- A handler that gives the focus up: it returns null for every event. -/
def handler_null : widget_handler_fn Unit := fun app _ _ _ => (app, none)

/-- A handler that keeps the focus: it returns its own widget. -/
def handler_keep : widget_handler_fn Unit := fun app widget _ _ => (app, some widget)

/-- A handler that passes the focus to the nested widget at address 2. -/
def handler_nested : widget_handler_fn Unit := fun app _ _ _ => (app, some 2)

/-! ## Auxiliary input devices -/

/-- The readiness bit `EPOLLIN` of `<sys/epoll.h>`. -/
def EPOLLIN : Nat := 1

/-- The size in bytes of `struct js_event` of `<linux/joystick.h>`. -/
def JS_EVENT_SIZE : Int := 8

/-- The loop `wl_list_for_each(window, &display->windows, link)` that ends
`input_spacenav_event` and `input_joystick_event`: a window whose root widget
has no info or no handler is skipped; the handler is called with the root
widget, `window->cdata` and the event; the loop breaks when the handler
returns a non-null pointer.  Returns the application state and the calls
made: window, event, returned pointer. -/
def broadcast {σ : Type} (d : display_data σ) (ev : widget_event) :
    List Nat → σ → σ × List (Nat × widget_event × Option Nat)
  | [], app => (app, [])
  | window :: rest, app =>
    match widget_handler d window with
    | none => broadcast d ev rest app
    | some h =>
      if (h app window (d.window_cdata window) ev).2 ≠ none then
        ((h app window (d.window_cdata window) ev).1,
          [(window, ev, (h app window (d.window_cdata window) ev).2)])
      else
        ((broadcast d ev rest (h app window (d.window_cdata window) ev).1).1,
          (window, ev, none) ::
            (broadcast d ev rest (h app window (d.window_cdata window) ev).1).2)

/-- Function `input_spacenav_event` (lines 988-1018).  `poll` is what
`spnav_poll_event(&e)` returns (0 when no event is queued) and `e` the event
it stores; `CHK_API` returns a negative `poll` to the caller.  Returns the
result code, the application state and the handler calls. -/
def input_spacenav_event {σ : Type} (d : display_data σ) (app : σ) (events : Nat)
    (poll : Int) (e : Nat) : Int × σ × List (Nat × widget_event × Option Nat) :=
  if events &&& EPOLLIN = 0 then (0, app, [])
  else if poll < 0 then (poll, app, [])
  else if poll = 0 then (0, app, [])
  else (0, broadcast d (widget_event.SPNAV e) d.windows app)

/-- Function `input_joystick_event` (lines 1077-1110).  `nread` is what
`read(js->fd, &e, sizeof(e))` returns, `errno` the error number after it and
`e` the event read; `CHK_ERR` returns `-errno` unless a whole event was
read. -/
def input_joystick_event {σ : Type} (d : display_data σ) (app : σ) (events : Nat)
    (nread errno : Int) (e : Nat) : Int × σ × List (Nat × widget_event × Option Nat) :=
  if events &&& EPOLLIN = 0 then (0, app, [])
  else if nread ≠ JS_EVENT_SIZE then (-errno, app, [])
  else (0, broadcast d (widget_event.JOYSTICK e) d.windows app)

/-- Whether the root widget of a window declares an event handler. -/
def has_handler {σ : Type} (d : display_data σ) (window : Nat) : Bool :=
  (widget_handler d window).isSome

/-- What the lists of handler calls made for an event `ev` over the window
list `windows` have in common: the windows called are the handler-bearing
windows in list order up to some point; every call carries the event; no call
follows a call that returned non-null; and when no call returned non-null,
every handler-bearing window was called. -/
def offered_in_order {σ : Type} (d : display_data σ) (ev : widget_event) (windows : List Nat)
    (calls : List (Nat × widget_event × Option Nat)) : Prop :=
  (∃ k, calls.map (fun c => c.1) = ((windows.filter (has_handler d)).take k)) ∧
  (∀ c ∈ calls, c.2.1 = ev) ∧
  (∀ l1 c l2, calls = l1 ++ c :: l2 → c.2.2 ≠ none → l2 = []) ∧
  ((∀ c ∈ calls, c.2.2 = none) → calls.map (fun c => c.1) = windows.filter (has_handler d))

/-- A display with three windows 1, 2, 3 in list order: window 1 has no
handler, the handler of window 2 returns null and the handler of window 3
keeps the focus. -/
def three_window_display : display_data Unit :=
  { windows := [1, 2, 3],
    surface_user_data := fun _ => none,
    window_surface := fun _ => none,
    window_cdata := fun _ => 0,
    widget_info := fun widget =>
      if widget = 1 then some { event := none }
      else if widget = 2 then some { event := some handler_null }
      else if widget = 3 then some { event := some handler_keep }
      else none,
    widget_cdata := fun _ => 0 }

/-! ## Display dispatch thread -/

/-- The error number `EINTR` of `<errno.h>` on Linux. -/
def EINTR : Int := 4

/-- The error number `EAGAIN` of `<errno.h>` on Linux. -/
def EAGAIN : Int := 11

/-- The readiness bit `EPOLLERR` of `<sys/epoll.h>`. -/
def EPOLLERR : Nat := 8

/-- The readiness bit `EPOLLHUP` of `<sys/epoll.h>`. -/
def EPOLLHUP : Nat := 16

/-- The number of events expected, `DISPLAY_EVENTS_NUM`, defined as 4. -/
def DISPLAY_EVENTS_NUM : Nat := 4

/-- The fields of `struct epoll_event` that the dispatch thread uses: the
ready bitmask and `data.ptr`, the callback record of the source (null for the
display descriptor). -/
structure epoll_event where
  events : Nat
  data : Option Nat
  deriving DecidableEq, Repr

/-- A descriptor in the interest list of the epoll instance. -/
structure epoll_source where
  fd : Int
  event : epoll_event
  deriving DecidableEq, Repr

/-- The system call `epoll_ctl(efd, EPOLL_CTL_ADD, fd, &event)`: the new
interest list and 0, or the old list and -1 when the descriptor is already in
it. -/
def epoll_ctl_add (efd : List epoll_source) (fd : Int) (event : epoll_event) :
    List epoll_source × Int :=
  if fd ∈ efd.map (fun src => src.fd) then (efd, -1)
  else (efd ++ [{ fd := fd, event := event }], 0)

/-- Function `display_add_poll_source` (lines 296-303). -/
def display_add_poll_source (efd : List epoll_source) (fd : Int) (cb : Option Nat) :
    List epoll_source × Int :=
  epoll_ctl_add efd fd { events := EPOLLIN, data := cb }

/-- The event that `epoll_wait` reports for a source whose descriptor has the
readiness bits `ready`: the bits asked for, and always error and hang-up,
with the data stored at registration. -/
def epoll_report (src : epoll_source) (ready : Nat) : epoll_event :=
  { events := ready &&& (src.event.events ||| EPOLLERR ||| EPOLLHUP), data := src.event.data }

/-- What the Wayland library, the kernel and the source hooks answer during
one iteration of the dispatch loop: how many times `wl_display_prepare_read`
fails before it succeeds; the result of `wl_display_flush`; the result of
`epoll_wait` and the array `event` it fills; the results of
`wl_display_read_events` and of the `wl_display_dispatch_pending` after it;
the error number after each; and the result of each hook call. -/
structure iteration_env where
  prepare_failures : Nat
  flush : Int
  flush_errno : Int
  wait : Int
  wait_errno : Int
  event : List epoll_event
  hook : Nat → Nat → Int
  read : Int
  read_errno : Int
  dispatch : Int
  dispatch_errno : Int

/-- The calls that the dispatch thread makes. -/
inductive dispatch_call where
  /-- The call `wl_display_prepare_read`, and whether it returned 0. -/
  | prepare_read (entered : Bool)
  | dispatch_pending
  | flush
  | epoll_wait
  /-- The call `dispatch->hook(display, dispatch, events)` and its result. -/
  | hook (dispatch : Nat) (events : Nat) (ret : Int)
  | read_events
  | cancel_read
  deriving DecidableEq, Repr

/-- The outcome of one iteration: the calls made, in order, and the value
returned through the label `error` when the thread ends. -/
structure iteration_result where
  log : List dispatch_call
  error : Option Int
  deriving DecidableEq, Repr

/-- The polling prologue: `wl_display_prepare_read` is tried until it returns
0, with `wl_display_dispatch_pending` after each failure. -/
def prepare_loop : Nat → List dispatch_call
  | 0 => [dispatch_call.prepare_read true]
  | n + 1 =>
    dispatch_call.prepare_read false :: dispatch_call.dispatch_pending :: prepare_loop n

/-- The loop `for (i = 0; i < r; i++)` over the signalled events, started
with the given value of `disp`: the hook calls made and the final `disp`. -/
def signalled_events (hook : Nat → Nat → Int) :
    List epoll_event → Bool → List dispatch_call × Bool
  | [], disp => ([], disp)
  | ev :: rest, disp =>
    match ev.data with
    | some dispatch =>
      (dispatch_call.hook dispatch ev.events (hook dispatch ev.events) ::
        (signalled_events hook rest disp).1, (signalled_events hook rest disp).2)
    | none =>
      if ev.events &&& EPOLLIN ≠ 0 then signalled_events hook rest true
      else signalled_events hook rest disp

/-- The events that the loop visits: the first `r` entries of the array. -/
def visited_events (env : iteration_env) : List epoll_event :=
  env.event.take env.wait.toNat

/-- One iteration of the `while (1)` loop of `dispatch_thread`
(lines 321-389). -/
def dispatch_iteration (env : iteration_env) : iteration_result :=
  if env.flush < 0 then
    { log := prepare_loop env.prepare_failures ++ [dispatch_call.flush],
      error := some (-env.flush_errno) }
  else if env.wait < 0 ∧ env.wait_errno ≠ EINTR then
    { log := prepare_loop env.prepare_failures ++ [dispatch_call.flush, dispatch_call.epoll_wait],
      error := some (-env.wait_errno) }
  else if (signalled_events env.hook (visited_events env) false).2 then
    if env.read < 0 ∧ env.read_errno ≠ EAGAIN then
      { log := prepare_loop env.prepare_failures ++
          [dispatch_call.flush, dispatch_call.epoll_wait] ++
          (signalled_events env.hook (visited_events env) false).1 ++
          [dispatch_call.read_events],
        error := some (-env.read_errno) }
    else if env.dispatch < 0 then
      { log := prepare_loop env.prepare_failures ++
          [dispatch_call.flush, dispatch_call.epoll_wait] ++
          (signalled_events env.hook (visited_events env) false).1 ++
          [dispatch_call.read_events, dispatch_call.dispatch_pending],
        error := some (-env.dispatch_errno) }
    else
      { log := prepare_loop env.prepare_failures ++
          [dispatch_call.flush, dispatch_call.epoll_wait] ++
          (signalled_events env.hook (visited_events env) false).1 ++
          [dispatch_call.read_events, dispatch_call.dispatch_pending],
        error := none }
  else
    { log := prepare_loop env.prepare_failures ++
        [dispatch_call.flush, dispatch_call.epoll_wait] ++
        (signalled_events env.hook (visited_events env) false).1 ++
        [dispatch_call.cancel_read],
      error := none }

/-- The loop of `dispatch_thread` over the answers of successive iterations:
it goes on to the next iteration until an iteration ends in `error`. -/
def dispatch_loop : List iteration_env → iteration_result
  | [] => { log := [], error := none }
  | env :: envs =>
    match (dispatch_iteration env).error with
    | some e => { log := (dispatch_iteration env).log, error := some e }
    | none =>
      { log := (dispatch_iteration env).log ++ (dispatch_loop envs).log,
        error := (dispatch_loop envs).error }

/-- The display descriptor was marked readable in this iteration: one of the
visited events has no callback record and has the readable bit. -/
def marked_readable (env : iteration_env) : Prop :=
  ∃ ev ∈ visited_events env, ev.data = none ∧ ev.events &&& EPOLLIN ≠ 0

/-- The hook calls that a list of events asks for: one per event that carries
a callback record, with that event's bitmask, in the order of the events. -/
def expected_hooks (hook : Nat → Nat → Int) (evs : List epoll_event) : List dispatch_call :=
  evs.filterMap (fun ev =>
    ev.data.map (fun dispatch => dispatch_call.hook dispatch ev.events (hook dispatch ev.events)))

/-- Answers of an iteration in which nothing fails and `epoll_wait` reports
the events `evs`. -/
def quiet_env (evs : List epoll_event) : iteration_env :=
  { prepare_failures := 0, flush := 0, flush_errno := 0, wait := evs.length, wait_errno := 0,
    event := evs, hook := fun _ _ => 0, read := 0, read_errno := 0, dispatch := 0,
    dispatch_errno := 0 }

/-- Function `dispatch_thread` (lines 312-396): the display descriptor is
added to the interest list with a null callback record, and the thread
returns null when that fails; otherwise the loop runs. -/
def dispatch_thread (efd : List epoll_source) (display_fd : Int) (envs : List iteration_env) :
    iteration_result :=
  if (display_add_poll_source efd display_fd none).2 = 0 then dispatch_loop envs
  else { log := [], error := some 0 }

/-- Whether a call of the dispatch thread is a hook call. -/
def is_hook : dispatch_call → Bool
  | dispatch_call.hook _ _ _ => true
  | _ => false

/-! ## Seat capabilities -/

/-- The bit `WL_SEAT_CAPABILITY_POINTER` of the Wayland protocol. -/
def WL_SEAT_CAPABILITY_POINTER : Nat := 1

/-- The bit `WL_SEAT_CAPABILITY_KEYBOARD` of the Wayland protocol. -/
def WL_SEAT_CAPABILITY_KEYBOARD : Nat := 2

/-- The bit `WL_SEAT_CAPABILITY_TOUCH` of the Wayland protocol. -/
def WL_SEAT_CAPABILITY_TOUCH : Nat := 4

/-- The requests that `seat_handle_capabilities` makes for the sub-handles of
a seat, with the handle created or destroyed. -/
inductive seat_effect where
  | get_pointer (handle : Nat)
  | pointer_destroy (handle : Nat)
  | get_keyboard (handle : Nat)
  | keyboard_destroy (handle : Nat)
  | get_touch (handle : Nat)
  | touch_destroy (handle : Nat)
  deriving DecidableEq, Repr

/-- The pointer part of `seat_handle_capabilities` (lines 906-919);
`new_pointer` is the handle that `wl_seat_get_pointer` returns. -/
def seat_pointer (input : input_data) (caps : Nat) (new_pointer : Nat) :
    input_data × List seat_effect :=
  match input.pointer with
  | none =>
    if caps &&& WL_SEAT_CAPABILITY_POINTER ≠ 0 then
      ({ input with pointer := some new_pointer }, [seat_effect.get_pointer new_pointer])
    else (input, [])
  | some handle =>
    if caps &&& WL_SEAT_CAPABILITY_POINTER ≠ 0 then (input, [])
    else ({ input with pointer := none }, [seat_effect.pointer_destroy handle])

/-- The keyboard part of `seat_handle_capabilities` (lines 921-934). -/
def seat_keyboard (input : input_data) (caps : Nat) (new_keyboard : Nat) :
    input_data × List seat_effect :=
  match input.keyboard with
  | none =>
    if caps &&& WL_SEAT_CAPABILITY_KEYBOARD ≠ 0 then
      ({ input with keyboard := some new_keyboard }, [seat_effect.get_keyboard new_keyboard])
    else (input, [])
  | some handle =>
    if caps &&& WL_SEAT_CAPABILITY_KEYBOARD ≠ 0 then (input, [])
    else ({ input with keyboard := none }, [seat_effect.keyboard_destroy handle])

/-- The touch part of `seat_handle_capabilities` (lines 936-949). -/
def seat_touch (input : input_data) (caps : Nat) (new_touch : Nat) :
    input_data × List seat_effect :=
  match input.touch with
  | none =>
    if caps &&& WL_SEAT_CAPABILITY_TOUCH ≠ 0 then
      ({ input with touch := some new_touch }, [seat_effect.get_touch new_touch])
    else (input, [])
  | some handle =>
    if caps &&& WL_SEAT_CAPABILITY_TOUCH ≠ 0 then (input, [])
    else ({ input with touch := none }, [seat_effect.touch_destroy handle])

/-- Function `seat_handle_capabilities` (lines 902-950): the pointer, the
keyboard and the touch part, one after the other.  The three `new_` arguments
are the handles that `wl_seat_get_pointer`, `wl_seat_get_keyboard` and
`wl_seat_get_touch` return when they are called; the code uses them without
a null check. -/
def seat_handle_capabilities (input : input_data) (caps : Nat)
    (new_pointer new_keyboard new_touch : Nat) : input_data × List seat_effect :=
  ((seat_touch (seat_keyboard (seat_pointer input caps new_pointer).1 caps new_keyboard).1
      caps new_touch).1,
   (seat_pointer input caps new_pointer).2 ++
   (seat_keyboard (seat_pointer input caps new_pointer).1 caps new_keyboard).2 ++
   (seat_touch (seat_keyboard (seat_pointer input caps new_pointer).1 caps new_keyboard).1
      caps new_touch).2)

/-! ## Cameras mapping (utest-app.h) -/

/-- Camera index `CAMERA_RIGHT`, defined as 0. -/
def CAMERA_RIGHT : Int := 0

/-- Camera index `CAMERA_LEFT`, defined as 1. -/
def CAMERA_LEFT : Int := 1

/-- Camera index `CAMERA_FRONT`, defined as 2. -/
def CAMERA_FRONT : Int := 2

/-- Camera index `CAMERA_REAR`, defined as 3. -/
def CAMERA_REAR : Int := 3

/-- Function `camera_id` (utest-app.h, lines 54-57): `i < 2 ? i ^ 1 : i` on a
signed integer; `Int.xor` is the bitwise exclusive or of two's complement
integers. -/
def camera_id (i : Int) : Int := if i < 2 then Int.xor i 1 else i

/-- Function `camera_idx` (utest-app.h, lines 59-62). -/
def camera_idx (id : Int) : Int := if id < 2 then Int.xor id 1 else id

/-! ## Off-screen buffers of a window -/

/-- Function `window_get_cairo` (lines 2231-2254).  `cs` says whether
`window->widget.cs` is set, `status_ok` whether `cairo_create` returned a
context whose status is `CAIRO_STATUS_SUCCESS`, `index` is
`window->widget.index` and `buffers` is `window->widget.info->buffers`.
Returns `none` when the bugcheck aborts, otherwise the index of the surface
the context draws into (`none` when the function returns null) and the new
value of `window->widget.index`. -/
def window_get_cairo (intern_debug : Nat) (cs status_ok : Bool) (index buffers : Int) :
    Option (Option Int × Int) :=
  if cs then
    match BUG intern_debug (!status_ok) with
    | none => none
    | some () => some (some index, if index + 1 = buffers then 0 else index + 1)
  else
    some (none, index)

/-- Successive calls of `window_get_cairo` on a window with `buffers`
off-screen surfaces, `cairo_create` succeeding each time: the surfaces drawn
into, in order, and the index stored at the end. -/
def cairo_calls (buffers : Int) : Nat → Int → Option (List Int × Int)
  | 0, index => some ([], index)
  | n + 1, index =>
    match window_get_cairo INTERN_DEBUG true true index buffers with
    | some (some i, index1) =>
      match cairo_calls buffers n index1 with
      | some r => some (i :: r.1, r.2)
      | none => none
    | _ => none

/-! ## Shared memory chunks -/

/-- The fields of `sh_mem_t` that the allocation code sets: the file
descriptor and the chunk size. -/
structure sh_mem where
  fd : Int
  size : Nat
  deriving DecidableEq, Repr

/-- The chunk size that `sh_mem_alloc` records (line 1247):
`(size + 4095) & ~4095` in `u32` arithmetic. -/
def sh_mem_chunk_size (size : Nat) : Nat :=
  ((size + 4095) % 2 ^ 32) &&& u32_not 4095

/-- Function `sh_mem_alloc` (lines 1239-1269).  `calloc_ok` says whether the
descriptor was allocated, `fd` is what `__create_anonymous_file` returns for
the aligned size and `mmap_ok` whether the mapping succeeded.  Returns the
descriptor, or `none` for a null result. -/
def sh_mem_alloc (size : Nat) (calloc_ok : Bool) (fd : Int) (mmap_ok : Bool) : Option sh_mem :=
  if !calloc_ok then none
  else if fd < 0 then none
  else if !mmap_ok then none
  else some { fd := fd, size := sh_mem_chunk_size size }

/-! ## Frame-rate calculation -/

/-- The fields `fps_ts` and `fps_acc` of `struct window_data`, both `u32`. -/
structure fps_data where
  fps_ts : Nat
  fps_acc : Nat
  deriving DecidableEq, Repr

/-- Function `window_frame_rate_reset` (lines 2649-2653). -/
def window_frame_rate_reset (w : fps_data) : fps_data :=
  { w with fps_acc := 0, fps_ts := 0 }

/-- The new accumulator in `window_frame_rate_update` (lines 2664-2677), in
`u32` arithmetic, from the old accumulator, the old timestamp and `delta`. -/
def fps_next_acc (acc ts_0 delta : Nat) : Nat :=
  if acc = 0 then
    if ts_0 ≠ 0 then (delta <<< 4) % 2 ^ 32 else acc
  else
    (acc + (delta + 2 ^ 32 - (((acc + 8) % 2 ^ 32) >>> 4))) % 2 ^ 32

/-- Function `window_frame_rate_update` (lines 2656-2690); `ts_1` is the value
of `__get_time_usec()`, a `u32`.  The rate reported is the floating-point
quotient of `1e+06` by the averaged period `(acc + 8) >> 4` when the
accumulator is not zero, and 0 otherwise; the function here returns the new
state and that divisor, `none` standing for the rate 0. -/
def window_frame_rate_update (w : fps_data) (ts_1 : Nat) : fps_data × Option Nat :=
  ({ fps_ts := ts_1,
     fps_acc := fps_next_acc w.fps_acc w.fps_ts ((ts_1 + 2 ^ 32 - w.fps_ts) % 2 ^ 32) },
   if fps_next_acc w.fps_acc w.fps_ts ((ts_1 + 2 ^ 32 - w.fps_ts) % 2 ^ 32) ≠ 0 then
     some (((fps_next_acc w.fps_acc w.fps_ts ((ts_1 + 2 ^ 32 - w.fps_ts) % 2 ^ 32) + 8)
       % 2 ^ 32) >>> 4)
   else none)

/-- A reset of a window in the state `w`, whatever it did before, and then
the first `n` updates, the first at time `t1` and each later one `d`
microseconds after the one before (timestamps wrap at `2 ^ 32`): the state
and the divisor reported by the last update. -/
def fps_run (w : fps_data) (d t1 : Nat) : Nat → fps_data × Option Nat
  | 0 => (window_frame_rate_reset w, none)
  | n + 1 => window_frame_rate_update (fps_run w d t1 n).1 ((t1 + n * d) % 2 ^ 32)

/-! ## Shared memory buffers allocation -/

/-- Error number `EINVAL` of the C library. -/
def EINVAL : Int := 22

/-- Error number `ENOMEM` of the C library. -/
def ENOMEM : Int := 12

/-- The values of the GStreamer video format that `__shmem_pixfmt_size`
tells apart: the two it supports, and any other value. -/
inductive gst_video_format where
  | ARGB
  | RGB16
  | other (n : Nat)
  deriving DecidableEq, Repr

/-- Function `__shmem_pixfmt_size` (lines 1294-1305): the buffer size as a
`u32`; the pixel format and the stride written through the pointers are
only passed on to `wl_shm_pool_create_buffer`. -/
def __shmem_pixfmt_size (w h : Int) (format : gst_video_format) : Nat :=
  match format with
  | .ARGB => ((w * 4 * h) % 2 ^ 32).toNat
  | .RGB16 => ((w * 2 * h) % 2 ^ 32).toNat
  | .other _ => 0

/-- What the allocation of buffer `i` meets: whether `sh_mem_alloc`,
`wl_shm_create_pool` and `wl_shm_pool_create_buffer` return an object for
it. -/
structure shm_env where
  alloc : Nat → Bool
  pool : Nat → Bool
  buffer : Nat → Bool

/-- All three steps of creating buffer `i` succeed. -/
def shm_env.ok (env : shm_env) (i : Nat) : Bool :=
  env.alloc i && env.pool i && env.buffer i

/-- The calls that create and release resources, in `shmem_allocate_buffers`
and in `__widget_create_surfaces`; the index is the position in the array.
`alloc i` is a call of `sh_mem_alloc` that returned a chunk, stored at
position `i`; `free i` is `sh_mem_free` on the chunk at position `i`. -/
inductive shm_effect where
  | alloc (i : Nat)
  | free (i : Nat)
  | pool_create (i : Nat)
  | pool_destroy (i : Nat)
  | buffer_create (i : Nat)
  | calloc_cs
  | free_cs
  | surface_create (i : Nat)
  | set_user_data (i : Nat)
  | surface_destroy (i : Nat)
  deriving DecidableEq, Repr

/-- The chunks allocated in a log, in order. -/
def allocated : List shm_effect → List Nat
  | [] => []
  | .alloc i :: l => i :: allocated l
  | _ :: l => allocated l

/-- The chunks released in a log, in order. -/
def released : List shm_effect → List Nat
  | [] => []
  | .free i :: l => i :: released l
  | _ :: l => released l

/-- The loop at the label `error` of `shmem_allocate_buffers` (lines
1361-1365): `while (i--) sh_mem_free(output[i])`. -/
def shmem_unwind : Nat → List shm_effect
  | 0 => []
  | i + 1 => .free i :: shmem_unwind i

/-- The loop of `shmem_allocate_buffers` (lines 1325-1354) from index `i`
with `k` iterations left: the result of the function and the calls made. -/
def shmem_allocate_from (env : shm_env) (i : Nat) : Nat → Int × List shm_effect
  | 0 => (0, [])
  | k + 1 =>
    if !env.alloc i then (-1, shmem_unwind i)
    else if !env.pool i then (-1, .alloc i :: .free i :: shmem_unwind i)
    else if !env.buffer i then
      (-1, .alloc i :: .pool_create i :: .pool_destroy i :: .free i :: shmem_unwind i)
    else
      ((shmem_allocate_from env (i + 1) k).1,
       .alloc i :: .pool_create i :: .buffer_create i :: .pool_destroy i ::
         (shmem_allocate_from env (i + 1) k).2)

/-- Function `shmem_allocate_buffers` (lines 1308-1368): the result and the
calls made. -/
def shmem_allocate_buffers (env : shm_env) (w h : Int) (format : gst_video_format)
    (num : Int) : Int × List shm_effect :=
  if __shmem_pixfmt_size w h format = 0 then (-EINVAL, [])
  else shmem_allocate_from env 0 num.toNat

/-! ## Widget surfaces -/

/-- What `__widget_create_surfaces` meets: whether `calloc` returns the
array, what the buffer allocation meets, and whether the surface created for
buffer `i` passes `__check_surface`. -/
structure surfaces_env where
  calloc : Bool
  shm : shm_env
  surface : Nat → Bool

/-- Result of `__widget_create_surfaces`: the value returned, whether
`widget->cs` is left pointing to an array, and the calls made. -/
structure surfaces_result where
  ret : Int
  cs : Bool
  log : List shm_effect
  deriving DecidableEq, Repr

/-- Destruction of surface `i` by `cairo_surface_destroy`: the chunk was
attached to the surface with the destructor `__cairo_shmem_destroy` (line
1598), which calls `sh_mem_free` on it (lines 1559-1566). -/
def cairo_surface_destroy (i : Nat) : List shm_effect :=
  [.surface_destroy i, .free i]

/-- The loop at the label `error_cs` (lines 1606-1609):
`while (i--) cairo_surface_destroy(widget->cs[i])`. -/
def surfaces_unwind : Nat → List shm_effect
  | 0 => []
  | i + 1 => cairo_surface_destroy i ++ surfaces_unwind i

/-- The loop of `__widget_create_surfaces` (lines 1585-1599) from index `i`
with `k` iterations left: whether it ran to the end, and the calls made. -/
def create_surfaces_from (env : surfaces_env) (i : Nat) : Nat → Bool × List shm_effect
  | 0 => (true, [])
  | k + 1 =>
    if !env.surface i then (false, surfaces_unwind i)
    else
      ((create_surfaces_from env (i + 1) k).1,
       .surface_create i :: .set_user_data i :: (create_surfaces_from env (i + 1) k).2)

/-- Function `__widget_create_surfaces` (lines 1569-1616). -/
def __widget_create_surfaces (env : surfaces_env) (num : Int) (w h : Int) : surfaces_result :=
  if !env.calloc then { ret := -ENOMEM, cs := false, log := [] }
  else if (shmem_allocate_buffers env.shm w h .ARGB num).1 < 0 then
    { ret := -1, cs := false,
      log := .calloc_cs :: (shmem_allocate_buffers env.shm w h .ARGB num).2 ++ [.free_cs] }
  else if (create_surfaces_from env 0 num.toNat).1 then
    { ret := 0, cs := true,
      log := .calloc_cs :: (shmem_allocate_buffers env.shm w h .ARGB num).2 ++
        (create_surfaces_from env 0 num.toNat).2 }
  else
    { ret := -1, cs := false,
      log := .calloc_cs :: (shmem_allocate_buffers env.shm w h .ARGB num).2 ++
        (create_surfaces_from env 0 num.toNat).2 ++ [.free_cs] }

/-- An environment in which every allocation succeeds and every surface but
the one for buffer `i` is created. -/
def surface_fails_at (i : Nat) : surfaces_env :=
  { calloc := true,
    shm := { alloc := fun _ => true, pool := fun _ => true, buffer := fun _ => true },
    surface := fun j => decide (j ≠ i) }

/-- An environment for the buffer allocation in which buffer `i` fails at
the creation of its pool and every other step succeeds. -/
def pool_fails_at (i : Nat) : shm_env :=
  { alloc := fun _ => true, pool := fun j => decide (j ≠ i), buffer := fun _ => true }

/-! ## Camera input collection -/

/-- Number of cameras, `VIN_NUMBER` (utest-app.c line 59). -/
def VIN_NUMBER : Int := 4

/-- The fields of `app_data_t` used by the input path: the readiness mask
`input_ready` (a `u32`) and the pending input queue of each camera, the oldest
buffer first; buffers are named by numbers. -/
structure app_data where
  input_ready : Nat
  input : Nat → List Nat

/-- The input state set by `app_context_init` (line 459): every readiness
bit set; the queues of the zero-initialised structure are empty. -/
def app_context_init : app_data :=
  { input_ready := (1 <<< VIN_NUMBER.toNat) - 1, input := fun _ => [] }

/-- One pass of the collection loop of `app_input_process` (lines 247-253)
for camera `j`: pop the head of the queue into `buf[j]` (a null pointer,
`none`, when the queue is empty) and set the readiness bit when the queue is
left empty. -/
def collect_step (s : app_data × List (Option Nat)) (j : Nat) : app_data × List (Option Nat) :=
  ({ input_ready :=
       if (s.1.input j).tail = [] then s.1.input_ready ||| (1 <<< j) else s.1.input_ready,
     input := Function.update s.1.input j (s.1.input j).tail },
   s.2 ++ [(s.1.input j).head?])

/-- The collection loop of `app_input_process` (lines 247-253), for the
cameras 0 to 3: the state left and the array `buf`. -/
def collect (app : app_data) : app_data × List (Option Nat) :=
  [0, 1, 2, 3].foldl collect_step (app, [])

/-- Result of `app_input_process`: the value returned, the state left and the
group of buffers passed to `imr_sview_submit`, if it was called. -/
structure input_process_result where
  ret : Int
  app : app_data
  submitted : Option (List (Option Nat))

/-- Function `app_input_process` (lines 222-273).  `dims_ok` says whether the
buffer carries metadata with the dimensions of the application, and
`submit_ret` is what `imr_sview_submit` returns if it is called. -/
def app_input_process (app : app_data) (i : Int) (buffer : Nat) (dims_ok : Bool)
    (submit_ret : Int) : input_process_result :=
  if ¬ (0 ≤ i ∧ i < VIN_NUMBER) then { ret := -EINVAL, app := app, submitted := none }
  else if !dims_ok then { ret := -EINVAL, app := app, submitted := none }
  else if app.input_ready &&& u32_not (1 <<< i.toNat) = 0 then
    if submit_ret < 0 then
      { ret := submit_ret,
        app := (collect
          { input_ready := app.input_ready &&& u32_not (1 <<< i.toNat),
            input := Function.update app.input i.toNat (app.input i.toNat ++ [buffer]) }).1,
        submitted := some (collect
          { input_ready := app.input_ready &&& u32_not (1 <<< i.toNat),
            input := Function.update app.input i.toNat (app.input i.toNat ++ [buffer]) }).2 }
    else
      { ret := 0,
        app := (collect
          { input_ready := app.input_ready &&& u32_not (1 <<< i.toNat),
            input := Function.update app.input i.toNat (app.input i.toNat ++ [buffer]) }).1,
        submitted := some (collect
          { input_ready := app.input_ready &&& u32_not (1 <<< i.toNat),
            input := Function.update app.input i.toNat (app.input i.toNat ++ [buffer]) }).2 }
  else
    { ret := 0,
      app :=
        { input_ready := app.input_ready &&& u32_not (1 <<< i.toNat),
          input := Function.update app.input i.toNat (app.input i.toNat ++ [buffer]) },
      submitted := none }

/-- One call of `app_input_process`: its arguments and what it meets. -/
structure input_call where
  i : Int
  buffer : Nat
  dims_ok : Bool
  submit_ret : Int

/-- The state after a sequence of calls of `app_input_process`, starting from
the state set by `app_context_init`. -/
def app_run (calls : List input_call) : app_data :=
  calls.foldl (fun app c => (app_input_process app c.i c.buffer c.dims_ok c.submit_ret).app)
    app_context_init

/-- Bit `j` of `input_ready` is set exactly when the queue of camera `j` is
empty, for each of the four cameras, and no other bit is set. -/
def app_inv (app : app_data) : Prop :=
  app.input_ready < 16 ∧
  ∀ j, j < 4 → (app.input_ready &&& (1 <<< j) ≠ 0 ↔ app.input j = [])

/-- The queues after the buffer of a call has been pushed to the tail of the
queue of camera `i` (line 239). -/
def enqueued (app : app_data) (i : Nat) (buffer : Nat) : Nat → List Nat :=
  Function.update app.input i (app.input i ++ [buffer])

/-- The calls that queue the buffers 10, 11 and 12 for the cameras 0, 1 and
2, and then a second buffer, 13, for camera 0. -/
def three_cameras_queued : List input_call :=
  [{ i := 0, buffer := 10, dims_ok := true, submit_ret := 0 },
   { i := 1, buffer := 11, dims_ok := true, submit_ret := 0 },
   { i := 2, buffer := 12, dims_ok := true, submit_ret := 0 },
   { i := 0, buffer := 13, dims_ok := true, submit_ret := 0 }]

/-! ## Bitwise helper lemmas -/

theorem xor_eq_or_of_and_eq_zero (a b : Nat) (h : a &&& b = 0) : a ^^^ b = a ||| b := by
  apply Nat.eq_of_testBit_eq
  intro i
  have hi := congrArg (fun n => Nat.testBit n i) h
  simp only [Nat.testBit_and, Nat.zero_testBit] at hi
  simp only [Nat.testBit_xor, Nat.testBit_or]
  cases ha : a.testBit i <;> cases hb : b.testBit i <;> simp_all

theorem and_eq_zero_of_or (a b c : Nat) (h : a &&& (b ||| c) = 0) :
    a &&& b = 0 ∧ a &&& c = 0 := by
  constructor <;>
  · apply Nat.eq_of_testBit_eq
    intro i
    have hi := congrArg (fun n => Nat.testBit n i) h
    simp only [Nat.testBit_and, Nat.testBit_or, Nat.zero_testBit] at hi ⊢
    cases ha : a.testBit i <;> simp_all

theorem and_or_eq_zero (a b c : Nat) (hb : a &&& b = 0) (hc : a &&& c = 0) :
    a &&& (b ||| c) = 0 := by
  apply Nat.eq_of_testBit_eq
  intro i
  have hbi := congrArg (fun n => Nat.testBit n i) hb
  have hci := congrArg (fun n => Nat.testBit n i) hc
  simp only [Nat.testBit_and, Nat.testBit_or, Nat.zero_testBit] at hbi hci ⊢
  cases ha : a.testBit i <;> simp_all

theorem or_and_of_disjoint (a b m : Nat) (h : m &&& b = 0) : (a ||| b) &&& m = a &&& m := by
  apply Nat.eq_of_testBit_eq
  intro i
  have hi := congrArg (fun n => Nat.testBit n i) h
  simp only [Nat.testBit_and, Nat.testBit_or, Nat.zero_testBit] at hi ⊢
  cases ha : a.testBit i <;> cases hm : m.testBit i <;> simp_all

theorem xor_and_of_disjoint (a b m : Nat) (h : m &&& b = 0) : (a ^^^ b) &&& m = a &&& m := by
  apply Nat.eq_of_testBit_eq
  intro i
  have hi := congrArg (fun n => Nat.testBit n i) h
  simp only [Nat.testBit_and, Nat.testBit_xor, Nat.zero_testBit] at hi ⊢
  cases ha : a.testBit i <;> cases hm : m.testBit i <;> simp_all

theorem or_and_self_eq (a b : Nat) : (a ||| b) &&& b = b := by
  apply Nat.eq_of_testBit_eq
  intro i
  simp only [Nat.testBit_and, Nat.testBit_or]
  cases ha : a.testBit i <;> cases hb : b.testBit i <;> simp

theorem xor_or_self_eq (a b : Nat) (h : a &&& b = b) : (a ^^^ b) ||| b = a := by
  apply Nat.eq_of_testBit_eq
  intro i
  have hi := congrArg (fun n => Nat.testBit n i) h
  simp only [Nat.testBit_and, Nat.testBit_xor, Nat.testBit_or] at hi ⊢
  cases ha : a.testBit i <;> cases hb : b.testBit i <;> simp_all

theorem xor_and_self_eq_zero (a b : Nat) (h : a &&& b = b) : (a ^^^ b) &&& b = 0 := by
  apply Nat.eq_of_testBit_eq
  intro i
  have hi := congrArg (fun n => Nat.testBit n i) h
  simp only [Nat.testBit_and, Nat.testBit_xor, Nat.zero_testBit] at hi ⊢
  cases ha : a.testBit i <;> cases hb : b.testBit i <;> simp_all

theorem and_flag_eq_of_ne_zero (f k : Nat) (h : f &&& (1 <<< k) ≠ 0) :
    f &&& (1 <<< k) = 1 <<< k := by
  rw [Nat.one_shiftLeft, Nat.and_two_pow] at *
  cases hb : f.testBit k <;> simp_all

theorem and_u32_not (f b : Nat) (hf : f < 2 ^ 32) : f &&& u32_not b = f ^^^ (f &&& b) := by
  apply Nat.eq_of_testBit_eq
  intro i
  simp only [u32_not, UINT32_MAX, Nat.testBit_and, Nat.testBit_xor, Nat.testBit_two_pow_sub_one]
  by_cases hi : i < 32
  · simp only [hi, decide_True, Bool.true_xor]
    cases f.testBit i <;> simp
  · have hfi : f.testBit i = false :=
      Nat.testBit_lt_two_pow
        (lt_of_lt_of_le hf (Nat.pow_le_pow_right (by norm_num) (not_lt.mp hi)))
    simp [hfi]

/-! ## `window_schedule_redraw` -/

theorem schedule_redraw_noop (f : Nat)
    (h : f &&& WINDOW_FLAG_REDRAW ≠ 0 ∨ f &&& WINDOW_FLAG_PENDING ≠ 0) :
    window_schedule_redraw f = (f, false) := by
  have hne : f &&& (WINDOW_FLAG_REDRAW ||| WINDOW_FLAG_PENDING) ≠ 0 := by
    intro h0
    have h2 := and_eq_zero_of_or _ _ _ h0
    rcases h with h | h
    · exact h h2.1
    · exact h h2.2
  simp [window_schedule_redraw, hne]

theorem schedule_redraw_idle (f : Nat) (hR : f &&& WINDOW_FLAG_REDRAW = 0)
    (hP : f &&& WINDOW_FLAG_PENDING = 0) (hB : f &&& WINDOW_FLAG_BUSY = 0) :
    window_schedule_redraw f = (f ||| WINDOW_FLAG_REDRAW, true) := by
  have h0 := and_or_eq_zero _ _ _ hR hP
  simp [window_schedule_redraw, h0, hB, xor_eq_or_of_and_eq_zero _ _ hR]

theorem schedule_redraw_busy (f : Nat) (hR : f &&& WINDOW_FLAG_REDRAW = 0)
    (hP : f &&& WINDOW_FLAG_PENDING = 0) (hB : f &&& WINDOW_FLAG_BUSY ≠ 0) :
    window_schedule_redraw f = (f ||| WINDOW_FLAG_PENDING, false) := by
  have h0 := and_or_eq_zero _ _ _ hR hP
  simp [window_schedule_redraw, h0, hB, xor_eq_or_of_and_eq_zero _ _ hP]

/-- Claim C1: for a flag word `f` with TERMINATE clear, `window_schedule_redraw`
(a) leaves `f` unchanged and does not signal when REDRAW or PENDING is set;
(b) otherwise, with BUSY clear, adds exactly REDRAW and signals;
(c) otherwise, with BUSY set, adds exactly PENDING and does not signal.
In (b) and (c) every bit outside the added flag keeps its value. -/
theorem C1_window_schedule_redraw_table (f : Nat) (hT : f &&& WINDOW_FLAG_TERMINATE = 0) :
    ((f &&& WINDOW_FLAG_REDRAW ≠ 0 ∨ f &&& WINDOW_FLAG_PENDING ≠ 0) →
        window_schedule_redraw f = (f, false)) ∧
    (f &&& WINDOW_FLAG_REDRAW = 0 → f &&& WINDOW_FLAG_PENDING = 0 →
      f &&& WINDOW_FLAG_BUSY = 0 →
        window_schedule_redraw f = (f ||| WINDOW_FLAG_REDRAW, true) ∧
        (∀ m, m &&& WINDOW_FLAG_REDRAW = 0 → (window_schedule_redraw f).1 &&& m = f &&& m)) ∧
    (f &&& WINDOW_FLAG_REDRAW = 0 → f &&& WINDOW_FLAG_PENDING = 0 →
      f &&& WINDOW_FLAG_BUSY ≠ 0 →
        window_schedule_redraw f = (f ||| WINDOW_FLAG_PENDING, false) ∧
        (∀ m, m &&& WINDOW_FLAG_PENDING = 0 → (window_schedule_redraw f).1 &&& m = f &&& m)) ∧
    (window_schedule_redraw f).1 &&& WINDOW_FLAG_TERMINATE = 0 := by
  refine ⟨schedule_redraw_noop f, ?_, ?_, ?_⟩
  · intro hR hP hB
    refine ⟨schedule_redraw_idle f hR hP hB, ?_⟩
    intro m hm
    rw [schedule_redraw_idle f hR hP hB]
    exact or_and_of_disjoint f _ m hm
  · intro hR hP hB
    refine ⟨schedule_redraw_busy f hR hP hB, ?_⟩
    intro m hm
    rw [schedule_redraw_busy f hR hP hB]
    exact or_and_of_disjoint f _ m hm
  · by_cases hRP : f &&& WINDOW_FLAG_REDRAW ≠ 0 ∨ f &&& WINDOW_FLAG_PENDING ≠ 0
    · rw [schedule_redraw_noop f hRP]; exact hT
    · have hR : f &&& WINDOW_FLAG_REDRAW = 0 := by
        by_contra h; exact hRP (Or.inl h)
      have hP : f &&& WINDOW_FLAG_PENDING = 0 := by
        by_contra h; exact hRP (Or.inr h)
      by_cases hB : f &&& WINDOW_FLAG_BUSY = 0
      · rw [schedule_redraw_idle f hR hP hB]
        show (f ||| WINDOW_FLAG_REDRAW) &&& WINDOW_FLAG_TERMINATE = 0
        rw [or_and_of_disjoint f _ _ (by decide)]; exact hT
      · rw [schedule_redraw_busy f hR hP hB]
        show (f ||| WINDOW_FLAG_PENDING) &&& WINDOW_FLAG_TERMINATE = 0
        rw [or_and_of_disjoint f _ _ (by decide)]; exact hT

/-- Claim C1, at the flag word `BUSY` (a frame in flight, TERMINATE clear):
PENDING is added, nothing is signalled. -/
theorem C1_window_schedule_redraw_table_witness :
    WINDOW_FLAG_BUSY &&& WINDOW_FLAG_TERMINATE = 0 ∧
    window_schedule_redraw WINDOW_FLAG_BUSY =
      (WINDOW_FLAG_BUSY ||| WINDOW_FLAG_PENDING, false) :=
  ⟨by decide,
   ((C1_window_schedule_redraw_table WINDOW_FLAG_BUSY (by decide)).2.2.1
      (by decide) (by decide) (by decide)).1⟩

/-- Claim C2 as stated fails: at the flag word `TERMINATE`
`window_schedule_redraw` sets REDRAW and signals the condition variable. -/
theorem C2_counterexample :
    WINDOW_FLAG_TERMINATE &&& WINDOW_FLAG_TERMINATE ≠ 0 ∧
    window_schedule_redraw WINDOW_FLAG_TERMINATE =
      (WINDOW_FLAG_TERMINATE ||| WINDOW_FLAG_REDRAW, true) ∧
    ¬ (window_schedule_redraw WINDOW_FLAG_TERMINATE = (WINDOW_FLAG_TERMINATE, false)) := by
  decide

/-- Claim C2, amended: `window_schedule_redraw` does not look at TERMINATE.
For a flag word with TERMINATE set it is a no-op (flag word unchanged, no
signal) exactly when REDRAW or PENDING is already set; otherwise it adds
REDRAW and signals when BUSY is clear, and adds PENDING without a signal when
BUSY is set.  TERMINATE stays set in every case. -/
theorem C2_window_schedule_redraw_terminating (f : Nat)
    (hT : f &&& WINDOW_FLAG_TERMINATE ≠ 0) :
    (window_schedule_redraw f = (f, false) ↔
        (f &&& WINDOW_FLAG_REDRAW ≠ 0 ∨ f &&& WINDOW_FLAG_PENDING ≠ 0)) ∧
    (f &&& WINDOW_FLAG_REDRAW = 0 → f &&& WINDOW_FLAG_PENDING = 0 →
      f &&& WINDOW_FLAG_BUSY = 0 →
        window_schedule_redraw f = (f ||| WINDOW_FLAG_REDRAW, true)) ∧
    (f &&& WINDOW_FLAG_REDRAW = 0 → f &&& WINDOW_FLAG_PENDING = 0 →
      f &&& WINDOW_FLAG_BUSY ≠ 0 →
        window_schedule_redraw f = (f ||| WINDOW_FLAG_PENDING, false)) ∧
    (window_schedule_redraw f).1 &&& WINDOW_FLAG_TERMINATE ≠ 0 := by
  refine ⟨⟨?_, schedule_redraw_noop f⟩, schedule_redraw_idle f, schedule_redraw_busy f, ?_⟩
  · intro h
    by_contra hRP
    have hR : f &&& WINDOW_FLAG_REDRAW = 0 := by
      by_contra h1; exact hRP (Or.inl h1)
    have hP : f &&& WINDOW_FLAG_PENDING = 0 := by
      by_contra h1; exact hRP (Or.inr h1)
    by_cases hB : f &&& WINDOW_FLAG_BUSY = 0
    · rw [schedule_redraw_idle f hR hP hB] at h
      simp at h
    · rw [schedule_redraw_busy f hR hP hB] at h
      have h1 : (f ||| WINDOW_FLAG_PENDING) &&& WINDOW_FLAG_PENDING = 0 := by
        rw [(Prod.mk.inj h).1]; exact hP
      rw [or_and_self_eq] at h1
      exact absurd h1 (by decide)
  · by_cases hRP : f &&& WINDOW_FLAG_REDRAW ≠ 0 ∨ f &&& WINDOW_FLAG_PENDING ≠ 0
    · rw [schedule_redraw_noop f hRP]; exact hT
    · have hR : f &&& WINDOW_FLAG_REDRAW = 0 := by
        by_contra h; exact hRP (Or.inl h)
      have hP : f &&& WINDOW_FLAG_PENDING = 0 := by
        by_contra h; exact hRP (Or.inr h)
      by_cases hB : f &&& WINDOW_FLAG_BUSY = 0
      · rw [schedule_redraw_idle f hR hP hB]
        show (f ||| WINDOW_FLAG_REDRAW) &&& WINDOW_FLAG_TERMINATE ≠ 0
        rw [or_and_of_disjoint f _ _ (by decide)]; exact hT
      · rw [schedule_redraw_busy f hR hP hB]
        show (f ||| WINDOW_FLAG_PENDING) &&& WINDOW_FLAG_TERMINATE ≠ 0
        rw [or_and_of_disjoint f _ _ (by decide)]; exact hT

/-- Claim C2, amended, at the flag word `TERMINATE`: REDRAW is added and the
condition variable is signalled. -/
theorem C2_window_schedule_redraw_terminating_witness :
    WINDOW_FLAG_TERMINATE &&& WINDOW_FLAG_TERMINATE ≠ 0 ∧
    window_schedule_redraw WINDOW_FLAG_TERMINATE =
      (WINDOW_FLAG_TERMINATE ||| WINDOW_FLAG_REDRAW, true) :=
  ⟨by decide,
   (C2_window_schedule_redraw_terminating WINDOW_FLAG_TERMINATE (by decide)).2.1
      (by decide) (by decide) (by decide)⟩

/-! ## `__window_sync_callback` -/

theorem BUG_busy (dbg f : Nat) (hB : f &&& WINDOW_FLAG_BUSY ≠ 0) :
    BUG dbg (f &&& WINDOW_FLAG_BUSY == 0) = some () := by
  simp [BUG, hB]

theorem sync_callback_pending (dbg f : Nat) (hB : f &&& WINDOW_FLAG_BUSY ≠ 0)
    (hP : f &&& WINDOW_FLAG_PENDING ≠ 0) :
    __window_sync_callback dbg f =
      some ((f ^^^ WINDOW_FLAG_BUSY) ^^^ (WINDOW_FLAG_PENDING ||| WINDOW_FLAG_REDRAW), true) := by
  have h1 : (f ^^^ WINDOW_FLAG_BUSY) &&& WINDOW_FLAG_PENDING ≠ 0 := by
    rw [xor_and_of_disjoint f _ _ (by decide)]; exact hP
  simp [__window_sync_callback, BUG_busy dbg f hB, h1]

theorem sync_callback_not_pending (dbg f : Nat) (hB : f &&& WINDOW_FLAG_BUSY ≠ 0)
    (hP : f &&& WINDOW_FLAG_PENDING = 0) :
    __window_sync_callback dbg f = some (f ^^^ WINDOW_FLAG_BUSY, false) := by
  have h1 : (f ^^^ WINDOW_FLAG_BUSY) &&& WINDOW_FLAG_PENDING = 0 := by
    rw [xor_and_of_disjoint f _ _ (by decide)]; exact hP
  simp [__window_sync_callback, BUG_busy dbg f hB, h1]

/-- Claim C3: for a flag word `f` with BUSY set and REDRAW clear, in either
build, `__window_sync_callback` returns with BUSY cleared.  If PENDING was set
it also clears PENDING, sets REDRAW and signals; every bit outside BUSY,
PENDING and REDRAW keeps its value.  If PENDING was clear it does not signal,
REDRAW and PENDING stay clear, and every bit outside BUSY keeps its value.
TERMINATE keeps its value in both cases. -/
theorem C3_window_sync_callback (dbg f : Nat) (hB : f &&& WINDOW_FLAG_BUSY ≠ 0)
    (hR : f &&& WINDOW_FLAG_REDRAW = 0) :
    (f &&& WINDOW_FLAG_PENDING ≠ 0 →
      ∃ g, __window_sync_callback dbg f = some (g, true) ∧
        g &&& WINDOW_FLAG_BUSY = 0 ∧ g &&& WINDOW_FLAG_PENDING = 0 ∧
        g &&& WINDOW_FLAG_REDRAW ≠ 0 ∧
        g &&& WINDOW_FLAG_TERMINATE = f &&& WINDOW_FLAG_TERMINATE ∧
        (∀ m, m &&& (WINDOW_FLAG_BUSY ||| WINDOW_FLAG_PENDING ||| WINDOW_FLAG_REDRAW) = 0 →
          g &&& m = f &&& m)) ∧
    (f &&& WINDOW_FLAG_PENDING = 0 →
      ∃ g, __window_sync_callback dbg f = some (g, false) ∧
        g &&& WINDOW_FLAG_BUSY = 0 ∧ g &&& WINDOW_FLAG_PENDING = 0 ∧
        g &&& WINDOW_FLAG_REDRAW = 0 ∧
        g &&& WINDOW_FLAG_TERMINATE = f &&& WINDOW_FLAG_TERMINATE ∧
        (∀ m, m &&& WINDOW_FLAG_BUSY = 0 → g &&& m = f &&& m)) := by
  have hBset : f &&& WINDOW_FLAG_BUSY = WINDOW_FLAG_BUSY := and_flag_eq_of_ne_zero f 1 hB
  have hclr : (f ^^^ WINDOW_FLAG_BUSY) &&& WINDOW_FLAG_BUSY = 0 :=
    xor_and_self_eq_zero f _ hBset
  constructor
  · intro hP
    have hPset : f &&& WINDOW_FLAG_PENDING = WINDOW_FLAG_PENDING :=
      and_flag_eq_of_ne_zero f 2 hP
    refine ⟨_, sync_callback_pending dbg f hB hP, ?_, ?_, ?_, ?_, ?_⟩
    · rw [xor_and_of_disjoint _ _ _ (by decide)]; exact hclr
    · rw [Nat.and_xor_distrib_right, xor_and_of_disjoint f _ _ (by decide), hPset]
      decide
    · rw [Nat.and_xor_distrib_right, xor_and_of_disjoint f _ _ (by decide), hR]
      decide
    · rw [xor_and_of_disjoint _ _ _ (by decide), xor_and_of_disjoint _ _ _ (by decide)]
    · intro m hm
      have h1 := and_eq_zero_of_or _ _ _ hm
      have h2 := and_eq_zero_of_or _ _ _ h1.1
      rw [xor_and_of_disjoint _ _ _ (and_or_eq_zero _ _ _ h2.2 h1.2),
        xor_and_of_disjoint _ _ _ h2.1]
  · intro hP
    refine ⟨_, sync_callback_not_pending dbg f hB hP, hclr, ?_, ?_, ?_, ?_⟩
    · rw [xor_and_of_disjoint _ _ _ (by decide)]; exact hP
    · rw [xor_and_of_disjoint _ _ _ (by decide)]; exact hR
    · rw [xor_and_of_disjoint _ _ _ (by decide)]
    · intro m hm
      exact xor_and_of_disjoint _ _ _ hm

/-- Claim C3, at the flag word `BUSY | PENDING` in the configured build: the
callback returns the flag word `REDRAW` and signals. -/
theorem C3_window_sync_callback_witness :
    (WINDOW_FLAG_BUSY ||| WINDOW_FLAG_PENDING) &&& WINDOW_FLAG_BUSY ≠ 0 ∧
    (WINDOW_FLAG_BUSY ||| WINDOW_FLAG_PENDING) &&& WINDOW_FLAG_REDRAW = 0 ∧
    ∃ g, __window_sync_callback INTERN_DEBUG (WINDOW_FLAG_BUSY ||| WINDOW_FLAG_PENDING)
        = some (g, true) ∧ g &&& WINDOW_FLAG_BUSY = 0 :=
  ⟨by decide, by decide,
   match (C3_window_sync_callback INTERN_DEBUG (WINDOW_FLAG_BUSY ||| WINDOW_FLAG_PENDING)
      (by decide) (by decide)).1 (by decide) with
   | ⟨g, h1, h2, _⟩ => ⟨g, h1, h2⟩⟩

/-! ## `window_draw` -/

theorem window_draw_eq (f : Nat) : window_draw f = f := by
  simp [window_draw]

/-- Claim C4 as stated fails: for the flag word 0 the flag word after the
locked section of `window_draw` has BUSY clear. -/
theorem C4_counterexample : ¬ (window_draw 0 &&& WINDOW_FLAG_BUSY ≠ 0) := by
  decide

/-- Claim C4, amended: the locked section of `window_draw` leaves every flag
word unchanged (the block that toggles BUSY is under `if (0)`), so BUSY is set
afterwards exactly when it was set before. -/
theorem C4_window_draw_keeps_flags (f : Nat) :
    window_draw f = f ∧
    (window_draw f &&& WINDOW_FLAG_BUSY ≠ 0 ↔ f &&& WINDOW_FLAG_BUSY ≠ 0) := by
  rw [window_draw_eq]
  exact ⟨rfl, Iff.rfl⟩

/-! ## `window_thread` -/

theorem window_thread_wait (f : Nat) (hR : f &&& WINDOW_FLAG_REDRAW = 0)
    (hT : f &&& WINDOW_FLAG_TERMINATE = 0) :
    window_thread f = (f, [Effect.lock, Effect.cond_wait]) := by
  simp [window_thread, and_or_eq_zero _ _ _ hR hT]

theorem window_thread_exit (f : Nat) (hT : f &&& WINDOW_FLAG_TERMINATE ≠ 0) :
    window_thread f = (f, [Effect.lock, Effect.unlock, Effect.thread_exit]) := by
  have h0 : f &&& (WINDOW_FLAG_REDRAW ||| WINDOW_FLAG_TERMINATE) ≠ 0 := fun h =>
    hT (and_eq_zero_of_or _ _ _ h).2
  simp [window_thread, h0, hT]

theorem window_thread_redraw (f : Nat) (hf : f < 2 ^ 32) (hR : f &&& WINDOW_FLAG_REDRAW ≠ 0)
    (hT : f &&& WINDOW_FLAG_TERMINATE = 0) :
    window_thread f =
      (f ^^^ WINDOW_FLAG_REDRAW, [Effect.lock, Effect.unlock, Effect.redraw]) := by
  have h0 : f &&& (WINDOW_FLAG_REDRAW ||| WINDOW_FLAG_TERMINATE) ≠ 0 := fun h =>
    hR (and_eq_zero_of_or _ _ _ h).1
  have hRset : f &&& WINDOW_FLAG_REDRAW = WINDOW_FLAG_REDRAW := and_flag_eq_of_ne_zero f 0 hR
  simp [window_thread, h0, hT, and_u32_not f _ hf, hRset]

/-- Claim C10: one pass of the render loop on a 32-bit flag word `f`.
With REDRAW and TERMINATE clear the thread takes the lock and blocks in
`pthread_cond_wait`; `f` is unchanged and the hook is not invoked.
With TERMINATE set (REDRAW set or not) it unlocks and leaves the loop; `f` is
unchanged and the hook is not invoked.
With REDRAW set and TERMINATE clear it clears REDRAW and nothing else,
unlocks, and then invokes the hook once. -/
theorem C10_window_thread_pass (f : Nat) (hf : f < 2 ^ 32) :
    (f &&& WINDOW_FLAG_REDRAW = 0 → f &&& WINDOW_FLAG_TERMINATE = 0 →
      window_thread f = (f, [Effect.lock, Effect.cond_wait])) ∧
    (f &&& WINDOW_FLAG_TERMINATE ≠ 0 →
      window_thread f = (f, [Effect.lock, Effect.unlock, Effect.thread_exit])) ∧
    (f &&& WINDOW_FLAG_REDRAW ≠ 0 → f &&& WINDOW_FLAG_TERMINATE = 0 →
      ∃ g, window_thread f = (g, [Effect.lock, Effect.unlock, Effect.redraw]) ∧
        g &&& WINDOW_FLAG_REDRAW = 0 ∧ g ||| WINDOW_FLAG_REDRAW = f ∧
        (∀ m, m &&& WINDOW_FLAG_REDRAW = 0 → g &&& m = f &&& m)) := by
  refine ⟨window_thread_wait f, window_thread_exit f, ?_⟩
  intro hR hT
  have hRset : f &&& WINDOW_FLAG_REDRAW = WINDOW_FLAG_REDRAW := and_flag_eq_of_ne_zero f 0 hR
  exact ⟨_, window_thread_redraw f hf hR hT, xor_and_self_eq_zero f _ hRset,
    xor_or_self_eq f _ hRset, fun m hm => xor_and_of_disjoint f _ m hm⟩

/-- Claim C10, at the flag word `REDRAW | TERMINATE`: the thread leaves the
loop, the flag word is unchanged and the hook is not invoked. -/
theorem C10_window_thread_pass_witness :
    WINDOW_FLAG_REDRAW ||| WINDOW_FLAG_TERMINATE < 2 ^ 32 ∧
    window_thread (WINDOW_FLAG_REDRAW ||| WINDOW_FLAG_TERMINATE) =
      (WINDOW_FLAG_REDRAW ||| WINDOW_FLAG_TERMINATE,
        [Effect.lock, Effect.unlock, Effect.thread_exit]) :=
  ⟨by decide,
   (C10_window_thread_pass (WINDOW_FLAG_REDRAW ||| WINDOW_FLAG_TERMINATE) (by decide)).2.1
      (by decide)⟩

/-! ## Reachable flag words -/

theorem flag_step_ok (f : Nat) (hf : f < 16) (op : FlagOp) (hok : flags_ok f) :
    ∀ g ∈ flag_step INTERN_DEBUG f op, g < 16 ∧ flags_ok g := by
  revert hok
  cases op <;> interval_cases f <;> decide

theorem flag_run_ok (ops : List FlagOp) :
    ∀ f g, f < 16 → flags_ok f → flag_run INTERN_DEBUG f ops = some g →
      g < 16 ∧ flags_ok g := by
  induction ops with
  | nil =>
    intro f g hf hok h
    simp only [flag_run, Option.some.injEq] at h
    subst h
    exact ⟨hf, hok⟩
  | cons op ops ih =>
    intro f g hf hok h
    simp only [flag_run] at h
    cases hs : flag_step INTERN_DEBUG f op with
    | none => rw [hs] at h; exact absurd h (by simp)
    | some f1 =>
      rw [hs] at h
      have h1 := flag_step_ok f hf op hok f1 (by simp [hs])
      exact ih f1 g h1.1 h1.2 h

theorem flag_step_never_busy (f : Nat) (hf : f < 16) (op : FlagOp)
    (h0 : f &&& (WINDOW_FLAG_BUSY ||| WINDOW_FLAG_PENDING) = 0) :
    ∀ g ∈ flag_step INTERN_DEBUG f op,
      g < 16 ∧ g &&& (WINDOW_FLAG_BUSY ||| WINDOW_FLAG_PENDING) = 0 := by
  revert h0
  cases op <;> interval_cases f <;> decide

/-- In the configured build no sequence of the flag-writing functions sets
BUSY or PENDING on a window that starts with both clear: the only assignment
that sets BUSY is the disabled block of `window_draw`, and
`__window_sync_callback` aborts on a window whose BUSY flag is clear. -/
theorem flag_run_never_busy (ops : List FlagOp) :
    ∀ f g, f < 16 → f &&& (WINDOW_FLAG_BUSY ||| WINDOW_FLAG_PENDING) = 0 →
      flag_run INTERN_DEBUG f ops = some g →
      g < 16 ∧ g &&& (WINDOW_FLAG_BUSY ||| WINDOW_FLAG_PENDING) = 0 := by
  induction ops with
  | nil =>
    intro f g hf h0 h
    simp only [flag_run, Option.some.injEq] at h
    subst h
    exact ⟨hf, h0⟩
  | cons op ops ih =>
    intro f g hf h0 h
    simp only [flag_run] at h
    cases hs : flag_step INTERN_DEBUG f op with
    | none => rw [hs] at h; exact absurd h (by simp)
    | some f1 =>
      rw [hs] at h
      have h1 := flag_step_never_busy f hf op h0 f1 (by simp [hs])
      exact ih f1 g h1.1 h1.2 h

/-- Claim C5: in the configured build, every flag word reached from the flag
word 0 of a new window by any sequence of `window_schedule_redraw`,
`window_thread` passes, `window_draw`, `__window_sync_callback` and the
terminate step of `window_destroy` has PENDING set only if BUSY is set, and
REDRAW set only if BUSY is clear. -/
theorem C5_flags_invariant (ops : List FlagOp) (f : Nat)
    (h : flag_run INTERN_DEBUG 0 ops = some f) :
    (f &&& WINDOW_FLAG_PENDING ≠ 0 → f &&& WINDOW_FLAG_BUSY ≠ 0) ∧
    (f &&& WINDOW_FLAG_REDRAW ≠ 0 → f &&& WINDOW_FLAG_BUSY = 0) :=
  (flag_run_ok ops 0 f (by decide) (by decide) h).2

/-- Claim C5, on the run schedule, thread pass, draw, schedule, destroy, which
ends in the flag word `REDRAW | TERMINATE`. -/
theorem C5_flags_invariant_witness :
    flag_run INTERN_DEBUG 0
      [FlagOp.schedule_redraw, FlagOp.window_thread, FlagOp.window_draw,
       FlagOp.schedule_redraw, FlagOp.destroy]
      = some (WINDOW_FLAG_REDRAW ||| WINDOW_FLAG_TERMINATE) ∧
    ((WINDOW_FLAG_REDRAW ||| WINDOW_FLAG_TERMINATE) &&& WINDOW_FLAG_REDRAW ≠ 0 →
      (WINDOW_FLAG_REDRAW ||| WINDOW_FLAG_TERMINATE) &&& WINDOW_FLAG_BUSY = 0) :=
  ⟨by decide,
   (C5_flags_invariant
      [FlagOp.schedule_redraw, FlagOp.window_thread, FlagOp.window_draw,
       FlagOp.schedule_redraw, FlagOp.destroy]
      (WINDOW_FLAG_REDRAW ||| WINDOW_FLAG_TERMINATE) (by decide)).2⟩

/-! ## Reachable window states -/

theorem schedule_redraw_flags : ∀ f, f < 16 → flags_ok f →
    (window_schedule_redraw f).1 < 16 ∧ flags_ok (window_schedule_redraw f).1 ∧
    queued (window_schedule_redraw f).1 ≤ queued f + 1 ∧
    queued f ≤ queued (window_schedule_redraw f).1 ∧
    1 ≤ queued (window_schedule_redraw f).1 := by
  decide

theorem window_thread_flags : ∀ f, f < 16 → flags_ok f →
    (window_thread f).1 < 16 ∧ flags_ok (window_thread f).1 ∧
    queued (window_thread f).1 + (window_thread f).2.count Effect.redraw = queued f ∧
    pc_after (window_thread f).2 ≠ Pc.draw_wait ∧
    (window_thread f).2.count Effect.redraw ≤ 1 ∧
    ((window_thread f).2.count Effect.redraw ≠ 0 →
      f &&& WINDOW_FLAG_BUSY = 0 ∧ (window_thread f).1 &&& WINDOW_FLAG_BUSY = 0) := by
  decide

theorem sync_callback_flags : ∀ f, f < 16 → flags_ok f →
    ∀ r ∈ __window_sync_callback INTERN_DEBUG f,
      r.1 < 16 ∧ flags_ok r.1 ∧ queued r.1 = queued f := by
  decide

theorem window_destroy_flags : ∀ f, f < 16 → flags_ok f →
    (window_destroy f).1 < 16 ∧ flags_ok (window_destroy f).1 ∧
    queued (window_destroy f).1 = queued f := by
  decide

theorem step_inv (w w1 : window_data) (e : Event) (hw : window_inv w)
    (h : step INTERN_DEBUG w e = some w1) : window_inv w1 := by
  obtain ⟨h16, hok, hfl, hle, hge⟩ := hw
  cases e with
  | schedule_redraw =>
    simp only [step, Option.some.injEq] at h
    subst h
    obtain ⟨a1, a2, a3, _, a5⟩ := schedule_redraw_flags w.flags h16 hok
    exact ⟨a1, a2, hfl, by simp only; omega, fun _ => by simp only; omega⟩
  | thread_pass =>
    simp only [step] at h
    split at h
    · rename_i hpc
      simp only [Option.some.injEq] at h
      subst h
      obtain ⟨a1, a2, a3, a4, _, _⟩ := window_thread_flags w.flags h16 hok
      refine ⟨a1, a2, ?_, by simp only; omega, fun hs => by simp only at hs ⊢; omega⟩
      simp only [hpc, if_neg a4] at hfl ⊢
      simpa using hfl
    · exact absurd h (by simp)
  | draw =>
    simp only [step] at h
    split at h
    · rename_i hpc
      simp only [Option.some.injEq] at h
      subst h
      simp only [hpc] at hfl
      refine ⟨by simpa [window_draw_eq] using h16, by simpa [window_draw_eq] using hok,
        ?_, by simpa [window_draw_eq] using hle, by simpa [window_draw_eq] using hge⟩
      simp at hfl
      simp [hfl]
    · exact absurd h (by simp)
  | frame_done =>
    simp only [step] at h
    split at h
    · rename_i hpc
      simp only [Option.some.injEq] at h
      subst h
      simp only [hpc] at hfl
      refine ⟨by simpa [__window_sync_callback2] using h16,
        by simpa [__window_sync_callback2] using hok,
        ?_, by simpa [__window_sync_callback2] using hle,
        by simpa [__window_sync_callback2] using hge⟩
      simp at hfl
      simp [hfl]
    · exact absurd h (by simp)
  | hook_return =>
    simp only [step] at h
    split at h
    · rename_i hpc
      simp only [Option.some.injEq] at h
      subst h
      simp only [hpc] at hfl
      refine ⟨h16, hok, ?_, hle, hge⟩
      simp at hfl
      simp [hfl]
    · exact absurd h (by simp)
  | sync_callback =>
    simp only [step] at h
    cases hs : __window_sync_callback INTERN_DEBUG w.flags with
    | none => rw [hs] at h; exact absurd h (by simp)
    | some r =>
      rw [hs] at h
      simp only [Option.some.injEq] at h
      subst h
      obtain ⟨a1, a2, a3⟩ := sync_callback_flags w.flags h16 hok r (by simp [hs])
      exact ⟨a1, a2, hfl, by simp only; omega, fun hs => by simp only at hs ⊢; omega⟩
  | destroy =>
    simp only [step, Option.some.injEq] at h
    subst h
    obtain ⟨a1, a2, a3⟩ := window_destroy_flags w.flags h16 hok
    exact ⟨a1, a2, hfl, by simp only; omega, fun hs => by simp only at hs ⊢; omega⟩

theorem run_inv (evs : List Event) :
    ∀ w w1, window_inv w → run INTERN_DEBUG w evs = some w1 → window_inv w1 := by
  induction evs with
  | nil =>
    intro w w1 hw h
    simp only [run, Option.some.injEq] at h
    subst h
    exact hw
  | cons e es ih =>
    intro w w1 hw h
    simp only [run] at h
    cases hs : step INTERN_DEBUG w e with
    | none => rw [hs] at h; exact absurd h (by simp)
    | some w2 =>
      rw [hs] at h
      exact ih w2 w1 (step_inv w w2 e hw hs) h

theorem window_create_inv : window_inv window_create := by
  refine ⟨by decide, by decide, by decide, by decide, ?_⟩
  intro h
  exact absurd h (by decide)

/-- Claim C6: in every window state reached from a new window by any sequence
of steps (calls of `window_schedule_redraw`, render-thread passes, frame
submissions, frame acknowledgements, hook returns, `__window_sync_callback`,
terminate), at most one frame is in flight, and a render-thread pass that
invokes the redraw hook starts from a state with BUSY clear and no frame in
flight, invokes the hook once and leaves BUSY clear. -/
theorem C6_no_redraw_while_busy (evs : List Event) (w : window_data)
    (h : run INTERN_DEBUG window_create evs = some w) :
    w.in_flight ≤ 1 ∧
    (∀ w1, step INTERN_DEBUG w Event.thread_pass = some w1 → w1.redraws ≠ w.redraws →
      w.flags &&& WINDOW_FLAG_BUSY = 0 ∧ w.in_flight = 0 ∧
      w1.redraws = w.redraws + 1 ∧ w1.flags &&& WINDOW_FLAG_BUSY = 0 ∧
      w1.in_flight = 0) := by
  obtain ⟨h16, hok, hfl, _, _⟩ := run_inv evs _ _ window_create_inv h
  constructor
  · rw [hfl]; split <;> omega
  · intro w1 hs hne
    simp only [step] at hs
    split at hs
    · rename_i hpc
      simp only [Option.some.injEq] at hs
      subst hs
      obtain ⟨_, _, _, _, a5, a6⟩ := window_thread_flags w.flags h16 hok
      simp only at hne
      have hc : (window_thread w.flags).2.count Effect.redraw ≠ 0 := by
        intro h0; apply hne; omega
      have hin : w.in_flight = 0 := by
        rw [hfl, hpc]; decide
      exact ⟨(a6 hc).1, hin, by simp only; omega, (a6 hc).2, hin⟩
    · exact absurd hs (by simp)

/-- Claim C6, on the run schedule, thread pass, draw, schedule, frame
acknowledgement, hook return: the next thread pass invokes the hook with BUSY
clear. -/
theorem C6_no_redraw_while_busy_witness :
    run INTERN_DEBUG window_create
      [Event.schedule_redraw, Event.thread_pass, Event.draw, Event.schedule_redraw,
       Event.frame_done, Event.hook_return]
      = some { flags := WINDOW_FLAG_REDRAW, pc := Pc.loop, scheduled := 2, redraws := 1,
               in_flight := 0 } ∧
    (WINDOW_FLAG_REDRAW &&& WINDOW_FLAG_BUSY = 0 ∧ (0 : Nat) = 0 ∧ 2 = 1 + 1 ∧
      0 &&& WINDOW_FLAG_BUSY = 0 ∧ (0 : Nat) = 0) :=
  ⟨by decide,
   (C6_no_redraw_while_busy
      [Event.schedule_redraw, Event.thread_pass, Event.draw, Event.schedule_redraw,
       Event.frame_done, Event.hook_return]
      { flags := WINDOW_FLAG_REDRAW, pc := Pc.loop, scheduled := 2, redraws := 1,
        in_flight := 0 } (by decide)).2
      { flags := 0, pc := Pc.hook, scheduled := 2, redraws := 2, in_flight := 0 }
      (by decide) (by decide)⟩

theorem run_append (dbg : Nat) (es1 es2 : List Event) :
    ∀ w, run dbg w (es1 ++ es2) = (run dbg w es1).bind (fun w1 => run dbg w1 es2) := by
  induction es1 with
  | nil => intro w; simp [run]
  | cons e es ih =>
    intro w
    simp only [List.cons_append, run]
    cases step dbg w e with
    | none => simp
    | some w1 => simpa using ih w1

theorem quiet_step (w w1 : window_data) (e : Event) (he : e ≠ Event.schedule_redraw)
    (hq : w.redraws = 1 ∧ (w.flags = 0 ∨ w.flags = WINDOW_FLAG_TERMINATE) ∧
      (w.pc = Pc.loop ∨ w.pc = Pc.exited))
    (h : step INTERN_DEBUG w e = some w1) :
    w1.redraws = 1 ∧ (w1.flags = 0 ∨ w1.flags = WINDOW_FLAG_TERMINATE) ∧
      (w1.pc = Pc.loop ∨ w1.pc = Pc.exited) := by
  obtain ⟨hr, hf, hpc⟩ := hq
  cases e with
  | schedule_redraw => exact absurd rfl he
  | thread_pass =>
    simp only [step] at h
    split at h
    · simp only [Option.some.injEq] at h
      subst h
      have h0 : window_thread 0 = (0, [Effect.lock, Effect.cond_wait]) := by decide
      have h8 : window_thread WINDOW_FLAG_TERMINATE =
          (WINDOW_FLAG_TERMINATE, [Effect.lock, Effect.unlock, Effect.thread_exit]) := by
        decide
      rcases hf with hf | hf
      · simp only [hf, h0]
        exact ⟨by simpa using hr, by simp, Or.inl (by decide)⟩
      · simp only [hf, h8]
        exact ⟨by simpa using hr, by simp, Or.inr (by decide)⟩
    · exact absurd h (by simp)
  | draw =>
    simp only [step] at h
    split at h
    · rename_i hp
      rcases hpc with h1 | h1 <;> rw [h1] at hp <;> exact absurd hp (by decide)
    · exact absurd h (by simp)
  | frame_done =>
    simp only [step] at h
    split at h
    · rename_i hp
      rcases hpc with h1 | h1 <;> rw [h1] at hp <;> exact absurd hp (by decide)
    · exact absurd h (by simp)
  | hook_return =>
    simp only [step] at h
    split at h
    · rename_i hp
      rcases hpc with h1 | h1 <;> rw [h1] at hp <;> exact absurd hp (by decide)
    · exact absurd h (by simp)
  | sync_callback =>
    simp only [step] at h
    have h0 : __window_sync_callback INTERN_DEBUG 0 = none := by decide
    have h8 : __window_sync_callback INTERN_DEBUG WINDOW_FLAG_TERMINATE = none := by decide
    rcases hf with hf | hf
    · rw [hf, h0] at h; exact absurd h (by simp)
    · rw [hf, h8] at h; exact absurd h (by simp)
  | destroy =>
    simp only [step, Option.some.injEq] at h
    subst h
    refine ⟨hr, Or.inr ?_, hpc⟩
    rcases hf with hf | hf <;> simp only [hf] <;> decide

theorem quiet_run (evs : List Event) :
    ∀ w w1, Event.schedule_redraw ∉ evs →
      (w.redraws = 1 ∧ (w.flags = 0 ∨ w.flags = WINDOW_FLAG_TERMINATE) ∧
        (w.pc = Pc.loop ∨ w.pc = Pc.exited)) →
      run INTERN_DEBUG w evs = some w1 →
      (w1.redraws = 1 ∧ (w1.flags = 0 ∨ w1.flags = WINDOW_FLAG_TERMINATE) ∧
        (w1.pc = Pc.loop ∨ w1.pc = Pc.exited)) := by
  induction evs with
  | nil =>
    intro w w1 _ hq h
    simp only [run, Option.some.injEq] at h
    subst h
    exact hq
  | cons e es ih =>
    intro w w1 hns hq h
    simp only [run] at h
    cases hs : step INTERN_DEBUG w e with
    | none => rw [hs] at h; exact absurd h (by simp)
    | some w2 =>
      rw [hs] at h
      have he : e ≠ Event.schedule_redraw := fun hc => hns (by simp [hc])
      have hes : Event.schedule_redraw ∉ es := fun hc => hns (by simp [hc])
      exact ih w2 w1 hes (quiet_step w w2 e he hq hs) h

/-- Claim C7: on a new window (flag word 0) one call of
`window_schedule_redraw` sets REDRAW and signals; the next render-thread pass
clears REDRAW and invokes the redraw hook, the first invocation; after the hook
has submitted its frame, the frame has been acknowledged and the hook has
returned, the flag word is 0 with one invocation counted; and whatever steps
follow, as long as none is a further call of `window_schedule_redraw`, the
count of invocations stays 1 and REDRAW, PENDING and BUSY stay clear. -/
theorem C7_single_schedule (evs : List Event) (w : window_data)
    (hns : Event.schedule_redraw ∉ evs)
    (h : run INTERN_DEBUG window_create
          ([Event.schedule_redraw, Event.thread_pass, Event.draw, Event.frame_done,
            Event.hook_return] ++ evs) = some w) :
    window_schedule_redraw window_create.flags = (WINDOW_FLAG_REDRAW, true) ∧
    run INTERN_DEBUG window_create [Event.schedule_redraw, Event.thread_pass]
      = some { flags := 0, pc := Pc.hook, scheduled := 1, redraws := 1, in_flight := 0 } ∧
    run INTERN_DEBUG window_create
      [Event.schedule_redraw, Event.thread_pass, Event.draw, Event.frame_done,
       Event.hook_return]
      = some { flags := 0, pc := Pc.loop, scheduled := 1, redraws := 1, in_flight := 0 } ∧
    w.redraws = 1 ∧
    w.flags &&& (WINDOW_FLAG_REDRAW ||| WINDOW_FLAG_PENDING ||| WINDOW_FLAG_BUSY) = 0 := by
  refine ⟨by decide, by decide, by decide, ?_⟩
  rw [run_append] at h
  have h5 : run INTERN_DEBUG window_create
      [Event.schedule_redraw, Event.thread_pass, Event.draw, Event.frame_done,
       Event.hook_return] = some window_after_one_frame := by decide
  rw [h5] at h
  simp only [Option.some_bind] at h
  obtain ⟨hr, hf, _⟩ := quiet_run evs window_after_one_frame w hns
    ⟨rfl, Or.inl rfl, Or.inl rfl⟩ h
  refine ⟨hr, ?_⟩
  rcases hf with hf | hf <;> rw [hf] <;> decide

/-- Claim C7, with two further render-thread passes after the frame: both
block in `pthread_cond_wait`, the count of invocations is 1 and the flag word
is 0. -/
theorem C7_single_schedule_witness :
    Event.schedule_redraw ∉ [Event.thread_pass, Event.thread_pass] ∧
    run INTERN_DEBUG window_create
      ([Event.schedule_redraw, Event.thread_pass, Event.draw, Event.frame_done,
        Event.hook_return] ++ [Event.thread_pass, Event.thread_pass])
      = some { flags := 0, pc := Pc.loop, scheduled := 1, redraws := 1, in_flight := 0 } ∧
    (1 : Nat) = 1 :=
  ⟨by decide, by decide,
   (C7_single_schedule [Event.thread_pass, Event.thread_pass]
      { flags := 0, pc := Pc.loop, scheduled := 1, redraws := 1, in_flight := 0 }
      (by decide) (by decide)).2.2.2.1⟩

theorem run_scheduled (dbg : Nat) (evs : List Event) :
    ∀ w w1, run dbg w evs = some w1 →
      w1.scheduled = w.scheduled + evs.count Event.schedule_redraw := by
  induction evs with
  | nil =>
    intro w w1 h
    simp only [run, Option.some.injEq] at h
    subst h
    simp
  | cons e es ih =>
    intro w w1 h
    simp only [run] at h
    cases hs : step dbg w e with
    | none => rw [hs] at h; exact absurd h (by simp)
    | some w2 =>
      rw [hs] at h
      have h2 := ih w2 w1 h
      have h1 : w2.scheduled = w.scheduled + [e].count Event.schedule_redraw := by
        cases e <;> simp only [step] at hs
        · simp only [Option.some.injEq] at hs; subst hs; simp
        · split at hs
          · simp only [Option.some.injEq] at hs; subst hs; simp
          · exact absurd hs (by simp)
        · split at hs
          · simp only [Option.some.injEq] at hs; subst hs; simp
          · exact absurd hs (by simp)
        · split at hs
          · simp only [Option.some.injEq] at hs; subst hs; simp
          · exact absurd hs (by simp)
        · split at hs
          · simp only [Option.some.injEq] at hs; subst hs; simp
          · exact absurd hs (by simp)
        · cases hc : __window_sync_callback dbg w.flags with
          | none => rw [hc] at hs; exact absurd hs (by simp)
          | some r =>
            rw [hc] at hs
            simp only [Option.some.injEq] at hs; subst hs; simp
        · simp only [Option.some.injEq] at hs; subst hs; simp
      have h3 : (e :: es).count Event.schedule_redraw =
          [e].count Event.schedule_redraw + es.count Event.schedule_redraw := by
        rw [← List.count_append]; rfl
      omega

theorem queued_eq_zero : ∀ f, f < 16 →
    f &&& (WINDOW_FLAG_REDRAW ||| WINDOW_FLAG_PENDING ||| WINDOW_FLAG_BUSY) = 0 →
    queued f = 0 := by
  decide

/-- Claim C9: for every run from a new window and the state `w` it ends in,
the number of calls of `window_schedule_redraw` recorded in `w` is the number
of such calls in the run; the number of hook invocations is at most that
number, also after every prefix of the run; and when at least one call was
made and no REDRAW, PENDING or BUSY flag remains in `w`, the hook has been
invoked at least once. -/
theorem C9_redraws_between (evs : List Event) (w : window_data)
    (h : run INTERN_DEBUG window_create evs = some w) :
    w.scheduled = evs.count Event.schedule_redraw ∧
    w.redraws ≤ evs.count Event.schedule_redraw ∧
    (1 ≤ evs.count Event.schedule_redraw →
      w.flags &&& (WINDOW_FLAG_REDRAW ||| WINDOW_FLAG_PENDING ||| WINDOW_FLAG_BUSY) = 0 →
      1 ≤ w.redraws) ∧
    (∀ k wk, run INTERN_DEBUG window_create (evs.take k) = some wk →
      wk.redraws ≤ (evs.take k).count Event.schedule_redraw) := by
  have hcount : ∀ es w1, run INTERN_DEBUG window_create es = some w1 →
      w1.scheduled = es.count Event.schedule_redraw := by
    intro es w1 h1
    have h2 := run_scheduled INTERN_DEBUG es window_create w1 h1
    simpa [window_create] using h2
  have hle : ∀ es w1, run INTERN_DEBUG window_create es = some w1 →
      w1.redraws ≤ es.count Event.schedule_redraw := by
    intro es w1 h1
    obtain ⟨_, _, _, a4, _⟩ := run_inv es _ _ window_create_inv h1
    have h2 := hcount es w1 h1
    omega
  obtain ⟨h16, _, _, _, hge⟩ := run_inv evs _ _ window_create_inv h
  have hs := hcount evs w h
  refine ⟨hs, hle evs w h, ?_, fun k wk hk => hle _ wk hk⟩
  intro h1 hq
  have hz := queued_eq_zero w.flags h16 hq
  have h2 := hge (by omega)
  omega

/-- Claim C9, on a run with three calls of `window_schedule_redraw` that ends
with no flag set: the hook was invoked twice. -/
theorem C9_redraws_between_witness :
    run INTERN_DEBUG window_create
      [Event.schedule_redraw, Event.schedule_redraw, Event.thread_pass, Event.draw,
       Event.schedule_redraw, Event.frame_done, Event.hook_return, Event.thread_pass,
       Event.hook_return]
      = some { flags := 0, pc := Pc.loop, scheduled := 3, redraws := 2, in_flight := 0 } ∧
    (2 : Nat) ≤ 3 :=
  ⟨by decide,
   (C9_redraws_between
      [Event.schedule_redraw, Event.schedule_redraw, Event.thread_pass, Event.draw,
       Event.schedule_redraw, Event.frame_done, Event.hook_return, Event.thread_pass,
       Event.hook_return]
      { flags := 0, pc := Pc.loop, scheduled := 3, redraws := 2, in_flight := 0 }
      (by decide)).2.1⟩

/-! ## Coalescing of requests made while a frame is in flight -/

theorem thread_passes_wait (n f : Nat) (hR : f &&& WINDOW_FLAG_REDRAW = 0)
    (hT : f &&& WINDOW_FLAG_TERMINATE = 0) : thread_passes n f = (f, 0) := by
  induction n with
  | zero => rfl
  | succ n ih => simp [thread_passes, window_thread_wait f hR hT, ih]

theorem thread_passes_redraw (n f : Nat) (hf : f < 2 ^ 32)
    (hR : f &&& WINDOW_FLAG_REDRAW ≠ 0) (hT : f &&& WINDOW_FLAG_TERMINATE = 0) :
    thread_passes (n + 1) f = (f ^^^ WINDOW_FLAG_REDRAW, 1) := by
  have hRset : f &&& WINDOW_FLAG_REDRAW = WINDOW_FLAG_REDRAW := and_flag_eq_of_ne_zero f 0 hR
  have h1 : (f ^^^ WINDOW_FLAG_REDRAW) &&& WINDOW_FLAG_REDRAW = 0 :=
    xor_and_self_eq_zero f _ hRset
  have h2 : (f ^^^ WINDOW_FLAG_REDRAW) &&& WINDOW_FLAG_TERMINATE = 0 := by
    rw [xor_and_of_disjoint f _ _ (by decide)]; exact hT
  simp [thread_passes, window_thread_redraw f hf hR hT, redraw_hook, window_draw_eq,
    __window_sync_callback2, thread_passes_wait n _ h1 h2]

/-- The function `__window_sync_callback`, which `window_draw` does not
register, on a flag word that the live code never produces: for a 32-bit flag
word `f` with BUSY set and REDRAW, PENDING and TERMINATE clear, in either
build, the first call of `window_schedule_redraw` adds PENDING without a
signal; the second call changes nothing; `__window_sync_callback` then
returns a flag word `g` with BUSY and PENDING clear and REDRAW set, and
signals; and any positive number of render-thread passes from `g` invoke the
redraw hook exactly once and end with REDRAW clear. -/
theorem sync_callback_coalesces (dbg f n : Nat) (hf : f < 2 ^ 32)
    (hB : f &&& WINDOW_FLAG_BUSY ≠ 0) (hR : f &&& WINDOW_FLAG_REDRAW = 0)
    (hP : f &&& WINDOW_FLAG_PENDING = 0) (hT : f &&& WINDOW_FLAG_TERMINATE = 0) :
    window_schedule_redraw f = (f ||| WINDOW_FLAG_PENDING, false) ∧
    window_schedule_redraw (window_schedule_redraw f).1 =
      (f ||| WINDOW_FLAG_PENDING, false) ∧
    ∃ g, __window_sync_callback dbg (window_schedule_redraw (window_schedule_redraw f).1).1
          = some (g, true) ∧
      g &&& WINDOW_FLAG_BUSY = 0 ∧ g &&& WINDOW_FLAG_PENDING = 0 ∧
      g &&& WINDOW_FLAG_REDRAW ≠ 0 ∧
      thread_passes (n + 1) g = (g ^^^ WINDOW_FLAG_REDRAW, 1) ∧
      (g ^^^ WINDOW_FLAG_REDRAW) &&&
        (WINDOW_FLAG_REDRAW ||| WINDOW_FLAG_PENDING ||| WINDOW_FLAG_BUSY) = 0 := by
  have hs1 := schedule_redraw_busy f hR hP hB
  have hP1 : (f ||| WINDOW_FLAG_PENDING) &&& WINDOW_FLAG_PENDING ≠ 0 := by
    rw [or_and_self_eq]; decide
  have hB1 : (f ||| WINDOW_FLAG_PENDING) &&& WINDOW_FLAG_BUSY ≠ 0 := by
    rw [or_and_of_disjoint f _ _ (by decide)]; exact hB
  have hR1 : (f ||| WINDOW_FLAG_PENDING) &&& WINDOW_FLAG_REDRAW = 0 := by
    rw [or_and_of_disjoint f _ _ (by decide)]; exact hR
  have hT1 : (f ||| WINDOW_FLAG_PENDING) &&& WINDOW_FLAG_TERMINATE = 0 := by
    rw [or_and_of_disjoint f _ _ (by decide)]; exact hT
  have hs2 := schedule_redraw_noop (f ||| WINDOW_FLAG_PENDING) (Or.inr hP1)
  have hBset : (f ||| WINDOW_FLAG_PENDING) &&& WINDOW_FLAG_BUSY = WINDOW_FLAG_BUSY :=
    and_flag_eq_of_ne_zero _ 1 hB1
  have hPset : (f ||| WINDOW_FLAG_PENDING) &&& WINDOW_FLAG_PENDING = WINDOW_FLAG_PENDING :=
    and_flag_eq_of_ne_zero _ 2 hP1
  have hlt : ((f ||| WINDOW_FLAG_PENDING) ^^^ WINDOW_FLAG_BUSY) ^^^
      (WINDOW_FLAG_PENDING ||| WINDOW_FLAG_REDRAW) < 2 ^ 32 :=
    Nat.xor_lt_two_pow
      (Nat.xor_lt_two_pow (Nat.or_lt_two_pow hf (by decide)) (by decide)) (by decide)
  have gB : (((f ||| WINDOW_FLAG_PENDING) ^^^ WINDOW_FLAG_BUSY) ^^^
      (WINDOW_FLAG_PENDING ||| WINDOW_FLAG_REDRAW)) &&& WINDOW_FLAG_BUSY = 0 := by
    rw [xor_and_of_disjoint _ _ _ (by decide)]
    exact xor_and_self_eq_zero _ _ hBset
  have gP : (((f ||| WINDOW_FLAG_PENDING) ^^^ WINDOW_FLAG_BUSY) ^^^
      (WINDOW_FLAG_PENDING ||| WINDOW_FLAG_REDRAW)) &&& WINDOW_FLAG_PENDING = 0 := by
    rw [Nat.and_xor_distrib_right, xor_and_of_disjoint _ _ _ (by decide), hPset]
    decide
  have gR : (((f ||| WINDOW_FLAG_PENDING) ^^^ WINDOW_FLAG_BUSY) ^^^
      (WINDOW_FLAG_PENDING ||| WINDOW_FLAG_REDRAW)) &&& WINDOW_FLAG_REDRAW ≠ 0 := by
    rw [Nat.and_xor_distrib_right, xor_and_of_disjoint _ _ _ (by decide), hR1]
    decide
  have gT : (((f ||| WINDOW_FLAG_PENDING) ^^^ WINDOW_FLAG_BUSY) ^^^
      (WINDOW_FLAG_PENDING ||| WINDOW_FLAG_REDRAW)) &&& WINDOW_FLAG_TERMINATE = 0 := by
    rw [xor_and_of_disjoint _ _ _ (by decide), xor_and_of_disjoint _ _ _ (by decide)]
    exact hT1
  refine ⟨hs1, ?_, ?_⟩
  · rw [hs1]; exact hs2
  · rw [hs1]
    simp only
    rw [hs2]
    refine ⟨_, sync_callback_pending dbg _ hB1 hP1, gB, gP, gR,
      thread_passes_redraw n _ hlt gR gT, ?_⟩
    have c1 := xor_and_self_eq_zero _ WINDOW_FLAG_REDRAW (and_flag_eq_of_ne_zero _ 0 gR)
    have c2 : ((((f ||| WINDOW_FLAG_PENDING) ^^^ WINDOW_FLAG_BUSY) ^^^
        (WINDOW_FLAG_PENDING ||| WINDOW_FLAG_REDRAW)) ^^^ WINDOW_FLAG_REDRAW) &&&
        WINDOW_FLAG_PENDING = 0 := by
      rw [xor_and_of_disjoint _ _ _ (by decide)]; exact gP
    have c3 : ((((f ||| WINDOW_FLAG_PENDING) ^^^ WINDOW_FLAG_BUSY) ^^^
        (WINDOW_FLAG_PENDING ||| WINDOW_FLAG_REDRAW)) ^^^ WINDOW_FLAG_REDRAW) &&&
        WINDOW_FLAG_BUSY = 0 := by
      rw [xor_and_of_disjoint _ _ _ (by decide)]; exact gB
    exact and_or_eq_zero _ _ _ (and_or_eq_zero _ _ _ c1 c2) c3

theorem terminate_kept (dbg g : Nat) (hg : g < 2 ^ 32) (hT : g &&& WINDOW_FLAG_TERMINATE ≠ 0) :
    ((window_schedule_redraw g).1 < 2 ^ 32 ∧
      (window_schedule_redraw g).1 &&& WINDOW_FLAG_TERMINATE ≠ 0) ∧
    (window_thread g = (g, [Effect.lock, Effect.unlock, Effect.thread_exit])) ∧
    (∀ r, __window_sync_callback dbg g = some r →
      r.1 < 2 ^ 32 ∧ r.1 &&& WINDOW_FLAG_TERMINATE ≠ 0) ∧
    ((window_destroy g).1 < 2 ^ 32 ∧ (window_destroy g).1 &&& WINDOW_FLAG_TERMINATE ≠ 0) := by
  refine ⟨?_, window_thread_exit g hT, ?_, ?_⟩
  · unfold window_schedule_redraw
    split
    · split
      · exact ⟨Nat.xor_lt_two_pow hg (by decide),
          by rw [xor_and_of_disjoint g _ _ (by decide)]; exact hT⟩
      · exact ⟨Nat.xor_lt_two_pow hg (by decide),
          by rw [xor_and_of_disjoint g _ _ (by decide)]; exact hT⟩
    · exact ⟨hg, hT⟩
  · intro r hr
    unfold __window_sync_callback at hr
    split at hr
    · exact absurd hr (by simp)
    · simp only at hr
      split at hr
      · simp only [Option.some.injEq] at hr
        subst hr
        exact ⟨Nat.xor_lt_two_pow (Nat.xor_lt_two_pow hg (by decide)) (by decide),
          by rw [xor_and_of_disjoint _ _ _ (by decide), xor_and_of_disjoint g _ _ (by decide)]
             exact hT⟩
      · simp only [Option.some.injEq] at hr
        subst hr
        exact ⟨Nat.xor_lt_two_pow hg (by decide),
          by rw [xor_and_of_disjoint g _ _ (by decide)]; exact hT⟩
  · exact ⟨Nat.or_lt_two_pow hg (by decide),
      by show (g ||| WINDOW_FLAG_TERMINATE) &&& WINDOW_FLAG_TERMINATE ≠ 0
         rw [or_and_self_eq]; decide⟩

theorem terminate_step (dbg : Nat) (w w1 : window_data) (e : Event)
    (hw : w.flags < 2 ^ 32 ∧ w.flags &&& WINDOW_FLAG_TERMINATE ≠ 0)
    (h : step dbg w e = some w1) :
    (w1.flags < 2 ^ 32 ∧ w1.flags &&& WINDOW_FLAG_TERMINATE ≠ 0) ∧ w1.redraws = w.redraws := by
  obtain ⟨a1, a2, a3, a4⟩ := terminate_kept dbg w.flags hw.1 hw.2
  cases e with
  | schedule_redraw =>
    simp only [step, Option.some.injEq] at h
    subst h
    exact ⟨a1, rfl⟩
  | thread_pass =>
    simp only [step] at h
    split at h
    · simp only [Option.some.injEq] at h
      subst h
      simp only [a2]
      exact ⟨hw, by simp⟩
    · exact absurd h (by simp)
  | draw =>
    simp only [step] at h
    split at h
    · simp only [Option.some.injEq] at h
      subst h
      simp only [window_draw_eq]
      exact ⟨hw, by simp⟩
    · exact absurd h (by simp)
  | frame_done =>
    simp only [step] at h
    split at h
    · simp only [Option.some.injEq] at h
      subst h
      exact ⟨hw, rfl⟩
    · exact absurd h (by simp)
  | hook_return =>
    simp only [step] at h
    split at h
    · simp only [Option.some.injEq] at h
      subst h
      exact ⟨hw, rfl⟩
    · exact absurd h (by simp)
  | sync_callback =>
    simp only [step] at h
    cases hs : __window_sync_callback dbg w.flags with
    | none => rw [hs] at h; exact absurd h (by simp)
    | some r =>
      rw [hs] at h
      simp only [Option.some.injEq] at h
      subst h
      exact ⟨a3 r hs, rfl⟩
  | destroy =>
    simp only [step, Option.some.injEq] at h
    subst h
    exact ⟨a4, rfl⟩

theorem terminate_run (dbg : Nat) (evs : List Event) :
    ∀ w w1, (w.flags < 2 ^ 32 ∧ w.flags &&& WINDOW_FLAG_TERMINATE ≠ 0) →
      run dbg w evs = some w1 →
      (w1.flags < 2 ^ 32 ∧ w1.flags &&& WINDOW_FLAG_TERMINATE ≠ 0) ∧
        w1.redraws = w.redraws := by
  induction evs with
  | nil =>
    intro w w1 hw h
    simp only [run, Option.some.injEq] at h
    subst h
    exact ⟨hw, rfl⟩
  | cons e es ih =>
    intro w w1 hw h
    simp only [run] at h
    cases hs : step dbg w e with
    | none => rw [hs] at h; exact absurd h (by simp)
    | some w2 =>
      rw [hs] at h
      have h1 := terminate_step dbg w w2 e hw hs
      have h2 := ih w2 w1 h1.1 h
      exact ⟨h2.1, by rw [h2.2, h1.2]⟩

theorem terminate_thread_exits (dbg : Nat) (w : window_data)
    (hT : w.flags &&& WINDOW_FLAG_TERMINATE ≠ 0) :
    ∃ w1, run dbg w (thread_to_check w.pc) = some w1 ∧ w1.pc = Pc.exited ∧
      w1.redraws = w.redraws ∧ w1.flags = w.flags := by
  have ht := window_thread_exit w.flags hT
  cases hpc : w.pc with
  | loop =>
    refine ⟨{ w with pc := Pc.exited }, ?_, rfl, rfl, rfl⟩
    simp [thread_to_check, run, step, hpc, ht, pc_after]
  | hook =>
    refine ⟨{ w with pc := Pc.exited }, ?_, rfl, rfl, rfl⟩
    simp [thread_to_check, run, step, hpc, ht, pc_after]
  | draw_wait =>
    refine ⟨{ w with pc := Pc.exited, in_flight := w.in_flight - 1 }, ?_, rfl, rfl, rfl⟩
    simp [thread_to_check, run, step, hpc, ht, pc_after, __window_sync_callback2]
  | exited =>
    refine ⟨w, ?_, hpc, rfl, rfl⟩
    simp [thread_to_check, run]

/-- Claim C11: for every 32-bit flag word of a window, in either build, the
terminate step of `window_destroy` sets TERMINATE and signals the condition
variable.  In every state reached afterwards by any steps (calls of
`window_schedule_redraw`, render-thread passes, frame submissions and
acknowledgements, `__window_sync_callback`) TERMINATE is still set and the redraw
hook has not been invoked again; a pass of the render loop on such a flag
word takes the exit branch; and from every such state the render thread's own
steps up to and through its next check of the loop condition end with the
thread exited. -/
theorem C11_terminate_exits (dbg : Nat) (w : window_data) (hf : w.flags < 2 ^ 32) :
    window_destroy w.flags = (w.flags ||| WINDOW_FLAG_TERMINATE, true) ∧
    (window_destroy w.flags).1 &&& WINDOW_FLAG_TERMINATE ≠ 0 ∧
    (∀ evs w1, run dbg w (Event.destroy :: evs) = some w1 →
      w1.flags &&& WINDOW_FLAG_TERMINATE ≠ 0 ∧
      window_thread w1.flags = (w1.flags, [Effect.lock, Effect.unlock, Effect.thread_exit]) ∧
      w1.redraws = w.redraws ∧
      ∃ w2, run dbg w1 (thread_to_check w1.pc) = some w2 ∧ w2.pc = Pc.exited ∧
        w2.redraws = w.redraws) := by
  have hd := (terminate_kept dbg (w.flags ||| WINDOW_FLAG_TERMINATE)
    (Nat.or_lt_two_pow hf (by decide)) (by rw [or_and_self_eq]; decide))
  have hset : (w.flags ||| WINDOW_FLAG_TERMINATE) &&& WINDOW_FLAG_TERMINATE ≠ 0 := by
    rw [or_and_self_eq]; decide
  refine ⟨rfl, hset, ?_⟩
  intro evs w1 h
  simp only [run, step] at h
  have h1 := terminate_run dbg evs _ w1
    ⟨Nat.or_lt_two_pow hf (by decide), hset⟩ h
  obtain ⟨w2, r1, r2, r3, _⟩ := terminate_thread_exits dbg w1 h1.1.2
  exact ⟨h1.1.2, window_thread_exit w1.flags h1.1.2, h1.2,
    w2, r1, r2, by rw [r3, h1.2]⟩

/-- Claim C11, on a window whose render thread is blocked inside `window_draw`
with REDRAW queued: after the terminate step, a further call of
`window_schedule_redraw` and the frame acknowledgement, TERMINATE is set and
the hook count is unchanged. -/
theorem C11_terminate_exits_witness :
    WINDOW_FLAG_REDRAW < 2 ^ 32 ∧
    run INTERN_DEBUG
      { flags := WINDOW_FLAG_REDRAW, pc := Pc.draw_wait, scheduled := 2, redraws := 1,
        in_flight := 1 }
      [Event.destroy, Event.schedule_redraw, Event.frame_done]
      = some { flags := WINDOW_FLAG_REDRAW ||| WINDOW_FLAG_TERMINATE, pc := Pc.hook,
               scheduled := 3, redraws := 1, in_flight := 0 } ∧
    (WINDOW_FLAG_REDRAW ||| WINDOW_FLAG_TERMINATE) &&& WINDOW_FLAG_TERMINATE ≠ 0 :=
  ⟨by decide, by decide,
   ((C11_terminate_exits INTERN_DEBUG
      { flags := WINDOW_FLAG_REDRAW, pc := Pc.draw_wait, scheduled := 2, redraws := 1,
        in_flight := 1 } (by decide)).2.2
      [Event.schedule_redraw, Event.frame_done]
      { flags := WINDOW_FLAG_REDRAW ||| WINDOW_FLAG_TERMINATE, pc := Pc.hook,
        scheduled := 3, redraws := 1, in_flight := 0 } (by decide)).1⟩

/-! ## `__window_sync_callback` on a window that is not BUSY -/

/-- Claim C12 as stated fails: with bug checks disabled, the callback on the
flag word 0 returns the flag word `BUSY`, not 0. -/
theorem C12_counterexample :
    (0 : Nat) &&& WINDOW_FLAG_BUSY = 0 ∧
    __window_sync_callback 0 0 = some (WINDOW_FLAG_BUSY, false) ∧
    ¬ (__window_sync_callback 0 0 = some (0, false)) := by
  decide

/-- Claim C12, amended: for a flag word `f` with BUSY clear, a build with bug
checks disabled does not ignore the acknowledgement.  `__window_sync_callback`
returns with BUSY set; when PENDING was clear nothing else changes and no
signal is sent; when PENDING was set it also clears PENDING, toggles REDRAW and
signals.  With bug checks enabled the callback aborts. -/
theorem C12_sync_callback_not_busy (f : Nat) (hB : f &&& WINDOW_FLAG_BUSY = 0) :
    (f &&& WINDOW_FLAG_PENDING = 0 →
      __window_sync_callback 0 f = some (f ||| WINDOW_FLAG_BUSY, false)) ∧
    (f &&& WINDOW_FLAG_PENDING ≠ 0 →
      ∃ g, __window_sync_callback 0 f = some (g, true) ∧
        g &&& WINDOW_FLAG_BUSY ≠ 0 ∧ g &&& WINDOW_FLAG_PENDING = 0 ∧
        (g &&& WINDOW_FLAG_REDRAW ≠ 0 ↔ f &&& WINDOW_FLAG_REDRAW = 0) ∧
        (∀ m, m &&& (WINDOW_FLAG_BUSY ||| WINDOW_FLAG_PENDING ||| WINDOW_FLAG_REDRAW) = 0 →
          g &&& m = f &&& m)) ∧
    (∀ r, __window_sync_callback 0 f = some r → r.1 ≠ f) ∧
    (∀ dbg, dbg ≠ 0 → __window_sync_callback dbg f = none) := by
  have hbug : BUG 0 (f &&& WINDOW_FLAG_BUSY == 0) = some () := by simp [BUG]
  have hx : f ^^^ WINDOW_FLAG_BUSY = f ||| WINDOW_FLAG_BUSY := xor_eq_or_of_and_eq_zero f _ hB
  have hset : (f ||| WINDOW_FLAG_BUSY) &&& WINDOW_FLAG_BUSY ≠ 0 := by
    rw [or_and_self_eq]; decide
  have hP1 : (f ||| WINDOW_FLAG_BUSY) &&& WINDOW_FLAG_PENDING = f &&& WINDOW_FLAG_PENDING :=
    or_and_of_disjoint f _ _ (by decide)
  have hne : ∀ r, __window_sync_callback 0 f = some r → r.1 &&& WINDOW_FLAG_BUSY ≠ 0 := by
    intro r hr
    simp only [__window_sync_callback, hbug, hx] at hr
    split at hr
    · simp only [Option.some.injEq] at hr
      subst hr
      show ((f ||| WINDOW_FLAG_BUSY) ^^^ (WINDOW_FLAG_PENDING ||| WINDOW_FLAG_REDRAW)) &&&
        WINDOW_FLAG_BUSY ≠ 0
      rw [xor_and_of_disjoint _ _ _ (by decide)]; exact hset
    · simp only [Option.some.injEq] at hr
      subst hr
      exact hset
  refine ⟨?_, ?_, ?_, ?_⟩
  · intro hP
    have h1 : (f ||| WINDOW_FLAG_BUSY) &&& WINDOW_FLAG_PENDING = 0 := by rw [hP1]; exact hP
    simp [__window_sync_callback, hbug, hx, h1]
  · intro hP
    have h1 : (f ||| WINDOW_FLAG_BUSY) &&& WINDOW_FLAG_PENDING ≠ 0 := by rw [hP1]; exact hP
    have hPset : f &&& WINDOW_FLAG_PENDING = WINDOW_FLAG_PENDING :=
      and_flag_eq_of_ne_zero f 2 hP
    have hcb : __window_sync_callback 0 f =
        some ((f ||| WINDOW_FLAG_BUSY) ^^^ (WINDOW_FLAG_PENDING ||| WINDOW_FLAG_REDRAW), true) := by
      simp [__window_sync_callback, hbug, hx, h1]
    refine ⟨_, hcb, hne _ hcb, ?_, ?_, ?_⟩
    · rw [Nat.and_xor_distrib_right, hP1, hPset]; decide
    · rw [Nat.and_xor_distrib_right, or_and_of_disjoint f _ _ (by decide)]
      rcases Nat.eq_zero_or_pos (f &&& WINDOW_FLAG_REDRAW) with h0 | h0
      · rw [h0]; decide
      · have hRset : f &&& WINDOW_FLAG_REDRAW = WINDOW_FLAG_REDRAW :=
          and_flag_eq_of_ne_zero f 0 (Nat.ne_of_gt h0)
        rw [hRset]; decide
    · intro m hm
      have m1 := and_eq_zero_of_or _ _ _ hm
      have m2 := and_eq_zero_of_or _ _ _ m1.1
      rw [xor_and_of_disjoint _ _ _ (and_or_eq_zero _ _ _ m2.2 m1.2),
        or_and_of_disjoint _ _ _ m2.1]
  · intro r hr heq
    have h1 := hne r hr
    rw [heq] at h1
    exact h1 hB
  · intro dbg hdbg
    simp [__window_sync_callback, BUG, hdbg, hB]

/-- Claim C12, amended, at the flag word `PENDING`: with bug checks disabled the
callback returns `BUSY | REDRAW` and signals; in the configured build it
aborts. -/
theorem C12_sync_callback_not_busy_witness :
    WINDOW_FLAG_PENDING &&& WINDOW_FLAG_BUSY = 0 ∧
    __window_sync_callback 0 WINDOW_FLAG_PENDING
      = some (WINDOW_FLAG_BUSY ||| WINDOW_FLAG_REDRAW, true) ∧
    __window_sync_callback INTERN_DEBUG WINDOW_FLAG_PENDING = none :=
  ⟨by decide, by decide,
   (C12_sync_callback_not_busy WINDOW_FLAG_PENDING (by decide)).2.2.2 INTERN_DEBUG (by decide)⟩

/-! ## Input focus router -/

theorem window_lookup_none_iff {σ : Type} (d : display_data σ) (surface : Option Nat) :
    __window_lookup d surface = none ↔
      (surface = none ∨
       (∃ s, surface = some s ∧ d.surface_user_data s = none) ∨
       (∃ s window, surface = some s ∧ d.surface_user_data s = some window ∧
          d.window_surface window ≠ some s)) := by
  cases surface with
  | none => simp [__window_lookup]
  | some s =>
    cases hu : d.surface_user_data s with
    | none => simp [__window_lookup, hu]
    | some window =>
      by_cases hw : d.window_surface window = some s
      · simp [__window_lookup, hu, hw]
      · simp [__window_lookup, hu, hw]

/-- Claim C13: for each of the five events that carry a surface (pointer
enter, pointer leave, touch down, keyboard enter, keyboard leave), when
`__window_lookup` finds no window for the surface, that is when the surface is
null, has no user data, or its user data is a window with another surface,
the callback calls no handler, issues no request, and leaves the input
device (all three focus fields and the latched pointer position) and the
application state as they were. -/
theorem C13_unresolved_surface_dropped {σ : Type} (d : display_data σ) (input : input_data)
    (app : σ) (msg : input_message) (surface : Option Nat)
    (hs : message_surface msg = some surface)
    (hl : surface = none ∨
       (∃ s, surface = some s ∧ d.surface_user_data s = none) ∨
       (∃ s window, surface = some s ∧ d.surface_user_data s = some window ∧
          d.window_surface window ≠ some s)) :
    (input_dispatch d input app msg).log = [] ∧
    (input_dispatch d input app msg).input = input ∧
    (input_dispatch d input app msg).app = app := by
  have hn : __window_lookup d surface = none := (window_lookup_none_iff d surface).mpr hl
  cases msg <;> simp only [message_surface, Option.some.injEq] at hs <;>
    first
    | (subst hs
       simp [input_dispatch, pointer_handle_enter, pointer_handle_leave, touch_handle_down,
         keyboard_handle_enter, keyboard_handle_leave, hn])
    | exact absurd hs (by simp)

/-- Claim C13, for a pointer-enter event on surface 9, whose user data is a
window that owns another surface: nothing is logged and the input device is
unchanged. -/
theorem C13_unresolved_surface_dropped_witness :
    message_surface (input_message.pointer_enter 3 (some 9) 10 20) = some (some 9) ∧
    (input_dispatch (one_window_display (some handler_keep)) input_calloc ()
      (input_message.pointer_enter 3 (some 9) 10 20)).log = [] ∧
    (input_dispatch (one_window_display (some handler_keep)) input_calloc ()
      (input_message.pointer_enter 3 (some 9) 10 20)).input = input_calloc :=
  ⟨rfl,
   (C13_unresolved_surface_dropped (one_window_display (some handler_keep)) input_calloc ()
      (input_message.pointer_enter 3 (some 9) 10 20) (some 9) rfl
      (Or.inr (Or.inr ⟨9, 1, rfl, by decide, by decide⟩))).1,
   (C13_unresolved_surface_dropped (one_window_display (some handler_keep)) input_calloc ()
      (input_message.pointer_enter 3 (some 9) 10 20) (some 9) rfl
      (Or.inr (Or.inr ⟨9, 1, rfl, by decide, by decide⟩))).2.1⟩

theorem handler_calls_append (l1 l2 : List input_effect) :
    handler_calls (l1 ++ l2) = handler_calls l1 ++ handler_calls l2 := by
  induction l1 with
  | nil => rfl
  | cons e l ih => cases e <;> simp [handler_calls, ih]

/-- Claim C14: for each of the twelve pointer, keyboard and touch events, when
the event resolves to a focus widget that declares a handler, the callback
calls that handler exactly once, on that widget, with the event record of
the matching type, and afterwards the focus of the event's device class is the
pointer the handler returned (null when it returned null) and the
application state is the one the handler left; when the focus widget has no
info or no handler, or the event resolves to no widget, no handler is
called. -/
theorem C14_handler_return_is_focus {σ : Type} (d : display_data σ) (input : input_data)
    (app : σ) (msg : input_message) :
    (∀ focus h, resolved_focus d input msg = some focus → widget_handler d focus = some h →
      handler_calls (input_dispatch d input app msg).log =
        [(focus, message_event input msg,
          (h app focus (d.widget_cdata focus) (message_event input msg)).2)] ∧
      class_focus (input_dispatch d input app msg).input msg =
        (h app focus (d.widget_cdata focus) (message_event input msg)).2 ∧
      (input_dispatch d input app msg).app =
        (h app focus (d.widget_cdata focus) (message_event input msg)).1) ∧
    (∀ focus, resolved_focus d input msg = some focus → widget_handler d focus = none →
      handler_calls (input_dispatch d input app msg).log = []) ∧
    (resolved_focus d input msg = none →
      handler_calls (input_dispatch d input app msg).log = []) := by
  cases msg with
  | pointer_enter serial surface sx sy =>
    simp only [resolved_focus, input_dispatch, pointer_handle_enter, message_event, class_focus]
    cases hl : __window_lookup d surface with
    | none => simp [handler_calls]
    | some window =>
      refine ⟨?_, ?_, by simp⟩
      · intro focus h hf hh
        simp only [Option.some.injEq] at hf
        subst hf
        simp [hh, call_handler, handler_calls, set_pointer_focus]
      · intro focus hf hh
        simp only [Option.some.injEq] at hf
        subst hf
        simp [hh, handler_calls]
  | pointer_leave surface =>
    simp only [resolved_focus, input_dispatch, pointer_handle_leave, message_event, class_focus]
    cases hl : __window_lookup d surface with
    | none => simp [handler_calls]
    | some window =>
      cases hp : input.pointer_focus with
      | none => simp [handler_calls]
      | some f0 =>
        refine ⟨?_, ?_, by simp⟩
        · intro focus h hf hh
          simp only [Option.some_bind, Option.some.injEq] at hf
          subst hf
          simp [hh, call_handler, handler_calls, set_pointer_focus]
        · intro focus hf hh
          simp only [Option.some_bind, Option.some.injEq] at hf
          subst hf
          simp [hh, handler_calls]
  | pointer_motion sx sy =>
    simp only [resolved_focus, input_dispatch, pointer_handle_motion, message_event, class_focus]
    cases hp : input.pointer_focus with
    | none => simp [handler_calls]
    | some f0 =>
      refine ⟨?_, ?_, by simp⟩
      · intro focus h hf hh
        simp only [Option.some.injEq] at hf
        subst hf
        simp [hh, call_handler, handler_calls, set_pointer_focus]
      · intro focus hf hh
        simp only [Option.some.injEq] at hf
        subst hf
        simp [hh, handler_calls]
  | pointer_button button state =>
    simp only [resolved_focus, input_dispatch, pointer_handle_button, message_event, class_focus]
    cases hp : input.pointer_focus with
    | none => simp [handler_calls]
    | some f0 =>
      refine ⟨?_, ?_, by simp⟩
      · intro focus h hf hh
        simp only [Option.some.injEq] at hf
        subst hf
        simp [hh, call_handler, handler_calls, set_pointer_focus]
      · intro focus hf hh
        simp only [Option.some.injEq] at hf
        subst hf
        simp [hh, handler_calls]
  | pointer_axis axis v =>
    simp only [resolved_focus, input_dispatch, pointer_handle_axis, message_event, class_focus]
    cases hp : input.pointer_focus with
    | none => simp [handler_calls]
    | some f0 =>
      refine ⟨?_, ?_, by simp⟩
      · intro focus h hf hh
        simp only [Option.some.injEq] at hf
        subst hf
        simp [hh, call_handler, handler_calls, set_pointer_focus]
      · intro focus hf hh
        simp only [Option.some.injEq] at hf
        subst hf
        simp [hh, handler_calls]
  | touch_down surface id sx sy =>
    simp only [resolved_focus, input_dispatch, touch_handle_down, message_event, class_focus]
    cases hl : __window_lookup d surface with
    | none => simp [handler_calls]
    | some window =>
      refine ⟨?_, ?_, by simp⟩
      · intro focus h hf hh
        simp only [Option.map_some', Option.some.injEq] at hf
        subst hf
        simp [hh, call_handler, handler_calls, set_touch_focus]
      · intro focus hf hh
        simp only [Option.map_some', Option.some.injEq] at hf
        subst hf
        simp [hh, handler_calls]
  | touch_up id =>
    simp only [resolved_focus, input_dispatch, touch_handle_up, message_event, class_focus]
    cases hp : input.touch_focus with
    | none => simp [handler_calls]
    | some f0 =>
      refine ⟨?_, ?_, by simp⟩
      · intro focus h hf hh
        simp only [Option.some.injEq] at hf
        subst hf
        simp [hh, call_handler, handler_calls, set_touch_focus]
      · intro focus hf hh
        simp only [Option.some.injEq] at hf
        subst hf
        simp [hh, handler_calls]
  | touch_motion id sx sy =>
    simp only [resolved_focus, input_dispatch, touch_handle_motion, message_event, class_focus]
    cases hp : input.touch_focus with
    | none => simp [handler_calls]
    | some f0 =>
      refine ⟨?_, ?_, by simp⟩
      · intro focus h hf hh
        simp only [Option.some.injEq] at hf
        subst hf
        simp [hh, call_handler, handler_calls, set_touch_focus]
      · intro focus hf hh
        simp only [Option.some.injEq] at hf
        subst hf
        simp [hh, handler_calls]
  | keyboard_enter surface =>
    simp only [resolved_focus, input_dispatch, keyboard_handle_enter, message_event, class_focus]
    cases hl : __window_lookup d surface with
    | none => simp [handler_calls]
    | some window =>
      refine ⟨?_, ?_, by simp⟩
      · intro focus h hf hh
        simp only [Option.some.injEq] at hf
        subst hf
        simp [hh, call_handler, handler_calls, set_keyboard_focus]
      · intro focus hf hh
        simp only [Option.some.injEq] at hf
        subst hf
        simp [hh, handler_calls]
  | keyboard_leave surface =>
    simp only [resolved_focus, input_dispatch, keyboard_handle_leave, message_event, class_focus]
    cases hl : __window_lookup d surface with
    | none => simp [handler_calls]
    | some window =>
      refine ⟨?_, ?_, by simp⟩
      · intro focus h hf hh
        simp only [Option.map_some', Option.some.injEq] at hf
        subst hf
        simp [hh, call_handler, handler_calls, set_keyboard_focus]
      · intro focus hf hh
        simp only [Option.map_some', Option.some.injEq] at hf
        subst hf
        simp [hh, handler_calls]
  | keyboard_key key state =>
    simp only [resolved_focus, input_dispatch, keyboard_handle_key, message_event, class_focus]
    cases hp : input.keyboard_focus with
    | none => simp [handler_calls]
    | some f0 =>
      refine ⟨?_, ?_, by simp⟩
      · intro focus h hf hh
        simp only [Option.some.injEq] at hf
        subst hf
        simp [hh, call_handler, handler_calls, set_keyboard_focus]
      · intro focus hf hh
        simp only [Option.some.injEq] at hf
        subst hf
        simp [hh, handler_calls]
  | keyboard_modifiers dep lat lck =>
    simp only [resolved_focus, input_dispatch, keyboard_handle_modifiers, message_event,
      class_focus]
    cases hp : input.keyboard_focus with
    | none => simp [handler_calls]
    | some f0 =>
      refine ⟨?_, ?_, by simp⟩
      · intro focus h hf hh
        simp only [Option.some.injEq] at hf
        subst hf
        simp [hh, call_handler, handler_calls, set_keyboard_focus]
      · intro focus hf hh
        simp only [Option.some.injEq] at hf
        subst hf
        simp [hh, handler_calls]

/-- Claim C14, for a key press while the keyboard focus is the root widget of
window 1, whose handler passes the focus to the nested widget 2: one call
with a `KEY_PRESS` record, and the keyboard focus becomes widget 2. -/
theorem C14_handler_return_is_focus_witness :
    resolved_focus (one_window_display (some handler_nested))
      { input_calloc with keyboard_focus := some 1 } (input_message.keyboard_key 30 1) = some 1 ∧
    widget_handler (one_window_display (some handler_nested)) 1 = some handler_nested ∧
    handler_calls (input_dispatch (one_window_display (some handler_nested))
      { input_calloc with keyboard_focus := some 1 } () (input_message.keyboard_key 30 1)).log
      = [(1, widget_event.KEY_PRESS 30 true, some 2)] ∧
    (input_dispatch (one_window_display (some handler_nested))
      { input_calloc with keyboard_focus := some 1 } ()
      (input_message.keyboard_key 30 1)).input.keyboard_focus = some 2 :=
  ⟨rfl, rfl,
   ((C14_handler_return_is_focus (one_window_display (some handler_nested))
      { input_calloc with keyboard_focus := some 1 } () (input_message.keyboard_key 30 1)).1
      1 handler_nested rfl rfl).1,
   ((C14_handler_return_is_focus (one_window_display (some handler_nested))
      { input_calloc with keyboard_focus := some 1 } () (input_message.keyboard_key 30 1)).1
      1 handler_nested rfl rfl).2.1⟩

/-! ### Keyboard enter -/

/-- Claim C15 as stated fails: on the window at address 1, whose root widget's
handler returns null, `keyboard_handle_enter` leaves the keyboard focus null;
with a handler that returns the nested widget 2 it leaves the focus on
widget 2.  In neither case is the focus the root widget. -/
theorem C15_counterexample :
    __window_lookup (one_window_display (some handler_null)) (some 7) = some 1 ∧
    (keyboard_handle_enter (one_window_display (some handler_null)) input_calloc ()
      (some 7)).input.keyboard_focus = none ∧
    (keyboard_handle_enter (one_window_display (some handler_nested)) input_calloc ()
      (some 7)).input.keyboard_focus = some 2 ∧
    ¬ ((keyboard_handle_enter (one_window_display (some handler_null)) input_calloc ()
      (some 7)).input.keyboard_focus = some 1) := by
  decide

/-- Claim C15, amended: for a keyboard-enter event on a surface that resolves
to a window, whatever the previous keyboard focus was, the keyboard focus
after `keyboard_handle_enter` is the window's root widget when that widget has
no info or no handler, and otherwise the pointer that the root widget's
handler returns for the `KEY_ENTER` event, which the handler receives with the
focus already set to the root widget. -/
theorem C15_keyboard_enter_focus {σ : Type} (d : display_data σ) (input : input_data)
    (app : σ) (surface : Option Nat) (window : Nat)
    (hl : __window_lookup d surface = some window) :
    (widget_handler d window = none →
      (keyboard_handle_enter d input app surface).input.keyboard_focus = some window ∧
      (keyboard_handle_enter d input app surface).log = []) ∧
    (∀ h, widget_handler d window = some h →
      (keyboard_handle_enter d input app surface).input.keyboard_focus =
        (h app window (d.widget_cdata window) widget_event.KEY_ENTER).2 ∧
      (keyboard_handle_enter d input app surface).log =
        [input_effect.event window (d.widget_cdata window) widget_event.KEY_ENTER
          { input with keyboard_focus := some window }
          (h app window (d.widget_cdata window) widget_event.KEY_ENTER).2]) := by
  constructor
  · intro hh
    simp [keyboard_handle_enter, hl, hh]
  · intro h hh
    simp [keyboard_handle_enter, hl, hh, call_handler, set_keyboard_focus]

/-- Claim C15, amended, on the window at address 1 with a handler that keeps
the focus: the keyboard focus is the root widget. -/
theorem C15_keyboard_enter_focus_witness :
    __window_lookup (one_window_display (some handler_keep)) (some 7) = some 1 ∧
    (keyboard_handle_enter (one_window_display (some handler_keep))
      { input_calloc with keyboard_focus := some 2 } () (some 7)).input.keyboard_focus
      = some 1 :=
  ⟨rfl,
   ((C15_keyboard_enter_focus (one_window_display (some handler_keep))
      { input_calloc with keyboard_focus := some 2 } () (some 7) 1 rfl).2
      handler_keep rfl).1⟩

/-! ### Pointer leave followed by pointer enter -/

/-- Claim C16 as stated fails: on the window at address 1, whose root widget
declares a handler that returns null, a pointer leave followed by a pointer
enter on the window's surface leaves the pointer focus null. -/
theorem C16_counterexample :
    widget_handler (one_window_display (some handler_null)) 1 = some handler_null ∧
    (pointer_handle_enter (one_window_display (some handler_null))
      (pointer_handle_leave (one_window_display (some handler_null))
        { input_calloc with pointer_focus := some 1 } () (some 7)).input
      (pointer_handle_leave (one_window_display (some handler_null))
        { input_calloc with pointer_focus := some 1 } () (some 7)).app
      3 (some 7) 10 20).input.pointer_focus = none :=
  ⟨rfl, by decide⟩

/-- Claim C16, amended: for every input device state and every window whose
root widget declares a handler, a pointer leave followed by a pointer enter
on that window's surface ends with the root widget's handler called for the
`MOUSE_ENTER` event, after the hide-cursor request, and with the pointer focus
equal to the pointer that call returned: non-null exactly when the handler
returns a widget. -/
theorem C16_leave_enter_focus {σ : Type} (d : display_data σ) (input : input_data)
    (app : σ) (serial : Nat) (surface : Option Nat) (sx sy : Int) (window : Nat)
    (h : widget_handler_fn σ)
    (hl : __window_lookup d surface = some window)
    (hh : widget_handler d window = some h) :
    (pointer_handle_enter d (pointer_handle_leave d input app surface).input
        (pointer_handle_leave d input app surface).app serial surface sx sy).input.pointer_focus
      = (h (pointer_handle_leave d input app surface).app window (d.widget_cdata window)
          (widget_event.MOUSE_ENTER sx sy)).2 ∧
    handler_calls (pointer_handle_enter d (pointer_handle_leave d input app surface).input
        (pointer_handle_leave d input app surface).app serial surface sx sy).log
      = [(window, widget_event.MOUSE_ENTER sx sy,
          (h (pointer_handle_leave d input app surface).app window (d.widget_cdata window)
            (widget_event.MOUSE_ENTER sx sy)).2)] := by
  simp [pointer_handle_enter, hl, hh, call_handler, set_pointer_focus, handler_calls]

/-- Claim C16, amended, on the window at address 1 with a handler that keeps
the focus: after leave and enter the pointer focus is the root widget. -/
theorem C16_leave_enter_focus_witness :
    __window_lookup (one_window_display (some handler_keep)) (some 7) = some 1 ∧
    widget_handler (one_window_display (some handler_keep)) 1 = some handler_keep ∧
    (pointer_handle_enter (one_window_display (some handler_keep))
      (pointer_handle_leave (one_window_display (some handler_keep))
        { input_calloc with pointer_focus := some 1 } () (some 7)).input
      (pointer_handle_leave (one_window_display (some handler_keep))
        { input_calloc with pointer_focus := some 1 } () (some 7)).app
      3 (some 7) 10 20).input.pointer_focus = some 1 :=
  ⟨rfl, rfl,
   (C16_leave_enter_focus (one_window_display (some handler_keep))
      { input_calloc with pointer_focus := some 1 } () 3 (some 7) 10 20 1 handler_keep
      rfl rfl).1⟩

/-! ## Auxiliary input devices -/

theorem broadcast_offered {σ : Type} (d : display_data σ) (ev : widget_event)
    (windows : List Nat) :
    ∀ app, offered_in_order d ev windows (broadcast d ev windows app).2 := by
  induction windows with
  | nil =>
    intro app
    refine ⟨⟨0, by simp [broadcast]⟩, by simp [broadcast], ?_, by simp [broadcast]⟩
    intro l1 c l2 h
    simp [broadcast] at h
  | cons window rest ih =>
    intro app
    cases hh : widget_handler d window with
    | none =>
      have hf : has_handler d window = false := by simp [has_handler, hh]
      simp only [broadcast, hh]
      obtain ⟨⟨k, hk⟩, h2, h3, h4⟩ := ih app
      exact ⟨⟨k, by simpa [List.filter_cons, hf] using hk⟩, h2, h3,
        fun hall => by simpa [List.filter_cons, hf] using h4 hall⟩
    | some h =>
      have hf : has_handler d window = true := by simp [has_handler, hh]
      simp only [broadcast, hh]
      split
      · rename_i hret
        refine ⟨⟨1, by simp [List.filter_cons, hf]⟩, by simp, ?_, ?_⟩
        · intro l1 c l2 heq _
          cases l1 with
          | nil =>
            simp only [List.nil_append, List.cons.injEq] at heq
            exact heq.2.symm
          | cons x l1 =>
            simp only [List.cons_append, List.cons.injEq] at heq
            exact absurd heq.2 (by simp)
        · intro hall
          exact absurd (hall _ (List.mem_singleton.mpr rfl)) hret
      · obtain ⟨⟨k, hk⟩, h2, h3, h4⟩ :=
          ih (h app window (d.window_cdata window) ev).1
        refine ⟨⟨k + 1, by simp [List.filter_cons, hf, hk]⟩, ?_, ?_, ?_⟩
        · intro c hc
          rcases List.mem_cons.mp hc with hc | hc
          · rw [hc]
          · exact h2 c hc
        · intro l1 c l2 heq hne
          cases l1 with
          | nil =>
            simp only [List.nil_append, List.cons.injEq] at heq
            rw [← heq.1] at hne
            exact absurd rfl hne
          | cons x l1 =>
            simp only [List.cons_append, List.cons.injEq] at heq
            exact h3 l1 c l2 heq.2 hne
        · intro hall
          have h5 := h4 (fun c hc => hall c (List.mem_cons_of_mem _ hc))
          simp [List.filter_cons, hf, h5]

/-- Claim C17: for every window list, when the descriptor of the 3D-input
device or of the joystick is reported with the readable bit and the device
delivers an event (`spnav_poll_event` returns a positive value, the joystick
`read` returns a whole `js_event`), the root-widget handlers called are those
of the handler-bearing windows in list order up to some point, each with
that event; nothing is called after a handler that returned non-null; and
when no handler returned non-null all handler-bearing windows were called.
Without the readable bit, and also when the device delivers no event, no
handler is called. -/
theorem C17_aux_broadcast {σ : Type} (d : display_data σ) (app : σ) (events : Nat) (e : Nat) :
    (∀ poll : Int, events &&& EPOLLIN ≠ 0 → 0 < poll →
      offered_in_order d (widget_event.SPNAV e) d.windows
        (input_spacenav_event d app events poll e).2.2) ∧
    (∀ errno : Int, events &&& EPOLLIN ≠ 0 →
      offered_in_order d (widget_event.JOYSTICK e) d.windows
        (input_joystick_event d app events JS_EVENT_SIZE errno e).2.2) ∧
    (∀ poll : Int, events &&& EPOLLIN = 0 →
      (input_spacenav_event d app events poll e).2.2 = []) ∧
    (∀ nread errno : Int, events &&& EPOLLIN = 0 →
      (input_joystick_event d app events nread errno e).2.2 = []) ∧
    (∀ poll : Int, poll ≤ 0 → (input_spacenav_event d app events poll e).2.2 = []) ∧
    (∀ nread errno : Int, nread ≠ JS_EVENT_SIZE →
      (input_joystick_event d app events nread errno e).2.2 = []) := by
  refine ⟨?_, ?_, ?_, ?_, ?_, ?_⟩
  · intro poll hin hp
    have h1 : ¬ poll < 0 := by omega
    have h2 : ¬ poll = 0 := by omega
    simp only [input_spacenav_event, hin, h1, h2, if_false]
    exact broadcast_offered d _ d.windows app
  · intro errno hin
    simp only [input_joystick_event, hin, if_false, ne_eq, not_true_eq_false]
    exact broadcast_offered d _ d.windows app
  · intro poll hin
    simp [input_spacenav_event, hin]
  · intro nread errno hin
    simp [input_joystick_event, hin]
  · intro poll hp
    unfold input_spacenav_event
    split
    · rfl
    · split
      · rfl
      · have h0 : poll = 0 := by omega
        simp [h0]
  · intro nread errno hn
    unfold input_joystick_event
    split
    · rfl
    · simp [hn]

/-- Claim C17, on the display with windows 1 (no handler), 2 (handler
returns null) and 3 (handler keeps the focus): a 3D-input event is offered to
window 2 and then to window 3, which claims it. -/
theorem C17_aux_broadcast_witness :
    EPOLLIN &&& EPOLLIN ≠ 0 ∧ (0 : Int) < 1 ∧
    (input_spacenav_event three_window_display () EPOLLIN 1 5).2.2 =
      [(2, widget_event.SPNAV 5, none), (3, widget_event.SPNAV 5, some 3)] ∧
    offered_in_order three_window_display (widget_event.SPNAV 5) [1, 2, 3]
      (input_spacenav_event three_window_display () EPOLLIN 1 5).2.2 :=
  ⟨by decide, by decide, by decide,
   (C17_aux_broadcast three_window_display () EPOLLIN 5).1 1 (by decide) (by decide)⟩

/-! ## Display dispatch thread -/

theorem signalled_events_hooks (hook : Nat → Nat → Int) (evs : List epoll_event) :
    ∀ disp, (signalled_events hook evs disp).1 = expected_hooks hook evs := by
  induction evs with
  | nil => intro disp; rfl
  | cons ev rest ih =>
    intro disp
    cases hd : ev.data with
    | none =>
      by_cases hin : ev.events &&& EPOLLIN ≠ 0
      · simp [signalled_events, expected_hooks, hd, hin, List.filterMap_cons]
        simpa [expected_hooks] using ih true
      · simp [signalled_events, expected_hooks, hd, hin, List.filterMap_cons]
        simpa [expected_hooks] using ih disp
    | some cb =>
      simp [signalled_events, expected_hooks, hd, List.filterMap_cons]
      simpa [expected_hooks] using ih disp

theorem signalled_events_disp (hook : Nat → Nat → Int) (evs : List epoll_event) :
    ∀ disp, (signalled_events hook evs disp).2 = true ↔
      (disp = true ∨ ∃ ev ∈ evs, ev.data = none ∧ ev.events &&& EPOLLIN ≠ 0) := by
  induction evs with
  | nil => intro disp; simp [signalled_events]
  | cons ev rest ih =>
    intro disp
    cases hd : ev.data with
    | none =>
      by_cases hin : ev.events &&& EPOLLIN ≠ 0
      · simp only [signalled_events, hd]
        rw [if_pos hin, ih true]
        constructor
        · intro _
          exact Or.inr ⟨ev, List.mem_cons_self _ _, hd, hin⟩
        · intro _
          exact Or.inl rfl
      · simp only [signalled_events, hd]
        rw [if_neg hin, ih disp]
        constructor
        · rintro (h | ⟨e, he, h1, h2⟩)
          · exact Or.inl h
          · exact Or.inr ⟨e, List.mem_cons_of_mem _ he, h1, h2⟩
        · rintro (h | ⟨e, he, h1, h2⟩)
          · exact Or.inl h
          · rcases List.mem_cons.mp he with he | he
            · subst he; exact absurd h2 hin
            · exact Or.inr ⟨e, he, h1, h2⟩
    | some cb =>
      simp only [signalled_events, hd, ih disp]
      constructor
      · rintro (h | ⟨e, he, h1, h2⟩)
        · exact Or.inl h
        · exact Or.inr ⟨e, List.mem_cons_of_mem _ he, h1, h2⟩
      · rintro (h | ⟨e, he, h1, h2⟩)
        · exact Or.inl h
        · rcases List.mem_cons.mp he with he | he
          · subst he; rw [hd] at h1; exact absurd h1 (by simp)
          · exact Or.inr ⟨e, he, h1, h2⟩

theorem marked_readable_iff (env : iteration_env) :
    (signalled_events env.hook (visited_events env) false).2 = true ↔ marked_readable env := by
  rw [signalled_events_disp]
  simp [marked_readable]

theorem count_prepare_loop (n : Nat) :
    (prepare_loop n).count dispatch_call.read_events = 0 ∧
    (prepare_loop n).count dispatch_call.cancel_read = 0 ∧
    (prepare_loop n).count (dispatch_call.prepare_read true) = 1 := by
  induction n with
  | zero => decide
  | succ n ih =>
    obtain ⟨h1, h2, h3⟩ := ih
    refine ⟨?_, ?_, ?_⟩
    · simp [prepare_loop, List.count_cons, h1]
    · simp [prepare_loop, List.count_cons, h2]
    · simp [prepare_loop, List.count_cons, h3]

theorem count_expected_hooks (hook : Nat → Nat → Int) (evs : List epoll_event) :
    (expected_hooks hook evs).count dispatch_call.read_events = 0 ∧
    (expected_hooks hook evs).count dispatch_call.cancel_read = 0 ∧
    (expected_hooks hook evs).count (dispatch_call.prepare_read true) = 0 := by
  refine ⟨?_, ?_, ?_⟩ <;>
  · rw [List.count_eq_zero]
    intro hmem
    simp only [expected_hooks, List.mem_filterMap, Option.map_eq_some'] at hmem
    obtain ⟨ev, _, cb, _, h⟩ := hmem
    exact absurd h (by simp)

theorem iteration_shape (env : iteration_env) (hflush : ¬ env.flush < 0)
    (hwait : ¬ (env.wait < 0 ∧ env.wait_errno ≠ EINTR)) :
    (marked_readable env → (env.read < 0 ∧ env.read_errno ≠ EAGAIN) →
      dispatch_iteration env =
        { log := prepare_loop env.prepare_failures ++
            [dispatch_call.flush, dispatch_call.epoll_wait] ++
            expected_hooks env.hook (visited_events env) ++ [dispatch_call.read_events],
          error := some (-env.read_errno) }) ∧
    (marked_readable env → ¬ (env.read < 0 ∧ env.read_errno ≠ EAGAIN) →
      dispatch_iteration env =
        { log := prepare_loop env.prepare_failures ++
            [dispatch_call.flush, dispatch_call.epoll_wait] ++
            expected_hooks env.hook (visited_events env) ++
            [dispatch_call.read_events, dispatch_call.dispatch_pending],
          error := if env.dispatch < 0 then some (-env.dispatch_errno) else none }) ∧
    (¬ marked_readable env →
      dispatch_iteration env =
        { log := prepare_loop env.prepare_failures ++
            [dispatch_call.flush, dispatch_call.epoll_wait] ++
            expected_hooks env.hook (visited_events env) ++ [dispatch_call.cancel_read],
          error := none }) := by
  refine ⟨?_, ?_, ?_⟩
  · intro hm hr
    have hd := (marked_readable_iff env).mpr hm
    simp only [dispatch_iteration, if_neg hflush, if_neg hwait, hd, if_true, if_pos hr,
      signalled_events_hooks]
  · intro hm hr
    have hd := (marked_readable_iff env).mpr hm
    simp only [dispatch_iteration, if_neg hflush, if_neg hwait, hd, if_true, if_neg hr,
      signalled_events_hooks]
    split <;> rfl
  · intro hm
    have hd : (signalled_events env.hook (visited_events env) false).2 = false := by
      cases h : (signalled_events env.hook (visited_events env) false).2 with
      | false => rfl
      | true => exact absurd ((marked_readable_iff env).mp h) hm
    simp [dispatch_iteration, if_neg hflush, if_neg hwait, hd, signalled_events_hooks]

/-- Claim C18: in an iteration of the dispatch loop in which the flush does
not fail and the wait does not fail with an error other than `EINTR`, the
prepare-read is entered once and exactly one of `wl_display_read_events` and
`wl_display_cancel_read` is called, once.  When the display descriptor was
marked readable it is the read, and `wl_display_dispatch_pending` follows it
as the last call of the iteration unless the read failed with an error other
than `EAGAIN`, which ends the thread at the read.  When the descriptor was not
marked readable it is the cancellation, the last call of the iteration; that
is the case whenever the wait was interrupted. -/
theorem C18_read_or_cancel (env : iteration_env) (hflush : ¬ env.flush < 0)
    (hwait : ¬ (env.wait < 0 ∧ env.wait_errno ≠ EINTR)) :
    (dispatch_iteration env).log.count (dispatch_call.prepare_read true) = 1 ∧
    (dispatch_iteration env).log.count dispatch_call.read_events +
      (dispatch_iteration env).log.count dispatch_call.cancel_read = 1 ∧
    (marked_readable env →
      (dispatch_iteration env).log.count dispatch_call.read_events = 1 ∧
      (dispatch_iteration env).log.count dispatch_call.cancel_read = 0 ∧
      (¬ (env.read < 0 ∧ env.read_errno ≠ EAGAIN) →
        ∃ pre, (dispatch_iteration env).log =
          pre ++ [dispatch_call.read_events, dispatch_call.dispatch_pending]) ∧
      ((env.read < 0 ∧ env.read_errno ≠ EAGAIN) →
        (dispatch_iteration env).error = some (-env.read_errno) ∧
        ∃ pre, (dispatch_iteration env).log = pre ++ [dispatch_call.read_events])) ∧
    (¬ marked_readable env →
      (dispatch_iteration env).log.count dispatch_call.read_events = 0 ∧
      (dispatch_iteration env).log.count dispatch_call.cancel_read = 1 ∧
      (dispatch_iteration env).error = none ∧
      ∃ pre, (dispatch_iteration env).log = pre ++ [dispatch_call.cancel_read]) ∧
    (env.wait < 0 → ¬ marked_readable env) := by
  obtain ⟨s1, s2, s3⟩ := iteration_shape env hflush hwait
  obtain ⟨p1, p2, p3⟩ := count_prepare_loop env.prepare_failures
  obtain ⟨e1, e2, e3⟩ := count_expected_hooks env.hook (visited_events env)
  have hA : marked_readable env →
      (dispatch_iteration env).log.count (dispatch_call.prepare_read true) = 1 ∧
      (dispatch_iteration env).log.count dispatch_call.read_events = 1 ∧
      (dispatch_iteration env).log.count dispatch_call.cancel_read = 0 := by
    intro hm
    by_cases hr : env.read < 0 ∧ env.read_errno ≠ EAGAIN
    · rw [s1 hm hr]
      simp [List.count_append, List.count_cons, p1, p2, p3, e1, e2, e3]
    · rw [s2 hm hr]
      simp [List.count_append, List.count_cons, p1, p2, p3, e1, e2, e3]
  have hB : ¬ marked_readable env →
      (dispatch_iteration env).log.count (dispatch_call.prepare_read true) = 1 ∧
      (dispatch_iteration env).log.count dispatch_call.read_events = 0 ∧
      (dispatch_iteration env).log.count dispatch_call.cancel_read = 1 := by
    intro hm
    rw [s3 hm]
    simp [List.count_append, List.count_cons, p1, p2, p3, e1, e2, e3]
  refine ⟨?_, ?_, ?_, ?_, ?_⟩
  · by_cases hm : marked_readable env
    · exact (hA hm).1
    · exact (hB hm).1
  · by_cases hm : marked_readable env
    · rw [(hA hm).2.1, (hA hm).2.2]
    · rw [(hB hm).2.1, (hB hm).2.2]
  · intro hm
    refine ⟨(hA hm).2.1, (hA hm).2.2, ?_, ?_⟩
    · intro hr
      rw [s2 hm hr]
      exact ⟨_, rfl⟩
    · intro hr
      rw [s1 hm hr]
      exact ⟨rfl, _, rfl⟩
  · intro hm
    refine ⟨(hB hm).2.1, (hB hm).2.2, ?_, ?_⟩
    · rw [s3 hm]
    · rw [s3 hm]
      exact ⟨_, rfl⟩
  · intro hneg hm
    obtain ⟨ev, hev, _⟩ := hm
    have h0 : env.wait.toNat = 0 := by omega
    simp [visited_events, h0] at hev

/-- Claim C18, on an iteration whose wait is interrupted (`epoll_wait` returns
-1 with `EINTR`) although the array still holds a readable display event:
the prepare-read is cancelled, nothing is read. -/
theorem C18_read_or_cancel_witness :
    (dispatch_iteration
      { quiet_env [{ events := EPOLLIN, data := none }] with wait := -1, wait_errno := EINTR }).log
      = [dispatch_call.prepare_read true, dispatch_call.flush, dispatch_call.epoll_wait,
         dispatch_call.cancel_read] ∧
    (dispatch_iteration
      { quiet_env [{ events := EPOLLIN, data := none }] with wait := -1, wait_errno := EINTR }
      ).log.count dispatch_call.read_events +
    (dispatch_iteration
      { quiet_env [{ events := EPOLLIN, data := none }] with wait := -1, wait_errno := EINTR }
      ).log.count dispatch_call.cancel_read = 1 :=
  ⟨by decide,
   (C18_read_or_cancel
      { quiet_env [{ events := EPOLLIN, data := none }] with wait := -1, wait_errno := EINTR }
      (by decide) (by decide)).2.1⟩

theorem not_marked_of_wait_neg (env : iteration_env) (h : env.wait < 0) :
    ¬ marked_readable env := by
  rintro ⟨ev, hev, _⟩
  have h0 : env.wait.toNat = 0 := by omega
  simp [visited_events, h0] at hev

theorem iteration_error_iff (env : iteration_env) :
    (dispatch_iteration env).error ≠ none ↔
      (env.flush < 0 ∨ (env.wait < 0 ∧ env.wait_errno ≠ EINTR) ∨
       (marked_readable env ∧
         ((env.read < 0 ∧ env.read_errno ≠ EAGAIN) ∨ env.dispatch < 0))) := by
  by_cases hflush : env.flush < 0
  · simp [dispatch_iteration, hflush]
  · by_cases hwait : env.wait < 0 ∧ env.wait_errno ≠ EINTR
    · simp [dispatch_iteration, hflush, hwait]
    · obtain ⟨s1, s2, s3⟩ := iteration_shape env hflush hwait
      by_cases hm : marked_readable env
      · by_cases hr : env.read < 0 ∧ env.read_errno ≠ EAGAIN
        · rw [s1 hm hr]
          simp only [ne_eq, reduceCtorEq, not_false_eq_true, true_iff]
          exact Or.inr (Or.inr ⟨hm, Or.inl hr⟩)
        · rw [s2 hm hr]
          by_cases hd : env.dispatch < 0
          · rw [if_pos hd]
            exact ⟨fun _ => Or.inr (Or.inr ⟨hm, Or.inr hd⟩), fun _ => by simp⟩
          · rw [if_neg hd]
            constructor
            · intro h
              exact absurd rfl h
            · rintro (h | h | ⟨_, h | h⟩)
              · exact absurd h hflush
              · exact absurd h hwait
              · exact absurd h hr
              · exact absurd h hd
      · rw [s3 hm]
        simp only [ne_eq, not_true_eq_false, false_iff]
        rintro (h | h | ⟨h, _⟩)
        · exact hflush h
        · exact hwait h
        · exact hm h

/-- Claim C19: an iteration of the dispatch loop ends the thread with an error
result exactly when the flush fails, or the wait fails with an error other
than `EINTR`, or the display descriptor was marked readable and either the
read fails with an error other than `EAGAIN` or the dispatch of pending
messages fails.  The results of the source hooks play no part in it.  An
interrupted wait and a would-block read followed by a successful dispatch do
not end the thread.  The loop goes on to the next iteration exactly when the
iteration did not end in an error. -/
theorem C19_fatal_conditions (env : iteration_env) :
    ((dispatch_iteration env).error ≠ none ↔
      (env.flush < 0 ∨ (env.wait < 0 ∧ env.wait_errno ≠ EINTR) ∨
       (marked_readable env ∧
         ((env.read < 0 ∧ env.read_errno ≠ EAGAIN) ∨ env.dispatch < 0)))) ∧
    (∀ hook, ((dispatch_iteration { env with hook := hook }).error ≠ none ↔
      (dispatch_iteration env).error ≠ none)) ∧
    (¬ env.flush < 0 → env.wait < 0 → env.wait_errno = EINTR →
      (dispatch_iteration env).error = none) ∧
    (¬ env.flush < 0 → 0 ≤ env.wait → env.read < 0 → env.read_errno = EAGAIN →
      0 ≤ env.dispatch → (dispatch_iteration env).error = none) ∧
    (∀ envs, (dispatch_iteration env).error = none →
      dispatch_loop (env :: envs) =
        { log := (dispatch_iteration env).log ++ (dispatch_loop envs).log,
          error := (dispatch_loop envs).error }) ∧
    (∀ envs e, (dispatch_iteration env).error = some e →
      dispatch_loop (env :: envs) =
        { log := (dispatch_iteration env).log, error := some e }) := by
  have hnone : ∀ e : iteration_env, ¬ ((dispatch_iteration e).error ≠ none) →
      (dispatch_iteration e).error = none := by
    intro e h
    by_contra hc
    exact h hc
  refine ⟨iteration_error_iff env, ?_, ?_, ?_, ?_, ?_⟩
  · intro hook
    rw [iteration_error_iff, iteration_error_iff]
    have hm : marked_readable { env with hook := hook } ↔ marked_readable env := Iff.rfl
    rw [hm]
  · intro hflush hw he
    apply hnone
    rw [iteration_error_iff]
    rintro (h | h | ⟨h, _⟩)
    · exact hflush h
    · exact h.2 he
    · exact not_marked_of_wait_neg env hw h
  · intro hflush hw _ he hd
    apply hnone
    rw [iteration_error_iff]
    rintro (h | h | ⟨_, h | h⟩)
    · exact hflush h
    · omega
    · exact h.2 he
    · omega
  · intro envs h
    simp [dispatch_loop, h]
  · intro envs e h
    simp [dispatch_loop, h]

/-- Claim C19, on an iteration in which a hook returns -5 and the read of the
readable display would block: the iteration ends without an error and the
loop goes on. -/
theorem C19_fatal_conditions_witness :
    (dispatch_iteration
      { quiet_env [{ events := EPOLLIN, data := some 40 }, { events := EPOLLIN, data := none }]
        with hook := fun _ _ => -5, read := -1, read_errno := EAGAIN }).error = none ∧
    (dispatch_iteration
      { quiet_env [{ events := EPOLLIN, data := some 40 }, { events := EPOLLIN, data := none }]
        with hook := fun _ _ => -5, read := -1, read_errno := EAGAIN }).log
      = [dispatch_call.prepare_read true, dispatch_call.flush, dispatch_call.epoll_wait,
         dispatch_call.hook 40 EPOLLIN (-5), dispatch_call.read_events,
         dispatch_call.dispatch_pending] :=
  ⟨(C19_fatal_conditions
      { quiet_env [{ events := EPOLLIN, data := some 40 }, { events := EPOLLIN, data := none }]
        with hook := fun _ _ => -5, read := -1, read_errno := EAGAIN }).2.2.2.1
      (by decide) (by decide) (by decide) (by decide) (by decide),
   by decide⟩

/-- Claim C20 as stated fails: an event without a callback record whose
bitmask has only the hang-up bit does not mark the display readable; the
iteration cancels the read instead of reading. -/
theorem C20_counterexample :
    signalled_events (fun _ _ => 0) [{ events := EPOLLHUP, data := none }] false = ([], false) ∧
    (dispatch_iteration (quiet_env [{ events := EPOLLHUP, data := none }])).log
      = [dispatch_call.prepare_read true, dispatch_call.flush, dispatch_call.epoll_wait,
         dispatch_call.cancel_read] := by
  decide

/-- Claim C20, amended: in an iteration that gets to the events reported by
the wait, the hook calls made are one per reported event that carries a
callback record, made on that record with exactly that event's bitmask, in
the order reported; an event without a callback record causes no hook call,
and the display is marked readable exactly when such an event has the readable
bit `EPOLLIN` in its bitmask.  So for a source added by
`display_add_poll_source` with the callback record `cb`, the event reported
when its descriptor becomes readable causes one call of the hook of `cb` with
the bitmask `EPOLLIN`. -/
theorem C20_hooks_per_event (env : iteration_env) (hflush : ¬ env.flush < 0)
    (hwait : ¬ (env.wait < 0 ∧ env.wait_errno ≠ EINTR)) :
    (dispatch_iteration env).log.filter is_hook =
      expected_hooks env.hook (visited_events env) ∧
    ((signalled_events env.hook (visited_events env) false).2 = true ↔
      ∃ ev ∈ visited_events env, ev.data = none ∧ ev.events &&& EPOLLIN ≠ 0) ∧
    (dispatch_call.read_events ∈ (dispatch_iteration env).log ↔
      ∃ ev ∈ visited_events env, ev.data = none ∧ ev.events &&& EPOLLIN ≠ 0) ∧
    (∀ fd cb, visited_events env =
        [epoll_report { fd := fd, event := { events := EPOLLIN, data := some cb } } EPOLLIN] →
      (display_add_poll_source [] fd (some cb)).1 =
        [{ fd := fd, event := { events := EPOLLIN, data := some cb } }] ∧
      (dispatch_iteration env).log.filter is_hook =
        [dispatch_call.hook cb EPOLLIN (env.hook cb EPOLLIN)]) := by
  obtain ⟨s1, s2, s3⟩ := iteration_shape env hflush hwait
  obtain ⟨e1, e2, _⟩ := count_expected_hooks env.hook (visited_events env)
  obtain ⟨p1, p2, _⟩ := count_prepare_loop env.prepare_failures
  have hprep : ∀ n, (prepare_loop n).filter is_hook = [] := by
    intro n
    induction n with
    | zero => rfl
    | succ n ih => simp [prepare_loop, is_hook, ih]
  have hexp : (expected_hooks env.hook (visited_events env)).filter is_hook =
      expected_hooks env.hook (visited_events env) := by
    rw [List.filter_eq_self]
    intro c hc
    simp only [expected_hooks, List.mem_filterMap, Option.map_eq_some'] at hc
    obtain ⟨ev, _, cb, _, h⟩ := hc
    rw [← h]; rfl
  have hfilter : (dispatch_iteration env).log.filter is_hook =
      expected_hooks env.hook (visited_events env) := by
    by_cases hm : marked_readable env
    · by_cases hr : env.read < 0 ∧ env.read_errno ≠ EAGAIN
      · rw [s1 hm hr]
        simp [List.filter_append, hprep, hexp, is_hook]
      · rw [s2 hm hr]
        simp [List.filter_append, hprep, hexp, is_hook]
    · rw [s3 hm]
      simp [List.filter_append, hprep, hexp, is_hook]
  have hread : dispatch_call.read_events ∈ (dispatch_iteration env).log ↔
      marked_readable env := by
    by_cases hm : marked_readable env
    · simp only [hm, iff_true]
      by_cases hr : env.read < 0 ∧ env.read_errno ≠ EAGAIN
      · rw [s1 hm hr]; simp
      · rw [s2 hm hr]; simp
    · simp only [hm, iff_false]
      rw [s3 hm]
      intro hmem
      have hc := List.count_pos_iff.mpr hmem
      simp [List.count_append, List.count_cons, p1, e1] at hc
  refine ⟨hfilter, marked_readable_iff env, hread, ?_⟩
  intro fd cb hv
  refine ⟨by simp [display_add_poll_source, epoll_ctl_add], ?_⟩
  rw [hfilter, hv]
  have hb : EPOLLIN &&& (EPOLLIN ||| EPOLLERR ||| EPOLLHUP) = EPOLLIN := by decide
  simp [expected_hooks, epoll_report, hb]

/-- Claim C20, amended, on an iteration in which the wait reports a registered
source (record 40) with the readable bit and the display descriptor with the
readable bit: one hook call on record 40 with `EPOLLIN`, and the display is
read. -/
theorem C20_hooks_per_event_witness :
    (dispatch_iteration
      (quiet_env [{ events := EPOLLIN, data := some 40 }, { events := EPOLLIN, data := none }])
      ).log.filter is_hook = [dispatch_call.hook 40 EPOLLIN 0] ∧
    (dispatch_iteration
      (quiet_env [{ events := EPOLLIN, data := some 40 }, { events := EPOLLIN, data := none }])
      ).log = [dispatch_call.prepare_read true, dispatch_call.flush, dispatch_call.epoll_wait,
        dispatch_call.hook 40 EPOLLIN 0, dispatch_call.read_events,
        dispatch_call.dispatch_pending] :=
  ⟨(C20_hooks_per_event
      (quiet_env [{ events := EPOLLIN, data := some 40 }, { events := EPOLLIN, data := none }])
      (by decide) (by decide)).1,
   by decide⟩

/-! ### Leave notifications -/

/-- Claim C24: on a surface that resolves to a window, a pointer leave with a
current pointer focus and a keyboard leave (whose focused widget is the
keyboard focus, or the root widget when there is none) clear the focus field
before the handler runs: when the focused widget declares a handler the only
call logged is that handler's, made with the leave event and with the
device's focus field already null; when it declares none no call is made and
the focus after the event is null.  A pointer leave without a current pointer
focus, on any surface, calls no handler and changes nothing. -/
theorem C24_leave_clears_focus_first {σ : Type} (d : display_data σ) (input : input_data)
    (app : σ) (surface : Option Nat) (window : Nat)
    (hl : __window_lookup d surface = some window) :
    (∀ focus, input.pointer_focus = some focus →
      (∀ h, widget_handler d focus = some h →
        (pointer_handle_leave d input app surface).log =
          [input_effect.event focus (d.widget_cdata focus) widget_event.MOUSE_LEAVE
            { input with pointer_focus := none }
            (h app focus (d.widget_cdata focus) widget_event.MOUSE_LEAVE).2]) ∧
      (widget_handler d focus = none →
        (pointer_handle_leave d input app surface).log = [] ∧
        (pointer_handle_leave d input app surface).input.pointer_focus = none)) ∧
    ((∀ h, widget_handler d (input.keyboard_focus.getD window) = some h →
        (keyboard_handle_leave d input app surface).log =
          [input_effect.event (input.keyboard_focus.getD window)
            (d.widget_cdata (input.keyboard_focus.getD window)) widget_event.KEY_LEAVE
            { input with keyboard_focus := none }
            (h app (input.keyboard_focus.getD window)
              (d.widget_cdata (input.keyboard_focus.getD window)) widget_event.KEY_LEAVE).2]) ∧
      (widget_handler d (input.keyboard_focus.getD window) = none →
        (keyboard_handle_leave d input app surface).log = [] ∧
        (keyboard_handle_leave d input app surface).input.keyboard_focus = none)) ∧
    (∀ surface1, input.pointer_focus = none →
      (pointer_handle_leave d input app surface1).log = [] ∧
      (pointer_handle_leave d input app surface1).input = input ∧
      (pointer_handle_leave d input app surface1).app = app) := by
  refine ⟨?_, ⟨?_, ?_⟩, ?_⟩
  · intro focus hp
    constructor
    · intro h hh
      simp [pointer_handle_leave, hl, hp, hh, call_handler]
    · intro hh
      simp [pointer_handle_leave, hl, hp, hh]
  · intro h hh
    simp [keyboard_handle_leave, hl, hh, call_handler]
  · intro hh
    simp [keyboard_handle_leave, hl, hh]
  · intro surface1 hp
    cases hl1 : __window_lookup d surface1 with
    | none => simp [pointer_handle_leave, hl1]
    | some w1 => simp [pointer_handle_leave, hl1, hp]

/-- Claim C24, for a pointer leave while the pointer focus is the root widget
of window 1, whose handler keeps the focus: the handler sees a null pointer
focus. -/
theorem C24_leave_clears_focus_first_witness :
    __window_lookup (one_window_display (some handler_keep)) (some 7) = some 1 ∧
    (pointer_handle_leave (one_window_display (some handler_keep))
      { input_calloc with pointer_focus := some 1 } () (some 7)).log =
      [input_effect.event 1 0 widget_event.MOUSE_LEAVE input_calloc (some 1)] :=
  ⟨rfl,
   ((C24_leave_clears_focus_first (one_window_display (some handler_keep))
      { input_calloc with pointer_focus := some 1 } () (some 7) 1 rfl).1 1 rfl).1
      handler_keep rfl⟩

/-! ### Hide-cursor request -/

/-- Claim C25 as stated fails: on the window at address 1, whose root widget
declares no handler, a pointer enter on the window's surface issues no
request at all. -/
theorem C25_counterexample :
    __window_lookup (one_window_display none) (some 7) = some 1 ∧
    (pointer_handle_enter (one_window_display none) input_calloc () 3 (some 7) 10 20).log
      = [] :=
  ⟨rfl, rfl⟩

/-- Claim C25, amended: for a pointer-enter event on a surface that resolves to
a window, when the root widget declares a handler `pointer_handle_enter` issues
the set-cursor request with the serial of the event and then calls the
handler, and does nothing else; when the root widget has no info or no handler
it issues no request. -/
theorem C25_hide_cursor_before_handler {σ : Type} (d : display_data σ) (input : input_data)
    (app : σ) (serial : Nat) (surface : Option Nat) (sx sy : Int) (window : Nat)
    (hl : __window_lookup d surface = some window) :
    (∀ h, widget_handler d window = some h →
      (pointer_handle_enter d input app serial surface sx sy).log =
        [input_effect.set_cursor serial,
         input_effect.event window (d.widget_cdata window) (widget_event.MOUSE_ENTER sx sy)
           { input with pointer_x := sx, pointer_y := sy }
           (h app window (d.widget_cdata window) (widget_event.MOUSE_ENTER sx sy)).2]) ∧
    (widget_handler d window = none →
      (pointer_handle_enter d input app serial surface sx sy).log = []) := by
  constructor
  · intro h hh
    simp [pointer_handle_enter, hl, hh, call_handler]
  · intro hh
    simp [pointer_handle_enter, hl, hh]

/-- Claim C25, amended, on the window at address 1 with a handler: the
set-cursor request with serial 3 comes first, the handler call second. -/
theorem C25_hide_cursor_before_handler_witness :
    __window_lookup (one_window_display (some handler_keep)) (some 7) = some 1 ∧
    (pointer_handle_enter (one_window_display (some handler_keep)) input_calloc () 3
      (some 7) 10 20).log =
      [input_effect.set_cursor 3,
       input_effect.event 1 0 (widget_event.MOUSE_ENTER 10 20)
         { input_calloc with pointer_x := 10, pointer_y := 20 } (some 1)] :=
  ⟨rfl,
   (C25_hide_cursor_before_handler (one_window_display (some handler_keep)) input_calloc ()
      3 (some 7) 10 20 1 rfl).1 handler_keep rfl⟩

/-! ## Seat capabilities -/

/-- Claim C26: after `seat_handle_capabilities` has processed the bitmask
`caps`, each of the pointer, keyboard and touch handles is present exactly
when its capability bit is set in `caps`.  A missing handle whose bit is set
is created; a present handle whose bit is clear is destroyed and nulled; a
handle whose presence already agrees with its bit is left as it was, with no
request made for it; the focus fields and the latched position are not
touched; and processing the same `caps` again changes nothing and makes no
request. -/
theorem C26_seat_capabilities (input : input_data) (caps np nk nt : Nat) :
    (((seat_handle_capabilities input caps np nk nt).1.pointer.isSome ↔
        caps &&& WL_SEAT_CAPABILITY_POINTER ≠ 0) ∧
     ((seat_handle_capabilities input caps np nk nt).1.keyboard.isSome ↔
        caps &&& WL_SEAT_CAPABILITY_KEYBOARD ≠ 0) ∧
     ((seat_handle_capabilities input caps np nk nt).1.touch.isSome ↔
        caps &&& WL_SEAT_CAPABILITY_TOUCH ≠ 0)) ∧
    ((input.pointer = none → caps &&& WL_SEAT_CAPABILITY_POINTER ≠ 0 →
        (seat_handle_capabilities input caps np nk nt).1.pointer = some np ∧
        seat_effect.get_pointer np ∈ (seat_handle_capabilities input caps np nk nt).2) ∧
     (input.keyboard = none → caps &&& WL_SEAT_CAPABILITY_KEYBOARD ≠ 0 →
        (seat_handle_capabilities input caps np nk nt).1.keyboard = some nk ∧
        seat_effect.get_keyboard nk ∈ (seat_handle_capabilities input caps np nk nt).2) ∧
     (input.touch = none → caps &&& WL_SEAT_CAPABILITY_TOUCH ≠ 0 →
        (seat_handle_capabilities input caps np nk nt).1.touch = some nt ∧
        seat_effect.get_touch nt ∈ (seat_handle_capabilities input caps np nk nt).2)) ∧
    ((∀ h, input.pointer = some h → caps &&& WL_SEAT_CAPABILITY_POINTER = 0 →
        (seat_handle_capabilities input caps np nk nt).1.pointer = none ∧
        seat_effect.pointer_destroy h ∈ (seat_handle_capabilities input caps np nk nt).2) ∧
     (∀ h, input.keyboard = some h → caps &&& WL_SEAT_CAPABILITY_KEYBOARD = 0 →
        (seat_handle_capabilities input caps np nk nt).1.keyboard = none ∧
        seat_effect.keyboard_destroy h ∈ (seat_handle_capabilities input caps np nk nt).2) ∧
     (∀ h, input.touch = some h → caps &&& WL_SEAT_CAPABILITY_TOUCH = 0 →
        (seat_handle_capabilities input caps np nk nt).1.touch = none ∧
        seat_effect.touch_destroy h ∈ (seat_handle_capabilities input caps np nk nt).2)) ∧
    (((input.pointer.isSome ↔ caps &&& WL_SEAT_CAPABILITY_POINTER ≠ 0) →
        (seat_handle_capabilities input caps np nk nt).1.pointer = input.pointer ∧
        ∀ h, seat_effect.get_pointer h ∉ (seat_handle_capabilities input caps np nk nt).2 ∧
          seat_effect.pointer_destroy h ∉ (seat_handle_capabilities input caps np nk nt).2) ∧
     ((input.keyboard.isSome ↔ caps &&& WL_SEAT_CAPABILITY_KEYBOARD ≠ 0) →
        (seat_handle_capabilities input caps np nk nt).1.keyboard = input.keyboard ∧
        ∀ h, seat_effect.get_keyboard h ∉ (seat_handle_capabilities input caps np nk nt).2 ∧
          seat_effect.keyboard_destroy h ∉ (seat_handle_capabilities input caps np nk nt).2) ∧
     ((input.touch.isSome ↔ caps &&& WL_SEAT_CAPABILITY_TOUCH ≠ 0) →
        (seat_handle_capabilities input caps np nk nt).1.touch = input.touch ∧
        ∀ h, seat_effect.get_touch h ∉ (seat_handle_capabilities input caps np nk nt).2 ∧
          seat_effect.touch_destroy h ∉ (seat_handle_capabilities input caps np nk nt).2)) ∧
    ((seat_handle_capabilities input caps np nk nt).1.pointer_focus = input.pointer_focus ∧
     (seat_handle_capabilities input caps np nk nt).1.keyboard_focus = input.keyboard_focus ∧
     (seat_handle_capabilities input caps np nk nt).1.touch_focus = input.touch_focus ∧
     (seat_handle_capabilities input caps np nk nt).1.pointer_x = input.pointer_x ∧
     (seat_handle_capabilities input caps np nk nt).1.pointer_y = input.pointer_y) ∧
    (∀ np1 nk1 nt1,
      seat_handle_capabilities (seat_handle_capabilities input caps np nk nt).1 caps np1 nk1 nt1
        = ((seat_handle_capabilities input caps np nk nt).1, [])) := by
  cases hp : input.pointer <;> cases hk : input.keyboard <;> cases ht : input.touch <;>
    by_cases bp : caps &&& WL_SEAT_CAPABILITY_POINTER = 0 <;>
    by_cases bk : caps &&& WL_SEAT_CAPABILITY_KEYBOARD = 0 <;>
    by_cases bt : caps &&& WL_SEAT_CAPABILITY_TOUCH = 0 <;>
    simp [seat_handle_capabilities, seat_pointer, seat_keyboard, seat_touch, hp, hk, ht,
      bp, bk, bt]

/-- Claim C26, for a seat that has a pointer and a keyboard handle and
reports pointer and touch: the keyboard handle 12 is destroyed, the touch
handle 23 is created, the pointer handle 11 is kept, and a second pass makes
no request. -/
theorem C26_seat_capabilities_witness :
    seat_handle_capabilities { input_calloc with pointer := some 11, keyboard := some 12 }
      (WL_SEAT_CAPABILITY_POINTER ||| WL_SEAT_CAPABILITY_TOUCH) 21 22 23 =
      ({ input_calloc with pointer := some 11, touch := some 23 },
       [seat_effect.keyboard_destroy 12, seat_effect.get_touch 23]) ∧
    seat_handle_capabilities
      (seat_handle_capabilities { input_calloc with pointer := some 11, keyboard := some 12 }
        (WL_SEAT_CAPABILITY_POINTER ||| WL_SEAT_CAPABILITY_TOUCH) 21 22 23).1
      (WL_SEAT_CAPABILITY_POINTER ||| WL_SEAT_CAPABILITY_TOUCH) 31 32 33 =
      ((seat_handle_capabilities { input_calloc with pointer := some 11, keyboard := some 12 }
        (WL_SEAT_CAPABILITY_POINTER ||| WL_SEAT_CAPABILITY_TOUCH) 21 22 23).1, []) :=
  ⟨by decide,
   (C26_seat_capabilities { input_calloc with pointer := some 11, keyboard := some 12 }
      (WL_SEAT_CAPABILITY_POINTER ||| WL_SEAT_CAPABILITY_TOUCH) 21 22 23).2.2.2.2.2 31 32 33⟩

/-! ## Cameras mapping -/

theorem camera_id_involutive (i : Int) : camera_id (camera_id i) = i := by
  cases i with
  | ofNat m =>
    by_cases hm : m < 2
    · have h01 : m = 0 ∨ m = 1 := by omega
      rcases h01 with h | h <;> subst h <;> decide
    · have h2 : ¬ (Int.ofNat m < 2) := by
        intro h
        have : (m : Int) < 2 := h
        omega
      simp only [camera_id, if_neg h2]
  | negSucc m =>
    have h1 : Int.negSucc m < 2 := by
      have := Int.negSucc_lt_zero m
      omega
    have h2 : Int.negSucc (m ^^^ 1) < 2 := by
      have := Int.negSucc_lt_zero (m ^^^ 1)
      omega
    have hx : ∀ k : Nat, Int.xor (Int.negSucc k) 1 = Int.negSucc (k ^^^ 1) := fun k => rfl
    simp only [camera_id, if_pos h1, hx, if_pos h2, Nat.xor_assoc, Nat.xor_self, Nat.xor_zero]

/-- Claim C28: `camera_id` and `camera_idx` are the same function on the
integers; it is its own inverse; it swaps 0 and 1 and fixes 2 and 3, so that
the texture indices 0, 1, 2, 3 map to the cameras LEFT, RIGHT, FRONT, REAR in
that order. -/
theorem C28_camera_mapping :
    (∀ i : Int, camera_idx i = camera_id i) ∧
    (∀ i : Int, camera_idx (camera_id i) = i) ∧
    (∀ i : Int, camera_id (camera_id i) = i) ∧
    (camera_id 0 = 1 ∧ camera_id 1 = 0 ∧ camera_id 2 = 2 ∧ camera_id 3 = 3) ∧
    [camera_id 0, camera_id 1, camera_id 2, camera_id 3] =
      [CAMERA_LEFT, CAMERA_RIGHT, CAMERA_FRONT, CAMERA_REAR] := by
  refine ⟨fun i => rfl, ?_, camera_id_involutive, by decide, by decide⟩
  intro i
  show camera_id (camera_id i) = i
  exact camera_id_involutive i

/-! ## Off-screen buffers of a window -/

theorem succ_mod_cases (k N : Nat) (hN : 0 < N) :
    (k + 1) % N = if k % N + 1 = N then 0 else k % N + 1 := by
  have hlt := Nat.mod_lt k hN
  have hk : k + 1 = N * (k / N) + (k % N + 1) := by
    have := Nat.div_add_mod k N
    omega
  split
  · rename_i h
    rw [hk, h]
    have : N * (k / N) + N = N * (k / N + 1) := by ring
    rw [this, Nat.mul_mod_right]
  · rename_i h
    rw [hk, Nat.mul_add_mod]
    exact Nat.mod_eq_of_lt (by omega)

theorem cairo_calls_from (N : Nat) (hN : 1 ≤ N) (n : Nat) :
    ∀ j : Nat, cairo_calls (N : Int) n (((j % N : Nat)) : Int) =
      some ((List.range n).map (fun k => (((j + k) % N : Nat) : Int)),
        (((j + n) % N : Nat) : Int)) := by
  induction n with
  | zero => intro j; simp [cairo_calls]
  | succ n ih =>
    intro j
    have hstep : (if ((j % N : Nat) : Int) + 1 = (N : Int) then (0 : Int)
        else ((j % N : Nat) : Int) + 1) = (((j + 1) % N : Nat) : Int) := by
      rw [succ_mod_cases j N (by omega)]
      by_cases h : j % N + 1 = N
      · have h1 : ((j % N : Nat) : Int) + 1 = (N : Int) := by exact_mod_cast h
        rw [if_pos h1, if_pos h]
        rfl
      · have h1 : ¬ (((j % N : Nat) : Int) + 1 = (N : Int)) := by
          intro hc; apply h; exact_mod_cast hc
        rw [if_neg h1, if_neg h]
        rfl
    have hl : (List.range (n + 1)).map (fun k => (((j + k) % N : Nat) : Int)) =
        (((j % N : Nat)) : Int) ::
          (List.range n).map (fun k => (((j + 1 + k) % N : Nat) : Int)) := by
      rw [List.range_succ_eq_map, List.map_cons, List.map_map]
      refine congrArg₂ List.cons rfl ?_
      apply List.map_congr_left
      intro k _
      show (((j + (k + 1)) % N : Nat) : Int) = (((j + 1 + k) % N : Nat) : Int)
      rw [show j + (k + 1) = j + 1 + k by omega]
    have hget : window_get_cairo INTERN_DEBUG true true (((j % N : Nat)) : Int) (N : Int) =
        some (some (((j % N : Nat)) : Int), (((j + 1) % N : Nat) : Int)) := by
      rw [← hstep]
      rfl
    rw [cairo_calls, hget]
    simp only
    rw [ih (j + 1), hl, show j + 1 + n = j + (n + 1) by omega]

/-- Claim C21: for a window whose root widget has `N ≥ 1` off-screen buffers
and whose buffer index starts at 0 (the window is allocated with `calloc`),
the call number `k` of `window_get_cairo`, counted from 0, draws into buffer
`k mod N`; after any number `n` of calls the stored index is `n mod N`, which
is at least 0 and below `N`; and with two or more buffers two consecutive calls
never draw into the same buffer, the indices for `N = 2` being 0, 1, 0, 1. -/
theorem C21_buffer_rotation (N n : Nat) (hN : 1 ≤ N) :
    cairo_calls (N : Int) n 0 =
      some ((List.range n).map (fun k => (((k % N : Nat)) : Int)), (((n % N : Nat)) : Int)) ∧
    ((0 : Int) ≤ (((n % N : Nat)) : Int) ∧ (((n % N : Nat)) : Int) < (N : Int)) ∧
    (2 ≤ N → ∀ k : Nat, (((k % N : Nat)) : Int) ≠ ((((k + 1) % N : Nat)) : Int)) ∧
    cairo_calls 2 4 0 = some ([0, 1, 0, 1], 0) := by
  refine ⟨?_, ⟨by omega, ?_⟩, ?_, by decide⟩
  · have h := cairo_calls_from N hN n 0
    simpa using h
  · have := Nat.mod_lt n (show 0 < N by omega)
    exact_mod_cast this
  · intro h2 k hc
    have hc1 : k % N = (k + 1) % N := by exact_mod_cast hc
    rw [succ_mod_cases k N (by omega)] at hc1
    have := Nat.mod_lt k (show 0 < N by omega)
    split at hc1 <;> omega

/-- Claim C21, with three buffers and seven calls: the buffers drawn into are
0, 1, 2, 0, 1, 2, 0 and the stored index is 1. -/
theorem C21_buffer_rotation_witness :
    (1 : Nat) ≤ 3 ∧
    cairo_calls 3 7 0 = some ([0, 1, 2, 0, 1, 2, 0], 1) :=
  ⟨by decide, (C21_buffer_rotation 3 7 (by decide)).1⟩

/-! ## Shared memory chunks -/

theorem and_u32_not_4095 (x : Nat) (hx : x < 2 ^ 32) :
    x &&& u32_not 4095 = 4096 * (x / 4096) := by
  have h1 : x &&& u32_not 4095 = (x >>> 12) <<< 12 := by
    apply Nat.eq_of_testBit_eq
    intro i
    have h4095 : (4095 : Nat) = 2 ^ 12 - 1 := by norm_num
    simp only [u32_not, UINT32_MAX, Nat.testBit_and, Nat.testBit_xor, h4095,
      Nat.testBit_two_pow_sub_one, Nat.testBit_shiftLeft, Nat.testBit_shiftRight]
    by_cases h12 : i < 12
    · have h32 : i < 32 := by omega
      have hge : ¬ i ≥ 12 := by omega
      simp [h12, h32, hge]
    · by_cases h32 : i < 32
      · have hge : i ≥ 12 := by omega
        have hadd : 12 + (i - 12) = i := by omega
        simp [h12, h32, hge, hadd]
      · have hfi : x.testBit i = false :=
          Nat.testBit_lt_two_pow
            (lt_of_lt_of_le hx (Nat.pow_le_pow_right (by norm_num) (not_lt.mp h32)))
        have hge : i ≥ 12 := by omega
        have hadd : 12 + (i - 12) = i := by omega
        simp [h12, h32, hge, hadd, hfi]
  rw [h1, Nat.shiftLeft_eq, Nat.shiftRight_eq_div_pow]
  norm_num
  ring

/-- Claim C29 as stated fails: for the 32-bit size `2 ^ 32 - 1` the sum
`size + 4095` wraps and the chunk size recorded is 0, which is below the
request. -/
theorem C29_counterexample :
    2 ^ 32 - 1 < 2 ^ 32 ∧ sh_mem_chunk_size (2 ^ 32 - 1) = 0 ∧
    ¬ (2 ^ 32 - 1 ≤ sh_mem_chunk_size (2 ^ 32 - 1)) := by
  decide

/-- Claim C29, amended: for every requested size `s` of at most
`2 ^ 32 - 4096`, the chunk size recorded by `sh_mem_alloc` is a multiple of
4096, at least `s` and less than `s + 4096`, and it is the size of every
chunk the function returns; for a larger 32-bit `s` the sum wraps and the size
recorded is 0. -/
theorem C29_chunk_size_aligned (s : Nat) (hs : s < 2 ^ 32) :
    (s ≤ 2 ^ 32 - 4096 →
      sh_mem_chunk_size s % 4096 = 0 ∧ s ≤ sh_mem_chunk_size s ∧
      sh_mem_chunk_size s < s + 4096 ∧ sh_mem_chunk_size s < 2 ^ 32) ∧
    (2 ^ 32 - 4096 < s → sh_mem_chunk_size s = 0) ∧
    (∀ calloc_ok fd mmap_ok shm, sh_mem_alloc s calloc_ok fd mmap_ok = some shm →
      shm.size = sh_mem_chunk_size s) := by
  have hm : (s + 4095) % 2 ^ 32 < 2 ^ 32 := Nat.mod_lt _ (by norm_num)
  have hc : sh_mem_chunk_size s = 4096 * (((s + 4095) % 2 ^ 32) / 4096) :=
    and_u32_not_4095 _ hm
  refine ⟨?_, ?_, ?_⟩
  · intro h
    rw [hc]
    omega
  · intro h
    rw [hc]
    omega
  · intro calloc_ok fd mmap_ok shm h
    unfold sh_mem_alloc at h
    split at h
    · exact absurd h (by simp)
    · split at h
      · exact absurd h (by simp)
      · split at h
        · exact absurd h (by simp)
        · simp only [Option.some.injEq] at h
          rw [← h]

/-- Claim C29, amended, for a request of 4097 bytes: two pages are
recorded. -/
theorem C29_chunk_size_aligned_witness :
    4097 < 2 ^ 32 ∧ 4097 ≤ 2 ^ 32 - 4096 ∧ sh_mem_chunk_size 4097 = 8192 ∧
    sh_mem_chunk_size 4097 % 4096 = 0 :=
  ⟨by decide, by decide, by decide,
   ((C29_chunk_size_aligned 4097 (by decide)).1 (by decide)).1⟩

/-! ## Frame-rate calculation -/

theorem fps_steady (d ts acc : Nat) (hd0 : 0 < d) (hd : d < 2 ^ 28) (hacc : acc = 16 * d) :
    fps_next_acc acc ts d = 16 * d := by
  have h0 : acc ≠ 0 := by omega
  simp only [fps_next_acc, if_neg h0, Nat.shiftRight_eq_div_pow]
  omega

theorem fps_delta (a d : Nat) (hd : d < 2 ^ 28) :
    ((a + d) % 2 ^ 32 + 2 ^ 32 - a % 2 ^ 32) % 2 ^ 32 = d := by
  omega

theorem fps_run_steady (w : fps_data) (d t1 : Nat) (ht0 : 0 < t1) (ht : t1 < 2 ^ 32)
    (hd0 : 0 < d) (hd : d < 2 ^ 28) (n : Nat) :
    fps_run w d t1 (n + 2) =
      ({ fps_ts := (t1 + (n + 1) * d) % 2 ^ 32, fps_acc := 16 * d }, some d) := by
  have h1 : fps_run w d t1 1 = ({ fps_ts := t1, fps_acc := 0 }, none) := by
    have hm : (t1 + 0 * d) % 2 ^ 32 = t1 := by omega
    show window_frame_rate_update (fps_run w d t1 0).1 ((t1 + 0 * d) % 2 ^ 32) = _
    rw [hm]
    simp [fps_run, window_frame_rate_update, window_frame_rate_reset, fps_next_acc]
  have hdiv : ((16 * d + 8) % 2 ^ 32) >>> 4 = d := by
    rw [Nat.shiftRight_eq_div_pow]
    omega
  have hne : 16 * d ≠ 0 := by omega
  induction n with
  | zero =>
    have hdl : ((t1 + 1 * d) % 2 ^ 32 + 2 ^ 32 - t1) % 2 ^ 32 = d := by omega
    have hacc : fps_next_acc 0 t1 d = 16 * d := by
      have ht1 : t1 ≠ 0 := by omega
      simp only [fps_next_acc, if_true, ne_eq, ht1, not_false_eq_true, Nat.shiftLeft_eq]
      omega
    show window_frame_rate_update (fps_run w d t1 1).1 ((t1 + 1 * d) % 2 ^ 32) = _
    rw [h1]
    simp only [window_frame_rate_update, hdl, hacc, hdiv, if_pos hne]
  | succ n ih =>
    have hdl : ((t1 + (n + 2) * d) % 2 ^ 32 + 2 ^ 32 - (t1 + (n + 1) * d) % 2 ^ 32) % 2 ^ 32
        = d := by
      have := fps_delta (t1 + (n + 1) * d) d hd
      have he : t1 + (n + 1) * d + d = t1 + (n + 2) * d := by ring
      rw [he] at this
      exact this
    show window_frame_rate_update (fps_run w d t1 (n + 2)).1 ((t1 + (n + 2) * d) % 2 ^ 32) = _
    rw [ih]
    simp only [window_frame_rate_update, hdl, fps_steady d _ (16 * d) hd0 hd rfl, hdiv,
      if_pos hne]

/-- Claim C30: with 32-bit arithmetic and a first timestamp `t1` that is not
zero, for a window in any state `w` (whatever timestamp and accumulator
earlier frames left): the first update after `window_frame_rate_reset` leaves
the accumulator at 0 and reports the rate 0; the second update, at time `t2`,
sets the accumulator to 16 times the interval `t2 - t1`, both taken in 32-bit
arithmetic, which is exactly 16 times the interval when the interval is below
`2 ^ 28`; and for a constant interval `d` with `0 < d < 2 ^ 28` the second and
every later update leave the accumulator at `16 * d` and report a rate whose
divisor, the averaged period `(acc + 8) >> 4`, is `d`, which is not zero. -/
theorem C30_frame_rate_accumulator (w : fps_data) (t1 : Nat) (ht0 : 0 < t1)
    (ht : t1 < 2 ^ 32) :
    window_frame_rate_reset w = { fps_ts := 0, fps_acc := 0 } ∧
    window_frame_rate_update (window_frame_rate_reset w) t1 =
      ({ fps_ts := t1, fps_acc := 0 }, none) ∧
    (∀ t2, t2 < 2 ^ 32 →
      (window_frame_rate_update
        (window_frame_rate_update (window_frame_rate_reset w) t1).1 t2).1.fps_acc =
        (16 * ((t2 + 2 ^ 32 - t1) % 2 ^ 32)) % 2 ^ 32 ∧
      ((t2 + 2 ^ 32 - t1) % 2 ^ 32 < 2 ^ 28 →
        (window_frame_rate_update
          (window_frame_rate_update (window_frame_rate_reset w) t1).1 t2).1.fps_acc =
          16 * ((t2 + 2 ^ 32 - t1) % 2 ^ 32))) ∧
    (∀ d, 0 < d → d < 2 ^ 28 → ∀ n,
      fps_run w d t1 (n + 2) =
        ({ fps_ts := (t1 + (n + 1) * d) % 2 ^ 32, fps_acc := 16 * d }, some d) ∧
      (((fps_run w d t1 (n + 2)).1.fps_acc + 8) % 2 ^ 32) >>> 4 = d ∧ d ≠ 0) := by
  have ht1 : t1 ≠ 0 := by omega
  have hfirst : window_frame_rate_update (window_frame_rate_reset w) t1 =
      ({ fps_ts := t1, fps_acc := 0 }, none) := by
    simp [window_frame_rate_update, window_frame_rate_reset, fps_next_acc]
  refine ⟨rfl, hfirst, ?_, ?_⟩
  · intro t2 _
    rw [hfirst]
    have hacc : (window_frame_rate_update { fps_ts := t1, fps_acc := 0 } t2).1.fps_acc =
        (16 * ((t2 + 2 ^ 32 - t1) % 2 ^ 32)) % 2 ^ 32 := by
      simp only [window_frame_rate_update, fps_next_acc, if_true, ne_eq, ht1,
        not_false_eq_true, Nat.shiftLeft_eq]
      omega
    refine ⟨hacc, ?_⟩
    intro hlt
    rw [hacc]
    omega
  · intro d hd0 hd n
    have h := fps_run_steady w d t1 ht0 ht hd0 hd n
    refine ⟨h, ?_, by omega⟩
    rw [h, Nat.shiftRight_eq_div_pow]
    show (16 * d + 8) % 2 ^ 32 / 2 ^ 4 = d
    omega

/-- Claim C30, for a window that has run before (timestamp 5, accumulator
160), reset and then updated for frames 40000 microseconds apart starting at
time 1000: without the reset the first update would leave the accumulator
at 1145; with it the first update leaves the accumulator at 0, and after five
updates the accumulator is 640000 and the divisor reported is 40000. -/
theorem C30_frame_rate_accumulator_witness :
    (0 : Nat) < 1000 ∧ 1000 < 2 ^ 32 ∧
    window_frame_rate_update { fps_ts := 5, fps_acc := 160 } 1000 =
      ({ fps_ts := 1000, fps_acc := 1145 }, some 72) ∧
    window_frame_rate_update (window_frame_rate_reset { fps_ts := 5, fps_acc := 160 }) 1000 =
      ({ fps_ts := 1000, fps_acc := 0 }, none) ∧
    fps_run { fps_ts := 5, fps_acc := 160 } 40000 1000 5 =
      ({ fps_ts := 161000, fps_acc := 640000 }, some 40000) :=
  ⟨by decide, by decide, by decide,
   (C30_frame_rate_accumulator { fps_ts := 5, fps_acc := 160 } 1000 (by decide)
      (by decide)).2.1,
   ((C30_frame_rate_accumulator { fps_ts := 5, fps_acc := 160 } 1000 (by decide)
      (by decide)).2.2.2 40000 (by decide) (by decide) 3).1⟩

/-! ## Shared memory buffers allocation -/

theorem released_shmem_unwind (i : Nat) :
    released (shmem_unwind i) = (List.range i).reverse ∧ allocated (shmem_unwind i) = [] := by
  induction i with
  | zero => exact ⟨rfl, rfl⟩
  | succ i ih =>
    refine ⟨?_, ?_⟩
    · rw [List.range_succ, List.reverse_append]
      show i :: released (shmem_unwind i) = _
      rw [ih.1]
      rfl
    · show allocated (shmem_unwind i) = []
      exact ih.2

theorem shmem_allocate_from_ok (env : shm_env) (k : Nat) :
    ∀ i, (∀ j, i ≤ j → j < i + k → env.ok j = true) →
      (shmem_allocate_from env i k).1 = 0 ∧
      allocated (shmem_allocate_from env i k).2 = List.range' i k ∧
      released (shmem_allocate_from env i k).2 = [] := by
  induction k with
  | zero => intro i _; exact ⟨rfl, rfl, rfl⟩
  | succ k ih =>
    intro i h
    have hi := h i (le_refl i) (by omega)
    simp only [shm_env.ok, Bool.and_eq_true] at hi
    obtain ⟨⟨ha, hp⟩, hb⟩ := hi
    have hrec := ih (i + 1) (fun j h1 h2 => h j (by omega) (by omega))
    simp only [shmem_allocate_from, ha, hp, hb, Bool.not_true, Bool.false_eq_true, if_false]
    refine ⟨hrec.1, ?_, ?_⟩
    · show i :: allocated (shmem_allocate_from env (i + 1) k).2 = _
      rw [hrec.2.1]
      rfl
    · show released (shmem_allocate_from env (i + 1) k).2 = []
      exact hrec.2.2

theorem shmem_allocate_from_fail (env : shm_env) (m : Nat) (hm : env.ok m = false) (k : Nat) :
    ∀ i, i ≤ m → m < i + k → (∀ j, i ≤ j → j < m → env.ok j = true) →
      (shmem_allocate_from env i k).1 = -1 ∧
      allocated (shmem_allocate_from env i k).2 =
        List.range' i (m - i) ++ (if env.alloc m = true then [m] else []) ∧
      released (shmem_allocate_from env i k).2 =
        (if env.alloc m = true then [m] else []) ++ (List.range m).reverse := by
  induction k with
  | zero => intro i h1 h2; omega
  | succ k ih =>
    intro i h1 h2 h
    by_cases him : i = m
    · subst him
      have hu := released_shmem_unwind i
      simp only [shm_env.ok] at hm
      cases ha : env.alloc i
      · simp [shmem_allocate_from, ha, hu.1, hu.2]
      · cases hp : env.pool i
        · simp [shmem_allocate_from, ha, hp, hu.1, hu.2, allocated, released]
        · cases hb : env.buffer i
          · simp [shmem_allocate_from, ha, hp, hb, hu.1, hu.2, allocated, released]
          · rw [ha, hp, hb] at hm
            exact absurd hm (by decide)
    · have hi := h i (le_refl i) (by omega)
      simp only [shm_env.ok, Bool.and_eq_true] at hi
      obtain ⟨⟨ha, hp⟩, hb⟩ := hi
      have hrec := ih (i + 1) (by omega) (by omega) (fun j h3 h4 => h j (by omega) h4)
      simp only [shmem_allocate_from, ha, hp, hb, Bool.not_true, Bool.false_eq_true, if_false]
      refine ⟨hrec.1, ?_, ?_⟩
      · show i :: allocated (shmem_allocate_from env (i + 1) k).2 = _
        rw [hrec.2.1]
        have hs : m - i = (m - (i + 1)) + 1 := by omega
        rw [hs]
        rfl
      · show released (shmem_allocate_from env (i + 1) k).2 = _
        exact hrec.2.2

/-- Claim C22: for a supported pixel format with a buffer size that is not
zero, if `shmem_allocate_buffers` fails while creating buffer `i` with
`0 <= i < num` it returns -1 and has released every chunk it had allocated
exactly once, the chunk of buffer `i` first when it had been allocated and
then the completed buffers `i-1` down to 0; with an unsupported pixel format
it returns `-EINVAL` with no call made; and when every step succeeds it
returns 0 with the chunks 0 to `num-1` allocated and none released. -/
theorem C22_allocate_buffers_unwinds (env : shm_env) (w h : Int) (format : gst_video_format)
    (num : Nat) (hsize : __shmem_pixfmt_size w h format ≠ 0) :
    (∀ i, i < num → (∀ j, j < i → env.ok j = true) → env.ok i = false →
      (shmem_allocate_buffers env w h format num).1 = -1 ∧
      (shmem_allocate_buffers env w h format num).1 < 0 ∧
      allocated (shmem_allocate_buffers env w h format num).2 =
        List.range i ++ (if env.alloc i = true then [i] else []) ∧
      released (shmem_allocate_buffers env w h format num).2 =
        (if env.alloc i = true then [i] else []) ++ (List.range i).reverse ∧
      (released (shmem_allocate_buffers env w h format num).2).Perm
        (allocated (shmem_allocate_buffers env w h format num).2) ∧
      (allocated (shmem_allocate_buffers env w h format num).2).Nodup) ∧
    (∀ n, shmem_allocate_buffers env w h (.other n) num = (-EINVAL, [])) ∧
    ((∀ j, j < num → env.ok j = true) →
      (shmem_allocate_buffers env w h format num).1 = 0 ∧
      allocated (shmem_allocate_buffers env w h format num).2 = List.range num ∧
      released (shmem_allocate_buffers env w h format num).2 = []) := by
  have hr : shmem_allocate_buffers env w h format num = shmem_allocate_from env 0 num := by
    simp only [shmem_allocate_buffers, if_neg hsize]
    rfl
  refine ⟨?_, ?_, ?_⟩
  · intro i hi hok hf
    have hfl := shmem_allocate_from_fail env i hf num 0 (Nat.zero_le i) (by omega)
      (fun j _ h2 => hok j h2)
    rw [hr]
    have ha : allocated (shmem_allocate_from env 0 num).2 =
        List.range i ++ (if env.alloc i = true then [i] else []) := by
      rw [hfl.2.1, Nat.sub_zero, List.range_eq_range']
    refine ⟨hfl.1, ?_, ha, hfl.2.2, ?_, ?_⟩
    · rw [hfl.1]
      decide
    · rw [hfl.2.2, ha]
      exact List.perm_append_comm.trans
        (List.Perm.append_right _ (List.reverse_perm (List.range i)))
    · rw [ha]
      by_cases hal : env.alloc i = true
      · rw [if_pos hal, ← List.range_succ]
        exact List.nodup_range (i + 1)
      · rw [if_neg hal, List.append_nil]
        exact List.nodup_range i
  · intro n
    simp [shmem_allocate_buffers, __shmem_pixfmt_size]
  · intro hok
    have h := shmem_allocate_from_ok env num 0 (fun j _ h2 => hok j (by omega))
    rw [hr]
    refine ⟨h.1, ?_, h.2.2⟩
    rw [h.2.1, List.range_eq_range']

/-- Claim C22, for three buffers of 2 by 2 pixels when the pool of buffer 1
cannot be created: the result is -1, chunks 0 and 1 were allocated, and they
were released in the order 1, 0. -/
theorem C22_allocate_buffers_unwinds_witness :
    __shmem_pixfmt_size 2 2 .ARGB ≠ 0 ∧
    (shmem_allocate_buffers (pool_fails_at 1) 2 2 .ARGB 3).1 = -1 ∧
    allocated (shmem_allocate_buffers (pool_fails_at 1) 2 2 .ARGB 3).2 = [0, 1] ∧
    released (shmem_allocate_buffers (pool_fails_at 1) 2 2 .ARGB 3).2 = [1, 0] := by
  have h := (C22_allocate_buffers_unwinds (pool_fails_at 1) 2 2 .ARGB 3 (by decide)).1 1
    (by decide) (by decide) (by decide)
  exact ⟨by decide, h.1, h.2.2.1, h.2.2.2.1⟩

/-! ## Widget surfaces -/

theorem allocated_append (l1 l2 : List shm_effect) :
    allocated (l1 ++ l2) = allocated l1 ++ allocated l2 := by
  induction l1 with
  | nil => rfl
  | cons e l ih => cases e <;> simp [allocated, ih]

theorem released_append (l1 l2 : List shm_effect) :
    released (l1 ++ l2) = released l1 ++ released l2 := by
  induction l1 with
  | nil => rfl
  | cons e l ih => cases e <;> simp [released, ih]

theorem released_surfaces_unwind (i : Nat) :
    released (surfaces_unwind i) = (List.range i).reverse ∧
    allocated (surfaces_unwind i) = [] := by
  induction i with
  | zero => exact ⟨rfl, rfl⟩
  | succ i ih =>
    refine ⟨?_, ?_⟩
    · rw [List.range_succ, List.reverse_append]
      show i :: released (surfaces_unwind i) = _
      rw [ih.1]
      rfl
    · show allocated (surfaces_unwind i) = []
      exact ih.2

theorem create_surfaces_from_fail (env : surfaces_env) (m : Nat) (hm : env.surface m = false)
    (k : Nat) :
    ∀ i, i ≤ m → m < i + k → (∀ j, i ≤ j → j < m → env.surface j = true) →
      (create_surfaces_from env i k).1 = false ∧
      allocated (create_surfaces_from env i k).2 = [] ∧
      released (create_surfaces_from env i k).2 = (List.range m).reverse := by
  induction k with
  | zero => intro i h1 h2; omega
  | succ k ih =>
    intro i h1 h2 h
    by_cases him : i = m
    · subst him
      have hu := released_surfaces_unwind i
      simp [create_surfaces_from, hm, hu.1, hu.2]
    · have hi := h i (le_refl i) (by omega)
      have hrec := ih (i + 1) (by omega) (by omega) (fun j h3 h4 => h j (by omega) h4)
      simp only [create_surfaces_from, hi, Bool.not_true, Bool.false_eq_true, if_false]
      exact ⟨hrec.1, hrec.2.1, hrec.2.2⟩

/-- Claim C23, the code at the failing step: when the surface array and all
`num` buffers are allocated and the surface for buffer `i` is the first that
cannot be created, `__widget_create_surfaces` returns -1 with the surface
array null, having allocated the chunks 0 to `num-1` and released only the
chunks `i-1` down to 0, through the destruction of their surfaces: chunk `i`
(and every later one) is allocated during the call and never released. -/
theorem C23_surface_failure_leaks (env : surfaces_env) (num i : Nat) (w h : Int)
    (hsize : __shmem_pixfmt_size w h .ARGB ≠ 0) (hc : env.calloc = true)
    (hok : ∀ j, j < num → env.shm.ok j = true) (hi : i < num)
    (hs : ∀ j, j < i → env.surface j = true) (hf : env.surface i = false) :
    (__widget_create_surfaces env num w h).ret = -1 ∧
    (__widget_create_surfaces env num w h).cs = false ∧
    allocated (__widget_create_surfaces env num w h).log = List.range num ∧
    released (__widget_create_surfaces env num w h).log = (List.range i).reverse ∧
    (∀ j, i ≤ j → j < num →
      j ∈ allocated (__widget_create_surfaces env num w h).log ∧
      j ∉ released (__widget_create_surfaces env num w h).log) := by
  have hr : shmem_allocate_buffers env.shm w h .ARGB num = shmem_allocate_from env.shm 0 num := by
    simp only [shmem_allocate_buffers, if_neg hsize]
    rfl
  have ha := shmem_allocate_from_ok env.shm num 0 (fun j _ h2 => hok j (by omega))
  have hsf := create_surfaces_from_fail env i hf num 0 (Nat.zero_le i) (by omega)
    (fun j _ h2 => hs j h2)
  have hnum : (num : Int).toNat = num := rfl
  have hlog : (__widget_create_surfaces env num w h) =
      { ret := -1, cs := false,
        log := .calloc_cs :: (shmem_allocate_from env.shm 0 num).2 ++
          (create_surfaces_from env 0 num).2 ++ [.free_cs] } := by
    simp only [__widget_create_surfaces, hc, hr, ha.1, hnum, hsf.1, Bool.not_true,
      Bool.false_eq_true, if_false, lt_self_iff_false]
  have hal : allocated (__widget_create_surfaces env num w h).log = List.range num := by
    rw [hlog]
    show allocated ((shmem_allocate_from env.shm 0 num).2 ++
      (create_surfaces_from env 0 num).2 ++ [.free_cs]) = _
    rw [allocated_append, allocated_append, ha.2.1, hsf.2.1, List.range_eq_range']
    simp [allocated]
  have hre : released (__widget_create_surfaces env num w h).log = (List.range i).reverse := by
    rw [hlog]
    show released ((shmem_allocate_from env.shm 0 num).2 ++
      (create_surfaces_from env 0 num).2 ++ [.free_cs]) = _
    rw [released_append, released_append, ha.2.2, hsf.2.2]
    simp [released]
  refine ⟨by rw [hlog], by rw [hlog], hal, hre, ?_⟩
  intro j h1 h2
  rw [hal, hre]
  refine ⟨List.mem_range.mpr h2, ?_⟩
  intro hmem
  have := List.mem_range.mp (List.mem_reverse.mp hmem)
  omega

/-- Claim C23, at two buffers of 2 by 2 pixels when the surface for
buffer 1 cannot be created: the result is -1, chunks 0 and 1 were allocated
and only chunk 0 was released. -/
theorem C23_surface_failure_leaks_witness :
    (__widget_create_surfaces (surface_fails_at 1) 2 2 2).ret = -1 ∧
    (__widget_create_surfaces (surface_fails_at 1) 2 2 2).cs = false ∧
    allocated (__widget_create_surfaces (surface_fails_at 1) 2 2 2).log = [0, 1] ∧
    released (__widget_create_surfaces (surface_fails_at 1) 2 2 2).log = [0] := by
  have h := C23_surface_failure_leaks (surface_fails_at 1) 2 1 2 2 (by decide) rfl
    (by decide) (by decide) (by decide) (by decide)
  exact ⟨h.1, h.2.1, h.2.2.1, h.2.2.2.1⟩

/-! ## Camera input collection -/

theorem mask_bits : ∀ r, r < 16 → ∀ i, i < 4 →
    r &&& u32_not (1 <<< i) < 16 ∧
    ∀ j, j < 4 → ((r &&& u32_not (1 <<< i)) &&& (1 <<< j) ≠ 0 ↔
      (j ≠ i ∧ r &&& (1 <<< j) ≠ 0)) := by
  decide

theorem zero_bits : ∀ r, r < 16 → (r = 0 ↔ ∀ j, j < 4 → r &&& (1 <<< j) = 0) := by
  decide

theorem collect_spec (q : Nat → List Nat) :
    (collect { input_ready := 0, input := q }).2 =
      [(q 0).head?, (q 1).head?, (q 2).head?, (q 3).head?] ∧
    (∀ j, j < 4 → (collect { input_ready := 0, input := q }).1.input j = (q j).tail) ∧
    app_inv (collect { input_ready := 0, input := q }).1 := by
  have hin : (collect { input_ready := 0, input := q }).1.input =
      Function.update (Function.update (Function.update (Function.update q 0 (q 0).tail) 1
        (q 1).tail) 2 (q 2).tail) 3 (q 3).tail := by
    simp [collect, collect_step, Function.update_apply]
  have hq : ∀ j, j < 4 → (collect { input_ready := 0, input := q }).1.input j = (q j).tail := by
    intro j hj
    rw [hin]
    interval_cases j <;> simp [Function.update_apply]
  refine ⟨by simp [collect, collect_step, Function.update_apply], hq, ?_⟩
  have hr : (collect { input_ready := 0, input := q }).1.input_ready =
      (((if (q 0).tail = [] then 1 else 0) ||| (if (q 1).tail = [] then 2 else 0)) |||
        (if (q 2).tail = [] then 4 else 0)) ||| (if (q 3).tail = [] then 8 else 0) := by
    by_cases h0 : (q 0).tail = [] <;> by_cases h1 : (q 1).tail = [] <;>
      by_cases h2 : (q 2).tail = [] <;> by_cases h3 : (q 3).tail = [] <;>
      simp [collect, collect_step, Function.update_apply, h0, h1, h2, h3]
  refine ⟨?_, ?_⟩
  · rw [hr]
    by_cases h0 : (q 0).tail = [] <;> by_cases h1 : (q 1).tail = [] <;>
      by_cases h2 : (q 2).tail = [] <;> by_cases h3 : (q 3).tail = [] <;>
      simp [h0, h1, h2, h3]
  · intro j hj
    rw [hq j hj, hr]
    by_cases h0 : (q 0).tail = [] <;> by_cases h1 : (q 1).tail = [] <;>
      by_cases h2 : (q 2).tail = [] <;> by_cases h3 : (q 3).tail = [] <;>
      interval_cases j <;> simp [h0, h1, h2, h3] <;> decide

theorem enqueued_ne_nil (app : app_data) (i buffer : Nat) (j : Nat) :
    enqueued app i buffer j ≠ [] ↔ (j ≠ i → app.input j ≠ []) := by
  by_cases h : j = i
  · subst h
    simp [enqueued]
  · simp [enqueued, Function.update_apply, h]

theorem ready_zero_iff (app : app_data) (hinv : app_inv app) (i buffer : Nat) (hi : i < 4) :
    app.input_ready &&& u32_not (1 <<< i) = 0 ↔ ∀ j, j < 4 → enqueued app i buffer j ≠ [] := by
  have hm := mask_bits app.input_ready hinv.1 i hi
  rw [zero_bits _ hm.1]
  constructor
  · intro h j hj
    rw [enqueued_ne_nil]
    intro hne hnil
    have hb := (hinv.2 j hj).mpr hnil
    exact ((hm.2 j hj).mpr ⟨hne, hb⟩) (h j hj)
  · intro h j hj
    by_contra hb
    have := (hm.2 j hj).mp hb
    exact (enqueued_ne_nil app i buffer j).mp (h j hj) this.1 ((hinv.2 j hj).mp this.2)

theorem process_spec (app : app_data) (hinv : app_inv app) (i buffer : Nat) (hi : i < 4)
    (submit_ret : Int) :
    app_inv (app_input_process app i buffer true submit_ret).app ∧
    ((∀ j, j < 4 → enqueued app i buffer j ≠ []) →
      (app_input_process app i buffer true submit_ret).submitted =
        some [(enqueued app i buffer 0).head?, (enqueued app i buffer 1).head?,
          (enqueued app i buffer 2).head?, (enqueued app i buffer 3).head?] ∧
      ∀ j, j < 4 →
        (app_input_process app i buffer true submit_ret).app.input j =
          (enqueued app i buffer j).tail) ∧
    (¬ (∀ j, j < 4 → enqueued app i buffer j ≠ []) →
      (app_input_process app i buffer true submit_ret).submitted = none ∧
      (app_input_process app i buffer true submit_ret).app.input = enqueued app i buffer) ∧
    (0 ≤ submit_ret → (app_input_process app i buffer true submit_ret).ret = 0) := by
  have hz := ready_zero_iff app hinv i buffer hi
  have hm := mask_bits app.input_ready hinv.1 i hi
  have hv : ¬ ¬ (0 ≤ (i : Int) ∧ (i : Int) < VIN_NUMBER) := by
    simp only [VIN_NUMBER, not_not]
    omega
  have hn : (i : Int).toNat = i := rfl
  by_cases h0 : app.input_ready &&& u32_not (1 <<< i) = 0
  · have hall := hz.mp h0
    have hc := collect_spec (enqueued app i buffer)
    have hcol : collect
        { input_ready := app.input_ready &&& u32_not (1 <<< i),
          input := Function.update app.input i (app.input i ++ [buffer]) } =
        collect { input_ready := 0, input := enqueued app i buffer } := by
      rw [h0]
      rfl
    by_cases hs : submit_ret < 0
    · have hp : app_input_process app i buffer true submit_ret =
          { ret := submit_ret,
            app := (collect { input_ready := 0, input := enqueued app i buffer }).1,
            submitted := some (collect { input_ready := 0, input := enqueued app i buffer }).2 } := by
        simp only [app_input_process, if_neg hv, hn, Bool.not_true, Bool.false_eq_true, if_false,
          if_pos h0, if_pos hs, hcol]
      rw [hp]
      refine ⟨hc.2.2, fun _ => ⟨by rw [hc.1], hc.2.1⟩, fun h => absurd hall h, fun h => ?_⟩
      omega
    · have hp : app_input_process app i buffer true submit_ret =
          { ret := 0,
            app := (collect { input_ready := 0, input := enqueued app i buffer }).1,
            submitted := some (collect { input_ready := 0, input := enqueued app i buffer }).2 } := by
        simp only [app_input_process, if_neg hv, hn, Bool.not_true, Bool.false_eq_true, if_false,
          if_pos h0, if_neg hs, hcol]
      rw [hp]
      exact ⟨hc.2.2, fun _ => ⟨by rw [hc.1], hc.2.1⟩, fun h => absurd hall h, fun _ => rfl⟩
  · have hnall : ¬ (∀ j, j < 4 → enqueued app i buffer j ≠ []) := fun h => h0 (hz.mpr h)
    have hp : app_input_process app i buffer true submit_ret =
        { ret := 0,
          app := { input_ready := app.input_ready &&& u32_not (1 <<< i),
                   input := enqueued app i buffer },
          submitted := none } := by
      simp only [app_input_process, if_neg hv, hn, Bool.not_true, Bool.false_eq_true, if_false,
        if_neg h0]
      rfl
    rw [hp]
    refine ⟨⟨hm.1, ?_⟩, fun h => absurd h hnall, fun _ => ⟨rfl, rfl⟩, fun _ => rfl⟩
    intro j hj
    show (app.input_ready &&& u32_not (1 <<< i)) &&& (1 <<< j) ≠ 0 ↔ enqueued app i buffer j = []
    rw [hm.2 j hj]
    have he := enqueued_ne_nil app i buffer j
    constructor
    · intro ⟨hne, hb⟩
      by_contra hq
      exact (he.mp hq hne) ((hinv.2 j hj).mp hb)
    · intro hq
      by_cases hji : j = i
      · exact absurd hq (he.mpr (fun h => absurd hji h))
      · refine ⟨hji, (hinv.2 j hj).mpr ?_⟩
        have : enqueued app i buffer j = app.input j := by
          simp [enqueued, Function.update_apply, hji]
        rw [← this]
        exact hq

theorem process_inv (app : app_data) (hinv : app_inv app) (c : input_call) :
    app_inv (app_input_process app c.i c.buffer c.dims_ok c.submit_ret).app := by
  by_cases hv : 0 ≤ c.i ∧ c.i < VIN_NUMBER
  · cases hd : c.dims_ok
    · simp only [app_input_process, hv, not_true_eq_false, if_false, Bool.not_false, if_true]
      exact hinv
    · have hi : c.i.toNat < 4 := by
        have := hv.2
        simp only [VIN_NUMBER] at this
        omega
      have hci : ((c.i.toNat : Nat) : Int) = c.i := Int.toNat_of_nonneg hv.1
      have := (process_spec app hinv c.i.toNat c.buffer hi c.submit_ret).1
      rw [hci] at this
      exact this
  · simp only [app_input_process, hv, not_false_eq_true, if_true]
    exact hinv

theorem app_run_inv (calls : List input_call) : app_inv (app_run calls) := by
  have hgen : ∀ (l : List input_call) (app : app_data), app_inv app →
      app_inv (l.foldl
        (fun app c => (app_input_process app c.i c.buffer c.dims_ok c.submit_ret).app) app) := by
    intro l
    induction l with
    | nil => intro app h; exact h
    | cons c l ih =>
      intro app h
      exact ih _ (process_inv app h c)
  refine hgen calls app_context_init ⟨by decide, ?_⟩
  intro j hj
  interval_cases j <;> simp [app_context_init, VIN_NUMBER]

/-- Claim C27: in the state reached from the one set by `app_context_init`
(`input_ready = 0b1111`, four empty queues) by any sequence of calls of
`app_input_process`, and again after one more call with a valid camera index
`i` and a valid buffer, bit `j` of `input_ready` is set exactly when the
queue of camera `j` is empty; that call passes a group of buffers to the
engine exactly when, after the buffer has been queued, all four queues are
non-empty, and then the group is the oldest buffer of each queue and each
queue has lost exactly that buffer; otherwise the queues are left as they are
after queuing; and the call returns 0 unless the engine reports an error. -/
theorem C27_input_ready_tracks_queues (calls : List input_call) (i buffer : Nat)
    (submit_ret : Int) (hi : i < 4) :
    app_context_init.input_ready = 15 ∧
    app_inv (app_run calls) ∧
    app_inv (app_input_process (app_run calls) i buffer true submit_ret).app ∧
    ((app_input_process (app_run calls) i buffer true submit_ret).submitted ≠ none ↔
      ∀ j, j < 4 → enqueued (app_run calls) i buffer j ≠ []) ∧
    ((∀ j, j < 4 → enqueued (app_run calls) i buffer j ≠ []) →
      (app_input_process (app_run calls) i buffer true submit_ret).submitted =
        some [(enqueued (app_run calls) i buffer 0).head?,
          (enqueued (app_run calls) i buffer 1).head?,
          (enqueued (app_run calls) i buffer 2).head?,
          (enqueued (app_run calls) i buffer 3).head?] ∧
      ∀ j, j < 4 →
        (app_input_process (app_run calls) i buffer true submit_ret).app.input j =
          (enqueued (app_run calls) i buffer j).tail) ∧
    (¬ (∀ j, j < 4 → enqueued (app_run calls) i buffer j ≠ []) →
      (app_input_process (app_run calls) i buffer true submit_ret).app.input =
        enqueued (app_run calls) i buffer) ∧
    (0 ≤ submit_ret → (app_input_process (app_run calls) i buffer true submit_ret).ret = 0) := by
  have hinv := app_run_inv calls
  have hp := process_spec (app_run calls) hinv i buffer hi submit_ret
  refine ⟨by decide, hinv, hp.1, ?_, hp.2.1, fun h => (hp.2.2.1 h).2, hp.2.2.2⟩
  constructor
  · intro hs
    by_contra hn
    exact hs (hp.2.2.1 hn).1
  · intro h
    rw [(hp.2.1 h).1]
    simp

/-- Claim C27, after buffers 10, 11, 12 for the cameras 0 to 2 and a second
buffer 13 for camera 0: the buffer 14 of camera 3 completes the group, the
oldest buffer of each queue is submitted and camera 0 keeps buffer 13. -/
theorem C27_input_ready_tracks_queues_witness :
    (3 : Nat) < 4 ∧
    (app_input_process (app_run three_cameras_queued) 3 14 true 0).submitted =
      some [some 10, some 11, some 12, some 14] ∧
    (app_input_process (app_run three_cameras_queued) 3 14 true 0).app.input 0 = [13] ∧
    (app_input_process (app_run three_cameras_queued) 3 14 true 0).app.input_ready = 14 ∧
    app_inv (app_input_process (app_run three_cameras_queued) 3 14 true 0).app :=
  ⟨by decide, by decide, by decide, by decide,
   (C27_input_ready_tracks_queues three_cameras_queued 3 14 0 (by decide)).2.2.1⟩

end Utest
